import Mathlib

/-! # jambo: JVM dynamic attach

A shallow embedding of the parts of `jambo.go`, `jambo_linux.go` and
`jambo_windows.go` that decide the facade's PID validation and error wrapping, the
HotSpot request and response frames and attach trigger, the OpenJ9 command
translation and session, the process information read on Linux and the data block
and response of the Windows engine, with the properties proved about them.

Go strings are byte sequences: a string is a `List Nat` of byte values, indexing
and slicing are positional, and `string(buf)` / `[]byte(s)` are the identity. What
is proved for all lists of naturals holds in particular for all lists of bytes.
-/

set_option autoImplicit false

namespace Jambo

/-! ## Strings -/

/-- The bytes of an ASCII string literal of the source. -/
def str (s : String) : List Nat := s.toList.map Char.toNat

/-- Splits `s` at the first occurrence of the non-empty separator `sep`:
`some (before, after)`, or `none` when `sep` does not occur (Go: `strings.Cut`). -/
def Cut (sep : List Nat) : List Nat → Option (List Nat × List Nat)
  | [] => none
  | c :: t =>
    if sep.isPrefixOf (c :: t) then some ([], (c :: t).drop sep.length)
    else match Cut sep t with
      | some (a, b) => some (c :: a, b)
      | none => none

/-- Go `strings.Contains(s, sub)` for a non-empty `sub`. -/
def Contains (s sub : List Nat) : Bool := (Cut sub s).isSome

/-- Go `strings.SplitN(s, sep, 2)` for a non-empty `sep`: at most two pieces. -/
def SplitN2 (s sep : List Nat) : List (List Nat) :=
  match Cut sep s with
  | none => [s]
  | some (a, b) => [a, b]

/-- The pieces of `strings.Split`, cutting at most `fuel` times. -/
def splitLoop (sep : List Nat) : Nat → List Nat → List (List Nat)
  | 0, s => [s]
  | fuel + 1, s =>
    match Cut sep s with
    | none => [s]
    | some (a, b) => a :: splitLoop sep fuel b

/-- Go `strings.Split(s, sep)` for a non-empty `sep`; every cut consumes at least one
byte, so `s.length` cuts are enough. -/
def Split (s sep : List Nat) : List (List Nat) := splitLoop sep s.length s

/-- Go `strings.Join(elems, sep)`. -/
def Join : List (List Nat) → List Nat → List Nat
  | [], _ => []
  | [a], _ => a
  | a :: b :: rest, sep => a ++ sep ++ Join (b :: rest) sep

/-- The six ASCII white-space bytes of Go (`\t`, `\n`, `\v`, `\f`, `\r`, space). -/
def isAsciiSpace (c : Nat) : Bool :=
  c = 9 || c = 10 || c = 11 || c = 12 || c = 13 || c = 32

/-- Removes leading white space: the ASCII space bytes and the UTF-8 encodings of the
other runes for which Go's `unicode.IsSpace` holds (U+0085, U+00A0, U+1680,
U+2000..U+200A, U+2028, U+2029, U+202F, U+205F, U+3000). -/
def trimLeftSpace : List Nat → List Nat
  | [] => []
  | c :: t =>
    if isAsciiSpace c then trimLeftSpace t
    else match c, t with
      | 0xC2, d :: t2 => if d = 0x85 ∨ d = 0xA0 then trimLeftSpace t2 else c :: t
      | 0xE1, d :: e :: t3 => if d = 0x9A ∧ e = 0x80 then trimLeftSpace t3 else c :: t
      | 0xE2, d :: e :: t3 =>
        if (d = 0x80 ∧ ((0x80 ≤ e ∧ e ≤ 0x8A) ∨ e = 0xA8 ∨ e = 0xA9 ∨ e = 0xAF))
            ∨ (d = 0x81 ∧ e = 0x9F) then trimLeftSpace t3 else c :: t
      | 0xE3, d :: e :: t3 => if d = 0x80 ∧ e = 0x80 then trimLeftSpace t3 else c :: t
      | _, _ => c :: t

/-- Removes trailing white space from a string given in reverse byte order: `c` is the
last byte, `d` the one before it and `b` the one before `d`. -/
def trimRightSpaceRev : List Nat → List Nat
  | [] => []
  | c :: t =>
    if isAsciiSpace c then trimRightSpaceRev t
    else match t with
      | [] => c :: t
      | d :: t2 =>
        if d = 0xC2 ∧ (c = 0x85 ∨ c = 0xA0) then trimRightSpaceRev t2
        else match t2 with
          | [] => c :: t
          | b :: t3 =>
            if (b = 0xE1 ∧ d = 0x9A ∧ c = 0x80)
                ∨ (b = 0xE2 ∧ d = 0x80
                    ∧ ((0x80 ≤ c ∧ c ≤ 0x8A) ∨ c = 0xA8 ∨ c = 0xA9 ∨ c = 0xAF))
                ∨ (b = 0xE2 ∧ d = 0x81 ∧ c = 0x9F)
                ∨ (b = 0xE3 ∧ d = 0x80 ∧ c = 0x80) then trimRightSpaceRev t3
            else c :: t

/-- Go `strings.TrimSpace`: leading, then trailing white space removed. -/
def TrimSpace (s : List Nat) : List Nat :=
  (trimRightSpaceRev (trimLeftSpace s).reverse).reverse

/-! ## Integers and text -/

/-- Why `strconv.Atoi` rejected its input. -/
inductive NumError where
  | malformed
  | outOfRange
  deriving DecidableEq, Repr

/-- Value of a run of decimal digits read left to right from the accumulator `acc`;
`none` when a byte is not a digit. -/
def digitsValue : List Nat → Nat → Option Nat
  | [], acc => some acc
  | c :: t, acc => if 48 ≤ c ∧ c ≤ 57 then digitsValue t (acc * 10 + (c - 48)) else none

/-- What the digit loop of `strconv.ParseUint` ends with. -/
inductive UintScan where
  | value (n : Nat)
  | malformed
  | outOfRange
  deriving DecidableEq, Repr

/-- The digit loop of Go `strconv.ParseUint(s, 10, 64)` from the accumulator `n`: a byte
that is no digit is a syntax error; a digit that would take the value beyond 2^64 - 1
is a range error, reported at that digit, before the bytes after it are read. -/
def parseUintLoop : List Nat → Nat → UintScan
  | [], n => .value n
  | c :: t, n =>
    if 48 ≤ c ∧ c ≤ 57 then
      if (2 ^ 64 - 1) / 10 + 1 ≤ n then .outOfRange
      else if 2 ^ 64 - 1 < n * 10 + (c - 48) then .outOfRange
      else parseUintLoop t (n * 10 + (c - 48))
    else .malformed

/-- Go `strconv.Atoi` on a 64-bit platform (`ParseInt(s, 10, 0)`, with which its fast
path for short strings agrees): an optional sign and at least one decimal digit. A
malformed string gives 0 and a syntax error, a value outside the `int` range gives
the nearest bound and a range error. -/
def Atoi (s : List Nat) : Int × Option NumError :=
  let neg : Bool := s.head? = some 45
  let body : List Nat := if s.head? = some 45 ∨ s.head? = some 43 then s.tail else s
  if body = [] then (0, some .malformed)
  else
    match parseUintLoop body 0 with
    | .malformed => (0, some .malformed)
    | .outOfRange =>
      if neg then (-(2 ^ 63 : Int), some .outOfRange)
      else ((2 ^ 63 : Int) - 1, some .outOfRange)
    | .value u =>
      if neg then
        if 2 ^ 63 < u then (-(2 ^ 63 : Int), some .outOfRange) else (-(u : Int), none)
      else
        if 2 ^ 63 ≤ u then ((2 ^ 63 : Int) - 1, some .outOfRange) else ((u : Int), none)

/-- The decimal digits of a natural number. -/
def natDigits (n : Nat) : List Nat := (Nat.toDigits 10 n).map Char.toNat

/-- The text the `%d` verb of `fmt` prints for an integer (Go `strconv.Itoa`). -/
def Itoa (n : Int) : List Nat :=
  if n < 0 then 45 :: natDigits n.natAbs else natDigits n.natAbs

/-! ## Errors -/

/-- A Go `error` value: one of the package's four sentinel errors, an error made of
a message only (`errors.New`, `fmt.Errorf` without `%w`, an operating-system error),
or a message that wraps another error (`fmt.Errorf` with `%w`). -/
inductive GoError where
  | ErrProcessNotFound
  | ErrInvalidPID
  | ErrPermission
  | ErrCommandFailed
  | msg (text : List Nat)
  | wrapped (text : List Nat) (inner : GoError)
  deriving DecidableEq, Repr

/-- The message of an error (Go `err.Error()`). -/
def GoError.Error : GoError → List Nat
  | .ErrProcessNotFound => str "process not found"
  | .ErrInvalidPID => str "invalid process ID"
  | .ErrPermission => str "permission denied"
  | .ErrCommandFailed => str "command execution failed"
  | .msg text => text
  | .wrapped text _ => text

/-- Go `fmt.Errorf("%w: %v", sentinel, err)`. -/
def wrapError (sentinel err : GoError) : GoError :=
  .wrapped (sentinel.Error ++ str ": " ++ err.Error) sentinel

/-! ## The facade (`jambo.go`) -/

/-- The type of JVM implementation. -/
inductive JVMType where
  | HotSpot
  | OpenJ9
  | Unknown
  deriving DecidableEq, Repr

/-- Options of an attach operation. -/
structure Options where
  PrintOutput : Bool
  Timeout : Int
  deriving DecidableEq, Repr

/-- A target process; `jvm` is the engine chosen by `detectJVM`, `none` for a nil
interface value. -/
structure Process where
  pid : Int
  uid : Int
  gid : Int
  nsPid : Int
  jvm : Option JVMType
  deriving DecidableEq, Repr

/-- The calls the facade makes into the platform-specific half of the package. -/
inductive Step where
  | processLookup (pid : Int)
  | jvmDetection (nspid : Int)
  | namespaceEntry (pid : Int) (nsType : List Nat)
  | credentialQuery
  | credentialSwitch (uid gid : Int)
  | tempPathLookup (pid : Int)
  | engineAttach (jvm : JVMType) (pid nspid : Int) (args : List (List Nat))
      (printOutput : Bool) (tmpPath : List Nat)
  deriving DecidableEq, Repr

/-- The platform-specific functions `jambo.go` calls, as results of the environment:
`getProcessInfo`, `openJ9.Detect`, `enterNamespace`, `os.Geteuid`, `os.Getegid`,
`setCredentials`, `getTempPath` and the `Attach` method of the two engines. -/
structure Platform where
  getProcessInfo : Int → Except GoError (Int × Int × Int)
  detectOpenJ9 : Int → Bool
  enterNamespace : Int → List Nat → Option GoError
  geteuid : Int
  getegid : Int
  setCredentials : Int → Int → Option GoError
  getTempPath : Int → Except GoError (List Nat)
  jvmAttach : JVMType → Int → Int → List (List Nat) → Bool → List Nat →
    List Nat × Option GoError

/-- `NewProcess`: the process or the error, and the platform calls made, in order. -/
def NewProcess (sys : Platform) (pid : Int) : Except GoError Process × List Step :=
  if pid ≤ 0 then (.error .ErrInvalidPID, [])
  else
    match sys.getProcessInfo pid with
    | .error e => (.error (wrapError .ErrProcessNotFound e), [.processLookup pid])
    | .ok (uid, gid, nsPid) =>
      let jvm := if sys.detectOpenJ9 nsPid then JVMType.OpenJ9 else JVMType.HotSpot
      (.ok ⟨pid, uid, gid, nsPid, some jvm⟩, [.processLookup pid, .jvmDetection nsPid])

/-- `Process.enterNamespaces`: net, ipc, mnt in this order, stopping at an error. -/
def Process.enterNamespaces (sys : Platform) (p : Process) : Option GoError × List Step :=
  match sys.enterNamespace p.pid (str "net") with
  | some e => (some e, [.namespaceEntry p.pid (str "net")])
  | none =>
    match sys.enterNamespace p.pid (str "ipc") with
    | some e => (some e, [.namespaceEntry p.pid (str "net"), .namespaceEntry p.pid (str "ipc")])
    | none =>
      (sys.enterNamespace p.pid (str "mnt"),
        [.namespaceEntry p.pid (str "net"), .namespaceEntry p.pid (str "ipc"),
          .namespaceEntry p.pid (str "mnt")])

/-- `Process.setCredentials`: switches only when the effective ids differ. -/
def Process.setCredentials (sys : Platform) (p : Process) : Option GoError × List Step :=
  if sys.geteuid ≠ p.uid ∨ sys.getegid ≠ p.gid then
    match sys.setCredentials p.uid p.gid with
    | some e => (some (wrapError .ErrPermission e), [.credentialQuery, .credentialSwitch p.uid p.gid])
    | none => (none, [.credentialQuery, .credentialSwitch p.uid p.gid])
  else (none, [.credentialQuery])

/-- `Process.getTempPath`. -/
def Process.getTempPath (sys : Platform) (p : Process) : Except GoError (List Nat) × List Step :=
  if p.nsPid ≠ p.pid then (sys.getTempPath p.nsPid, [.tempPathLookup p.nsPid])
  else (sys.getTempPath p.pid, [.tempPathLookup p.pid])

/-- `Process.Attach`: the output and error returned, and the platform calls made. -/
def Process.Attach (sys : Platform) (p : Process) (command : List Nat)
    (args : List (List Nat)) (options : Option Options) :
    (List Nat × Option GoError) × List Step :=
  let options : Options := match options with
    | none => ⟨true, 0⟩
    | some o => o
  match p.enterNamespaces sys with
  | (some e, t1) => (([], some e), t1)
  | (none, t1) =>
    match p.setCredentials sys with
    | (some e, t2) => (([], some e), t1 ++ t2)
    | (none, t2) =>
      match p.getTempPath sys with
      | (.error e, t3) => (([], some e), t1 ++ t2 ++ t3)
      | (.ok tmpPath, t3) =>
        let allArgs := [command] ++ args
        match p.jvm with
        | none => (([], some (.msg (str "JVM not initialized"))), t1 ++ t2 ++ t3)
        | some jvm =>
          let t4 := [Step.engineAttach jvm p.pid p.nsPid allArgs options.PrintOutput tmpPath]
          match sys.jvmAttach jvm p.pid p.nsPid allArgs options.PrintOutput tmpPath with
          | (output, some e) => ((output, some (wrapError .ErrCommandFailed e)), t1 ++ t2 ++ t3 ++ t4)
          | (output, none) => ((output, none), t1 ++ t2 ++ t3 ++ t4)

/-- The package-level `Attach`. -/
def Attach (sys : Platform) (pid : Int) (command : List Nat) (args : List (List Nat))
    (printOutput : Bool) : (List Nat × Option GoError) × List Step :=
  match NewProcess sys pid with
  | (.error e, t) => (([], some e), t)
  | (.ok proc, t) =>
    match proc.Attach sys command args (some ⟨printOutput, 0⟩) with
    | (r, t2) => (r, t ++ t2)

/-- `ParsePID`. -/
def ParsePID (pidStr : List Nat) : Int × Option GoError :=
  match Atoi pidStr with
  | (_, some _) => (0, some .ErrInvalidPID)
  | (pid, none) => if pid ≤ 0 then (0, some .ErrInvalidPID) else (pid, none)

/-! ## HotSpot on Linux (`jambo_linux.go`) -/

/-- The first loop of `hotSpot.sendCommand`: `i` is the loop counter, the list holds
`args[i:]`, and `buf` is the buffer so far. -/
def writeArgs (cmdArgs : Nat) : Nat → List (List Nat) → List Nat → List Nat
  | _, [], buf => buf
  | i, a :: rest, buf =>
    if buf.length < 8192 then
      let buf1 := if cmdArgs ≤ i then buf.set (buf.length - 1) 32 else buf
      writeArgs cmdArgs (i + 1) rest (buf1 ++ a ++ [0])
    else buf

/-- The second loop of `hotSpot.sendCommand`, with `4 - i` iterations left. -/
def padArgs : Nat → List Nat → List Nat
  | 0, buf => buf
  | n + 1, buf => if buf.length < 8192 then padArgs n (buf ++ [0]) else buf

/-- The number of argument slots `hotSpot.sendCommand` fills one argument each. -/
def cmdArgsOf (args : List (List Nat)) : Nat :=
  if 2 ≤ args.length ∧ args.head? = some (str "jcmd") then 2
  else if 4 ≤ args.length then 4
  else args.length

/-- `hotSpot.sendCommand`: the bytes `data` handed to the single `syscall.Write`. -/
def hotSpot.sendCommand (args : List (List Nat)) : List Nat :=
  padArgs (4 - cmdArgsOf args) (writeArgs (cmdArgsOf args) 0 args (str "1" ++ [0]))

/-- What the next `syscall.Read` on the socket meets: bytes that have arrived, the end
of the stream, or a failure. -/
inductive ReadEvent where
  | data (bs : List Nat)
  | closed
  | fail (e : GoError)
  deriving DecidableEq, Repr

/-- A connected socket, as the sequence of events its successive reads will meet. -/
structure socketConn where
  incoming : List ReadEvent
  deriving DecidableEq, Repr

/-- The result of one `syscall.Read`: the count `n`, the bytes stored and the error. -/
structure ReadResult where
  n : Int
  bytes : List Nat
  err : Option GoError
  deriving DecidableEq, Repr

/-- One `syscall.Read(conn.fd, p)` with `len(p) = cap`: at most `cap` of the arrived
bytes are taken, the rest stays for the next read. -/
def socketConn.Read (conn : socketConn) (cap : Nat) : ReadResult × socketConn :=
  match conn.incoming with
  | [] => (⟨0, [], none⟩, conn)
  | .closed :: rest => (⟨0, [], none⟩, ⟨rest⟩)
  | .fail e :: rest => (⟨-1, [], some e⟩, ⟨rest⟩)
  | .data bs :: rest =>
    if bs.length ≤ cap then (⟨bs.length, bs, none⟩, ⟨rest⟩)
    else (⟨cap, bs.take cap, none⟩, ⟨.data (bs.drop cap) :: rest⟩)

/-- The loop of `hotSpot.readResponse` that reads the rest of a `load` output into
`buf[total:]`; returns the buffer and `total`. Every iteration adds at least one
byte, so `fuel = len(buf)` iterations are enough. -/
def readMore : Nat → socketConn → List Nat → Nat → List Nat × Nat
  | 0, _, buf, total => (buf, total)
  | fuel + 1, conn, buf, total =>
    if (total : Int) < (buf.length : Int) - 1 then
      match conn.Read (buf.length - total) with
      | (r, conn1) =>
        if r.err.isSome ∨ r.n ≤ 0 then (buf, total)
        else
          readMore fuel conn1
            (buf.take total ++ r.bytes ++ buf.drop (total + r.bytes.length))
            (total + r.bytes.length)
    else (buf, total)

/-- The integer `strconv.Atoi` parsed, or `dflt` when it returned an error. -/
def atoiOr (s : List Nat) (dflt : Int) : Int :=
  match Atoi s with
  | (code, none) => code
  | (_, some _) => dflt

/-- The part of `hotSpot.readResponse` that derives the return code of
`Agent_OnAttach` from the bytes `output` read for a `load` command. -/
def loadResultCode (resultCode : Int) (output : List Nat) : Int :=
  if resultCode = 0 ∧ 2 ≤ output.length then
    if Contains output (str "return code: ") then
      match SplitN2 (output.drop 2) (str "return code: ") with
      | _ :: p1 :: _ => atoiOr (TrimSpace ((Split p1 (str "\n")).headD [])) resultCode
      | _ => resultCode
    else if 2 < output.length ∧
        ((48 ≤ output.getD 2 0 ∧ output.getD 2 0 ≤ 57) ∨ output.getD 2 0 = 45) then
      atoiOr (TrimSpace ((Split (output.drop 2) (str "\n")).headD [])) resultCode
    else -1
  else resultCode

/-- The error `fmt.Errorf("command failed with code %d", resultCode)`. -/
def commandFailedWithCode (resultCode : Int) : GoError :=
  .msg (str "command failed with code " ++ Itoa resultCode)

/-- `hotSpot.readResponse` on Linux: the output string and the error returned. -/
def hotSpot.readResponse (conn : socketConn) (args : List (List Nat)) :
    List Nat × Option GoError :=
  match conn.Read 8192 with
  | (r, conn1) =>
    if r.n = 0 then ([], some (.msg (str "unexpected EOF reading response")))
    else match r.err with
      | some e => ([], some e)
      | none =>
        let buf := r.bytes
        let lines := SplitN2 buf (str "\n")
        if lines.length < 1 then ([], some (.msg (str "invalid response format")))
        else
          let line0 := lines.headD []
          let resultCode0 : Int := if 0 < line0.length then atoiOr line0 0 else 0
          let resultCode : Int :=
            if 0 < args.length ∧ args.head? = some (str "load") then
              match readMore buf.length conn1 buf buf.length with
              | (buf1, total) => loadResultCode resultCode0 (buf1.take total)
            else resultCode0
          match lines with
          | _ :: output :: _ =>
            if resultCode ≠ 0 then (output, some (commandFailedWithCode resultCode))
            else (output, none)
          | _ =>
            if resultCode ≠ 0 then ([], some (commandFailedWithCode resultCode))
            else ([], none)

/-- The outcomes of the operating-system steps of one HotSpot session on Linux:
`checkSocket`, `startAttachMechanism`, `connectToSocket` and the `syscall.Write`
of the request frame. -/
structure HotSpotHost where
  checkSocket : Bool
  startAttachMechanism : Option GoError
  connectToSocket : Except GoError socketConn
  write : List Nat → Option GoError

/-- `hotSpot.Attach` on Linux: the output and error returned, and the bytes printed to
standard output. -/
def hotSpot.Attach (host : HotSpotHost) (args : List (List Nat)) (printOutput : Bool) :
    (List Nat × Option GoError) × List Nat :=
  match (if host.checkSocket then none else host.startAttachMechanism) with
  | some err =>
    (([], some (.msg (str "failed to start attach mechanism: " ++ err.Error))), [])
  | none =>
    match host.connectToSocket with
    | .error err => (([], some err), [])
    | .ok conn =>
      match host.write (hotSpot.sendCommand args) with
      | some err => (([], some err), [])
      | none =>
        match hotSpot.readResponse conn args with
        | (_, some err) => (([], some err), [])
        | (output, none) => ((output, none), if printOutput then output else [])

/-! ## OpenJ9 command translation (`jambo_linux.go`) -/

/-- `openJ9.translateCommand`. -/
def openJ9.translateCommand (args : List (List Nat)) : List Nat :=
  match args with
  | [] => []
  | cmd :: _ =>
    if cmd = str "load" ∧ 2 ≤ args.length then
      let agentPath := args.getD 1 []
      let options := if 3 < args.length then args.getD 3 [] else []
      if 2 < args.length ∧ args.getD 2 [] = str "true" then
        str "ATTACH_LOADAGENTPATH(" ++ agentPath ++ str "," ++ options ++ str ")"
      else
        str "ATTACH_LOADAGENT(" ++ agentPath ++ str "," ++ options ++ str ")"
    else if cmd = str "jcmd" then
      if 1 < args.length then str "ATTACH_DIAGNOSTICS:" ++ Join (args.drop 1) (str ",")
      else str "ATTACH_DIAGNOSTICS:help"
    else if cmd = str "threaddump" then
      if 1 < args.length then str "ATTACH_DIAGNOSTICS:Thread.print," ++ args.getD 1 []
      else str "ATTACH_DIAGNOSTICS:Thread.print,"
    else if cmd = str "dumpheap" then
      if 1 < args.length then str "ATTACH_DIAGNOSTICS:Dump.heap," ++ args.getD 1 []
      else str "ATTACH_DIAGNOSTICS:Dump.heap,"
    else if cmd = str "inspectheap" then
      if 1 < args.length then str "ATTACH_DIAGNOSTICS:GC.class_histogram," ++ args.getD 1 []
      else str "ATTACH_DIAGNOSTICS:GC.class_histogram,"
    else if cmd = str "datadump" then
      if 1 < args.length then str "ATTACH_DIAGNOSTICS:Dump.java," ++ args.getD 1 []
      else str "ATTACH_DIAGNOSTICS:Dump.java,"
    else if cmd = str "properties" then str "ATTACH_GETSYSTEMPROPERTIES"
    else if cmd = str "agentProperties" then str "ATTACH_GETAGENTPROPERTIES"
    else cmd

/-! ## The request frame as the specification words it -/

/-- The number `k` of slots that hold arguments: 2 for `jcmd` with at least two
elements, `min(len(args), 4)` otherwise. -/
def specSlotCount (args : List (List Nat)) : Nat :=
  if args.head? = some (str "jcmd") ∧ 2 ≤ args.length then 2 else min args.length 4

/-- The four slots of the request frame: the first `k-1` arguments one per slot, the
remaining arguments joined by single spaces in slot `k`, and `4-k` empty slots. -/
def specSlots (args : List (List Nat)) : List (List Nat) :=
  args.take (specSlotCount args - 1)
    ++ [List.intercalate (str " ") (args.drop (specSlotCount args - 1))]
    ++ List.replicate (4 - specSlotCount args) []

/-- The request frame: the byte `1`, a NUL, then every slot followed by a NUL. -/
def specFrame (args : List (List Nat)) : List Nat :=
  str "1" ++ [0] ++ ((specSlots args).map (fun slot => slot ++ [0])).flatten

/-! ## More of the Go library -/

/-- Go `strings.Index(s, sep)` for a non-empty `sep`: the position of the first
occurrence of `sep` in `s`, `none` for -1. -/
def Index (s sep : List Nat) : Option Nat := (Cut sep s).map (fun p => p.1.length)

/-- The width in bytes of the white-space rune at the start of the string (an ASCII
space byte or the UTF-8 encoding of another rune of `unicode.IsSpace`), 0 when the
string does not start with white space. -/
def spaceWidth : List Nat → Nat
  | [] => 0
  | c :: t =>
    if isAsciiSpace c then 1
    else match c, t with
      | 0xC2, d :: _ => if d = 0x85 ∨ d = 0xA0 then 2 else 0
      | 0xE1, d :: e :: _ => if d = 0x9A ∧ e = 0x80 then 3 else 0
      | 0xE2, d :: e :: _ =>
        if (d = 0x80 ∧ ((0x80 ≤ e ∧ e ≤ 0x8A) ∨ e = 0xA8 ∨ e = 0xA9 ∨ e = 0xAF))
            ∨ (d = 0x81 ∧ e = 0x9F) then 3 else 0
      | 0xE3, d :: e :: _ => if d = 0x80 ∧ e = 0x80 then 3 else 0
      | _, _ => 0

/-- The scan of `strings.Fields`: `skip` bytes of a white-space rune are still to be
passed over, `cur` is the field collected so far. -/
def fieldsLoop : List Nat → Nat → List Nat → List (List Nat)
  | [], _, cur => if cur = [] then [] else [cur]
  | _ :: t, skip + 1, cur => fieldsLoop t skip cur
  | c :: t, 0, cur =>
    if spaceWidth (c :: t) = 0 then fieldsLoop t 0 (cur ++ [c])
    else if cur = [] then fieldsLoop t (spaceWidth (c :: t) - 1) []
    else cur :: fieldsLoop t (spaceWidth (c :: t) - 1) []

/-- Go `strings.Fields`: the maximal runs of bytes between white-space runes. -/
def Fields (s : List Nat) : List (List Nat) := fieldsLoop s 0 []

/-- The hexadecimal digits of a natural number, lowercase, most significant first. -/
def hexDigits (n : Nat) : List Nat := (Nat.toDigits 16 n).map Char.toNat

/-- The text the `%016x` verb of `fmt` prints for an unsigned integer: its lowercase
hexadecimal digits, padded on the left with zeros to a width of 16. -/
def Sprintf016x (n : Nat) : List Nat :=
  List.replicate (16 - (hexDigits n).length) 48 ++ hexDigits n

/-- The value of one hexadecimal digit, `none` for any other byte. -/
def hexDigitValue (c : Nat) : Option Nat :=
  if 48 ≤ c ∧ c ≤ 57 then some (c - 48)
  else if 97 ≤ c ∧ c ≤ 102 then some (c - 87)
  else if 65 ≤ c ∧ c ≤ 70 then some (c - 55)
  else none

/-- Value of a run of hexadecimal digits read left to right from `acc`. -/
def hexValue : List Nat → Nat → Option Nat
  | [], acc => some acc
  | c :: t, acc =>
    match hexDigitValue c with
    | some d => hexValue t (acc * 16 + d)
    | none => none

/-- Reading a text as a hexadecimal number: at least one digit, nothing else. -/
def parseHex (s : List Nat) : Option Nat :=
  if s = [] then none else hexValue s 0

/-- Go's `copy(dst, src)` on byte slices: the first `min(len(dst), len(src))` bytes of
`dst` are replaced by those of `src`. -/
def goCopy (dst src : List Nat) : List Nat :=
  src.take dst.length ++ dst.drop src.length

/-! ## OpenJ9 on Linux (`jambo_linux.go`) -/

/-- The byte an escape sequence stands for in `openJ9.unescapeString`: `f`, `n`, `r`
and `t` give form feed, line feed, carriage return and tab, any other byte itself. -/
def unescapeByte (e : Nat) : Nat :=
  if e = 102 then 12
  else if e = 110 then 10
  else if e = 114 then 13
  else if e = 116 then 9
  else e

/-- The loop of `openJ9.unescapeString` over the bytes from position `i` on: a
backslash that is not the last byte consumes the byte after it. -/
def unescapeLoop : List Nat → List Nat
  | [] => []
  | [c] => [c]
  | c :: e :: t =>
    if c = 92 then unescapeByte e :: unescapeLoop t
    else c :: unescapeLoop (e :: t)

/-- `openJ9.unescapeString`: the input is cut at its first line feed, then decoded. -/
def openJ9.unescapeString (s : List Nat) : List Nat :=
  match Index s (str "\n") with
  | some idx => unescapeLoop (s.take idx)
  | none => unescapeLoop s

/-- A TCP connection (`net.Conn`) to the VM, as the sequence of events its successive
reads will meet. -/
structure netConn where
  incoming : List ReadEvent
  deriving DecidableEq, Repr

/-- The error `io.EOF`. -/
def ioEOF : GoError := .msg (str "EOF")

/-- One `conn.Read(p)` with `len(p) = cap` on a `net.Conn`: the count, the bytes
stored, the error (`io.EOF` at the end of the stream) and the connection after it. -/
def netConn.Read (conn : netConn) (cap : Nat) :
    (Nat × List Nat × Option GoError) × netConn :=
  match conn.incoming with
  | [] => ((0, [], some ioEOF), conn)
  | .closed :: rest => ((0, [], some ioEOF), ⟨rest⟩)
  | .fail e :: rest => ((0, [], some e), ⟨rest⟩)
  | .data bs :: rest =>
    if bs.length ≤ cap then ((bs.length, bs, none), ⟨rest⟩)
    else ((cap, bs.take cap, none), ⟨.data (bs.drop cap) :: rest⟩)

/-- A bound on the number of reads a connection can serve before its events are
used up: every read consumes an event or at least one byte of one. -/
def netConn.budget (conn : netConn) : Nat :=
  (conn.incoming.map (fun ev => match ev with
    | .data bs => bs.length + 1
    | _ => 1)).sum

/-- The read loop of `openJ9.readResponse`: `buf` is what has been read so far. The
result is the response without its NUL terminator, or the error returned. -/
def readUntilNul : Nat → netConn → List Nat → Except GoError (List Nat) × netConn
  | 0, conn, _ => (.error (.msg (str "unexpected EOF reading response")), conn)
  | fuel + 1, conn, buf =>
    match conn.Read 1024 with
    | ((n, bs, err), conn1) =>
      if n = 0 then (.error (.msg (str "unexpected EOF reading response")), conn1)
      else match err with
        | some e => (.error (.msg (str "error reading response: " ++ e.Error)), conn1)
        | none =>
          if (buf ++ bs).getLast? = some 0 then (.ok (buf ++ bs).dropLast, conn1)
          else if 10 * 1024 * 1024 < (buf ++ bs).length then
            (.error (.msg (str "response too large")), conn1)
          else readUntilNul fuel conn1 (buf ++ bs)

/-- The status `openJ9.readResponse` derives from the response to an
`ATTACH_LOADAGENT` command. -/
def loadAgentResultCode (response : List Nat) : Int :=
  if (str "ATTACH_ACK").isPrefixOf response then 0
  else if (str "ATTACH_ERR AgentInitializationException").isPrefixOf response then
    if 2 < (Fields response).length then
      match Atoi ((Fields response).getD 2 []) with
      | (code, none) => code
      | (_, some _) => -1
    else -1
  else -1

/-- What `openJ9.readResponse` returns: the output string, the status, the error, and
what it printed to standard output. -/
structure J9Response where
  output : List Nat
  exitCode : Int
  err : Option GoError
  printed : List Nat
  deriving DecidableEq, Repr

/-- The part of `openJ9.readResponse` after the read loop, on the response text. -/
def openJ9.processResponse (response cmd : List Nat) (printOutput : Bool) : J9Response :=
  let resultCode : Int :=
    if (str "ATTACH_LOADAGENT").isPrefixOf cmd then loadAgentResultCode response else 0
  let diagnostic : Option (List Nat) :=
    if (str "ATTACH_DIAGNOSTICS:").isPrefixOf cmd ∧ printOutput = true then
      match Index response (str "openj9_diagnostics.string_result=") with
      | some idx => some (openJ9.unescapeString (response.drop (idx + 33)))
      | none => none
    else none
  match diagnostic with
  | some unescaped => ⟨unescaped, resultCode, none, unescaped ++ str "\n"⟩
  | none =>
    let printed := if printOutput then response ++ str "\n" else []
    if resultCode ≠ 0 then
      ⟨response, resultCode, some (commandFailedWithCode resultCode), printed⟩
    else ⟨response, resultCode, none, printed⟩

/-- `openJ9.readResponse`: the read loop, then the processing of the response. -/
def openJ9.readResponse (conn : netConn) (cmd : List Nat) (printOutput : Bool) :
    J9Response × netConn :=
  match readUntilNul (conn.budget + 1) conn [] with
  | (.error e, conn1) => (⟨[], 1, some e, []⟩, conn1)
  | (.ok response, conn1) => (openJ9.processResponse response cmd printOutput, conn1)

/-- `openJ9.writeReplyInfo`: the `content` written to the replyInfo file. -/
def openJ9.replyInfoContent (port : Int) (key : Nat) : List Nat :=
  Sprintf016x key ++ str "\n" ++ Itoa port ++ str "\n"

/-- The loop of `openJ9.acceptClient` that fills the 35-byte buffer: `got` holds the
`off` bytes read so far. -/
def readGreeting : Nat → netConn → List Nat → Except GoError (List Nat) × netConn
  | 0, conn, _ => (.error (.msg (str "JVM connection prematurely closed: EOF")), conn)
  | fuel + 1, conn, got =>
    if got.length < 35 then
      match conn.Read (35 - got.length) with
      | ((_, _, some e), conn1) =>
        (.error (.msg (str "JVM connection prematurely closed: " ++ e.Error)), conn1)
      | ((_, bs, none), conn1) => readGreeting fuel conn1 (got ++ bs)
    else (.ok got, conn)

/-- The text `openJ9.acceptClient` expects from the VM for a key. -/
def expectedGreeting (key : Nat) : List Nat :=
  str "ATTACH_CONNECTED " ++ Sprintf016x key ++ str " "

/-- The comparison of `openJ9.acceptClient`: the 35 bytes read, without their last
byte when it is NUL, against the expected text. -/
def greetingAccepted (key : Nat) (buf : List Nat) : Bool :=
  let response := if 0 < buf.length ∧ buf.getLast? = some 0 then buf.dropLast else buf
  response = expectedGreeting key

/-- `openJ9.acceptClient` after a successful `listener.Accept()`: the connection
ready for the command, or the error; in the error case the connection is closed. The
message for a wrong greeting is "unexpected JVM response: got %q, expected %q" in the
source; of it the error value here holds the fixed start "unexpected JVM response",
the two quoted texts that `fmt` renders after it are not part of the model. -/
def openJ9.acceptClient (conn : netConn) (key : Nat) : Except GoError netConn :=
  match readGreeting (conn.budget + 36) conn [] with
  | (.error e, _) => .error e
  | (.ok buf, conn1) =>
    if greetingAccepted key buf then .ok conn1
    else .error (.msg (str "unexpected JVM response"))

/-! ## The HotSpot trigger on Linux (`hotSpot.startAttachMechanism`) -/

/-- The two places of the trigger file `.attach_pid<nspid>`: the current directory of
the target and the attach working directory. -/
inductive TriggerFile where
  | cwd
  | tmp
  deriving DecidableEq, Repr

/-- The outcomes of the operating-system calls of one `startAttachMechanism`: the two
`syscall.Open` with `O_CREAT` (`none`: the file was created), the `syscall.Close` after
the first, the owner `getFileOwner` reports against `os.Geteuid()`, the delivery of
SIGQUIT, and, for the k-th poll (from 0), `checkSocket` and the zero-signal probe. -/
structure TriggerHost where
  openCwd : Option GoError
  closeCwd : Option GoError
  cwdOwner : Int
  euid : Int
  openTmp : Option GoError
  killQuit : Option GoError
  socketAtPoll : Nat → Bool
  aliveAtPoll : Nat → Bool

/-- What one `startAttachMechanism` leaves: the error returned, the trigger files that
exist afterwards, and the sleeps made, in milliseconds. -/
structure TriggerOutcome where
  err : Option GoError
  files : List TriggerFile
  sleeps : List Nat
  deriving DecidableEq, Repr

/-- The polling loop of `startAttachMechanism`: `delay` in milliseconds, `k` the number
of polls made, `path` the trigger file in use, `files` the trigger files that exist. -/
def pollSocket (host : TriggerHost) (path : TriggerFile) : Nat → Nat → Nat →
    List TriggerFile → List Nat → TriggerOutcome
  | 0, _, _, files, sleeps =>
    ⟨some (.msg (str "timeout waiting for attach socket")), files.erase path, sleeps⟩
  | fuel + 1, delay, k, files, sleeps =>
    if delay < 500 then
      if host.socketAtPoll k then ⟨none, files.erase path, sleeps ++ [delay]⟩
      else if host.aliveAtPoll k then
        pollSocket host path fuel (delay + 20) (k + 1) files (sleeps ++ [delay])
      else
        ⟨some (.msg (str "timeout waiting for attach socket")), files.erase path,
          sleeps ++ [delay]⟩
    else ⟨some (.msg (str "timeout waiting for attach socket")), files.erase path, sleeps⟩

/-- The part of `startAttachMechanism` after the trigger file `path` has been created:
the quit signal, then the polling loop (at most 24 sleeps, so 25 rounds are enough). -/
def signalAndPoll (host : TriggerHost) (path : TriggerFile) (files : List TriggerFile) :
    TriggerOutcome :=
  match host.killQuit with
  | some err => ⟨some err, files, []⟩
  | none => pollSocket host path 25 20 0 files []

/-- `hotSpot.startAttachMechanism`, starting without trigger files. -/
def hotSpot.startAttachMechanism (host : TriggerHost) : TriggerOutcome :=
  let files1 : List TriggerFile := match host.openCwd with
    | none => [.cwd]
    | some _ => []
  if host.openCwd.isSome ∨ (host.closeCwd = none ∧ host.cwdOwner ≠ host.euid) then
    match host.openTmp with
    | some err => ⟨some err, files1.erase .cwd, []⟩
    | none => signalAndPoll host .tmp ((files1.erase .cwd) ++ [.tmp])
  else signalAndPoll host .cwd files1

/-! ## The OpenJ9 session on Linux (`openJ9.Attach`) -/

/-- The outcomes of the operating-system steps of one OpenJ9 session: the `os.Stat` of
attachInfo, `acquireLock` of `_attachlock`, `createAttachSocket` (the port),
`randomKey`, the `syscall.Open` and `syscall.Write` of `writeReplyInfo`, the number of
peer locks `lockNotificationFiles` acquired, `notifySemaphore` with value 1 (its error
and the number of increments made before it), `listener.Accept()`, and the writes of
`writeCommand` (the error for the bytes to send). -/
structure J9Host where
  statAttachInfo : Option GoError
  acquireLock : Option GoError
  createAttachSocket : Except GoError Int
  randomKey : Nat
  openReplyInfo : Option GoError
  writeReplyInfo : Option GoError
  notifLocks : Nat
  notifyPost : Option GoError
  notifyPosted : Nat
  accept : Except GoError netConn
  write : List Nat → Option GoError

/-- The resources of one OpenJ9 session: whether the `_attachlock` lock is held, the
listener is open, the content of the replyInfo file when it exists, the number of peer
locks held, the semaphore increments and decrements made, whether the connection is
open, the messages sent to the VM, and what was printed. -/
structure J9State where
  attachLockHeld : Bool
  listenerOpen : Bool
  replyInfo : Option (List Nat)
  notifLocksHeld : Nat
  semIncrements : Nat
  semDecrements : Nat
  connOpen : Bool
  sent : List (List Nat)
  printed : List Nat
  deriving DecidableEq, Repr

/-- The deferred `o.releaseLock(attachLock)`. -/
def deferReleaseLock (s : J9State) : J9State := { s with attachLockHeld := false }

/-- The deferred `listener.Close()`, then the defers registered before it. -/
def deferListenerClose (s : J9State) : J9State :=
  deferReleaseLock { s with listenerOpen := false }

/-- The deferred `o.cleanupReplyInfo(tmpPath, nspid)`, then the earlier defers. -/
def deferCleanupReplyInfo (s : J9State) : J9State :=
  deferListenerClose { s with replyInfo := none }

/-- The deferred `o.unlockNotificationFiles(notifLocks)`, then the earlier defers. -/
def deferUnlockNotificationFiles (s : J9State) : J9State :=
  deferCleanupReplyInfo { s with notifLocksHeld := 0 }

/-- The deferred `o.notifySemaphore(tmpPath, -1, notifCount)`, whose errors are
ignored, then the earlier defers. -/
def deferNotifyDecrement (count : Nat) (s : J9State) : J9State :=
  deferUnlockNotificationFiles { s with semDecrements := s.semDecrements + count }

/-- The deferred `conn.Close()`, then the earlier defers. -/
def deferConnClose (count : Nat) (s : J9State) : J9State :=
  deferNotifyDecrement count { s with connOpen := false }

/-- The read loop of `openJ9.detach`: reads until an error, an empty read or a chunk
that ends with NUL. -/
def detachDrain : Nat → netConn → netConn
  | 0, conn => conn
  | fuel + 1, conn =>
    match conn.Read 256 with
    | ((n, bs, err), conn1) =>
      if err.isSome ∨ n = 0 then conn1
      else if bs.getLast? = some 0 then conn1
      else detachDrain fuel conn1

/-- `openJ9.detach`: sends `ATTACH_DETACHED` and a NUL, ignoring a write error, then
drains the reply. -/
def openJ9.detach (host : J9Host) (conn : netConn) (s : J9State) : netConn × J9State :=
  let msg := str "ATTACH_DETACHED" ++ [0]
  let s1 : J9State := match host.write msg with
    | none => { s with sent := s.sent ++ [msg] }
    | some _ => s
  (detachDrain (conn.budget + 1) conn, s1)

/-- The steps of `openJ9.Attach` after the connection has been accepted and its
closing deferred. -/
def openJ9.exchange (host : J9Host) (conn : netConn) (args : List (List Nat))
    (printOutput : Bool) (count : Nat) (s : J9State) :
    (List Nat × Option GoError) × J9State :=
  let s1 : J9State :=
    if printOutput then { s with printed := s.printed ++ str "Connected to remote JVM\n" }
    else s
  let translatedCmd := openJ9.translateCommand args
  match host.write (translatedCmd ++ [0]) with
  | some err =>
    (([], some (.msg (str "error writing command: " ++ err.Error))), deferConnClose count s1)
  | none =>
    let s2 : J9State := { s1 with sent := s1.sent ++ [translatedCmd ++ [0]] }
    match openJ9.readResponse conn translatedCmd printOutput with
    | (r, conn1) =>
      let s3 : J9State := { s2 with printed := s2.printed ++ r.printed }
      match r.err with
      | some err => ((r.output, some err), deferConnClose count s3)
      | none =>
        let s4 : J9State := if r.exitCode ≠ 1 then (openJ9.detach host conn1 s3).2 else s3
        if r.exitCode ≠ 0 then
          ((r.output, some (.msg (str "command execution failed with exit code "
            ++ Itoa r.exitCode))), deferConnClose count s4)
        else ((r.output, none), deferConnClose count s4)

/-- `openJ9.Attach` on Linux: the output and error returned, and the resources after
the deferred calls have run. -/
def openJ9.Attach (host : J9Host) (nspid : Int) (args : List (List Nat)) (printOutput : Bool)
    (tmpPath : List Nat) : (List Nat × Option GoError) × J9State :=
  let s0 : J9State := ⟨false, false, none, 0, 0, 0, false, [], []⟩
  match host.statAttachInfo with
  | some err =>
    (([], some (.msg (str "OpenJ9 attachInfo not found at " ++ tmpPath
      ++ str "/.com_ibm_tools_attach/" ++ Itoa nspid ++ str "/attachInfo: " ++ err.Error
      ++ str " (JVM may not have attach enabled)"))), s0)
  | none =>
    match host.acquireLock with
    | some err =>
      (([], some (.msg (str "could not acquire attach lock: " ++ err.Error))), s0)
    | none =>
      let s1 : J9State := { s0 with attachLockHeld := true }
      match host.createAttachSocket with
      | .error err =>
        (([], some (.msg (str "failed to create attach socket: " ++ err.Error))),
          deferReleaseLock s1)
      | .ok port =>
        let s2 : J9State := { s1 with listenerOpen := true }
        let key := host.randomKey % 2 ^ 64
        match host.openReplyInfo with
        | some err =>
          (([], some (.msg (str "could not write replyInfo: " ++ err.Error))),
            deferListenerClose s2)
        | none =>
          match host.writeReplyInfo with
          | some err =>
            (([], some (.msg (str "could not write replyInfo: " ++ err.Error))),
              deferListenerClose { s2 with replyInfo := some [] })
          | none =>
            let s3 : J9State :=
              { s2 with replyInfo := some (openJ9.replyInfoContent port key),
                        notifLocksHeld := host.notifLocks }
            match (if host.notifLocks = 0 then none else host.notifyPost) with
            | some err =>
              (([], some (.msg (str "could not notify semaphore: " ++ err.Error))),
                deferUnlockNotificationFiles
                  { s3 with semIncrements := host.notifyPosted })
            | none =>
              let s4 : J9State := { s3 with semIncrements := host.notifLocks }
              match host.accept with
              | .error err =>
                (([], some (.msg (str "JVM did not respond: JVM did not respond: "
                  ++ err.Error))), deferNotifyDecrement host.notifLocks s4)
              | .ok conn =>
                match openJ9.acceptClient conn key with
                | .error err =>
                  (([], some (.msg (str "JVM did not respond: " ++ err.Error))),
                    deferNotifyDecrement host.notifLocks s4)
                | .ok conn1 =>
                  openJ9.exchange host conn1 args printOutput host.notifLocks
                    { s4 with connOpen := true }

/-! ## The data block of the Windows engine (`jambo_windows.go`) -/

/-- The `callData` structure: two function pointers, the two fixed strings, the pipe
name and the four argument slots, every array with its fixed length. -/
structure callData where
  GetModuleHandleA : Nat
  GetProcAddress : Nat
  StrJvm : List Nat
  StrEnqueue : List Nat
  PipeName : List Nat
  Args : List (List Nat)
  deriving DecidableEq, Repr

/-- The loop of `allocateData` that sets the arguments: `i` is the loop counter, the
list holds `args[i:]`, and `slots` is `data.Args`. -/
def setArgs (cmdArgs : Nat) : Nat → List (List Nat) → List (List Nat) → List (List Nat)
  | _, [], slots => slots
  | i, a :: rest, slots =>
    if i < 4 then
      if i < cmdArgs then
        setArgs cmdArgs (i + 1) rest (slots.set i (goCopy (slots.getD i []) (a ++ [0])))
      else setArgs cmdArgs (i + 1) rest slots
    else slots

/-- The `data` block `hotSpot.allocateData` of the Windows engine builds, for the two
function addresses it looked up. -/
def Windows.allocateData (getModuleHandleA getProcAddress : Nat) (pipeName : List Nat)
    (args : List (List Nat)) : callData :=
  { GetModuleHandleA := getModuleHandleA
    GetProcAddress := getProcAddress
    StrJvm := goCopy (List.replicate 32 0) (str "jvm" ++ [0])
    StrEnqueue := goCopy (List.replicate 32 0) (str "_JVM_EnqueueOperation" ++ [0])
    PipeName := goCopy (List.replicate 260 0) (pipeName ++ [0])
    Args := setArgs (cmdArgsOf args) 0 args (List.replicate 4 (List.replicate 1024 0)) }

/-! ## Wrapped errors -/

/-- Go `errors.Is(err, target)`: `err` or an error it wraps is `target`. -/
def errorsIs : GoError → GoError → Bool
  | .wrapped text inner, target =>
    decide (GoError.wrapped text inner = target) || errorsIs inner target
  | .ErrProcessNotFound, target => decide (GoError.ErrProcessNotFound = target)
  | .ErrInvalidPID, target => decide (GoError.ErrInvalidPID = target)
  | .ErrPermission, target => decide (GoError.ErrPermission = target)
  | .ErrCommandFailed, target => decide (GoError.ErrCommandFailed = target)
  | .msg text, target => decide (GoError.msg text = target)

/-! ## The response of the Windows engine (`jambo_windows.go`) -/

/-- The error of one `windows.ReadFile` on the pipe. -/
inductive PipeError where
  | brokenPipe
  | noData
  | other (e : GoError)
  deriving DecidableEq, Repr

/-- The result of one `windows.ReadFile` into the 8192-byte buffer: the bytes stored
and the error. -/
structure PipeRead where
  bytes : List Nat
  err : Option PipeError
  deriving DecidableEq, Repr

/-- The named pipe as the Windows `readResponse` meets it: the error of
`ConnectNamedPipe` other than `ERROR_PIPE_CONNECTED`, and the results of the
successive `ReadFile` calls (no further data after the last one). -/
structure namedPipe where
  connect : Option GoError
  reads : List PipeRead
  deriving DecidableEq, Repr

/-- The read loop of the Windows `readResponse`: all bytes read, or the error. -/
def readPipe : List PipeRead → List Nat → Except GoError (List Nat)
  | [], allData => .ok allData
  | r :: rest, allData =>
    match r.err with
    | some .brokenPipe => .ok (allData ++ r.bytes)
    | some .noData => .ok (allData ++ r.bytes)
    | some (.other e) => .error (.msg (str "failed to read response: " ++ e.Error))
    | none => if r.bytes.length = 0 then .ok allData else readPipe rest (allData ++ r.bytes)

/-- The part of the Windows `readResponse` after the read loop: status line, output
and error for the bytes read. -/
def Windows.parseResponse (allData : List Nat) : List Nat × Option GoError :=
  if allData.length = 0 then ([], some (.msg (str "no data received from JVM")))
  else
    let lines := SplitN2 allData (str "\n")
    let resultCode : Int :=
      if 0 < lines.length then atoiOr (TrimSpace (lines.headD [])) 0 else 0
    let output : List Nat := if 1 < lines.length then lines.getD 1 [] else []
    if resultCode ≠ 0 then
      if output ≠ [] then
        (output, some (.msg (str "command failed with code " ++ Itoa resultCode ++ str ": "
          ++ output)))
      else ([], some (.msg (str "command failed with code " ++ Itoa resultCode)))
    else (output, none)

/-- The Windows `hotSpot.readResponse`. -/
def Windows.readResponse (pipe : namedPipe) : List Nat × Option GoError :=
  match pipe.connect with
  | some err => ([], some (.msg (str "failed to connect pipe: " ++ err.Error)))
  | none =>
    match readPipe pipe.reads [] with
    | .error e => ([], some e)
    | .ok allData => Windows.parseResponse allData

/-! ## Process information on Linux (`getProcessInfo`) -/

/-- A line without the carriage return that ends it, if any. -/
def dropCR (line : List Nat) : List Nat :=
  if line.getLast? = some 13 then line.dropLast else line

/-- The pieces of the content between line feeds, without the empty piece after a final
line feed. -/
def rawLines (content : List Nat) : List (List Nat) :=
  if (Split content (str "\n")).getLast? = some [] then (Split content (str "\n")).dropLast
  else Split content (str "\n")

/-- The lines a `bufio.Scanner` with its default settings yields: the text between line
feeds, without a final carriage return, up to the first line that does not fit with
its line feed into the 64 KiB buffer. -/
def scanLines (content : List Nat) : List (List Nat) :=
  ((rawLines content).takeWhile (fun l => decide (l.length ≤ 65535))).map dropCR

/-- The variables of the scan loop of `getProcessInfo`. -/
structure StatusScan where
  uidStr : List Nat
  gidStr : List Nat
  nspid : Int
  nspidFound : Bool
  deriving DecidableEq, Repr

/-- The body of the scan loop of `getProcessInfo` for one line. -/
def scanStatusLine (s : StatusScan) (line : List Nat) : StatusScan :=
  if (str "Uid:").isPrefixOf line then
    if 2 ≤ (Fields line).length then { s with uidStr := (Fields line).getD 1 [] } else s
  else if (str "Gid:").isPrefixOf line then
    if 2 ≤ (Fields line).length then { s with gidStr := (Fields line).getD 1 [] } else s
  else if (str "NStgid:").isPrefixOf line then
    if 2 ≤ (Fields line).length then
      { s with nspid := (Atoi ((Fields line).getD ((Fields line).length - 1) [])).1,
               nspidFound := true }
    else s
  else s

/-- What `getProcessInfo` returns. -/
structure ProcessInfo where
  uid : Int
  gid : Int
  nspid : Int
  err : Option GoError
  deriving DecidableEq, Repr

/-- `getProcessInfo` on Linux, for the result of opening and reading the status file
and for the value `altLookupNSPID(pid)` would return: the values returned, and whether
`altLookupNSPID` was called. -/
def getProcessInfo (status : Except GoError (List Nat)) (altLookupNSPID : Int) :
    ProcessInfo × Bool :=
  match status with
  | .error err => (⟨0, 0, 0, some err⟩, false)
  | .ok content =>
    let s := (scanLines content).foldl scanStatusLine ⟨[], [], 0, false⟩
    if s.uidStr = [] ∨ s.gidStr = [] then
      (⟨0, 0, 0, some (.msg (str "failed to parse process info"))⟩, false)
    else if s.nspidFound then
      (⟨(Atoi s.uidStr).1, (Atoi s.gidStr).1, s.nspid, none⟩, false)
    else (⟨(Atoi s.uidStr).1, (Atoi s.gidStr).1, altLookupNSPID, none⟩, true)

/-! ## Notions of the specification -/

/-- Property escaping as the specification words it: a backslash becomes two
backslashes, and LF, TAB, CR, FF become backslash-n, backslash-t, backslash-r,
backslash-f. -/
def escape : List Nat → List Nat
  | [] => []
  | c :: t =>
    if c = 92 then 92 :: 92 :: escape t
    else if c = 10 then 92 :: 110 :: escape t
    else if c = 9 then 92 :: 116 :: escape t
    else if c = 13 then 92 :: 114 :: escape t
    else if c = 12 then 92 :: 102 :: escape t
    else c :: escape t

/-- The last line that begins with `label` and has at least two white-space separated
fields. -/
def lastLabelled (label : List Nat) (lines : List (List Nat)) : Option (List Nat) :=
  (lines.filter (fun l => label.isPrefixOf l && decide (2 ≤ (Fields l).length))).getLast?

/-- A line of `/proc/<pid>/status` as the kernel writes it: the label and then, each
after a tab, the values in decimal. -/
def statusLine (label : List Nat) (values : List Nat) : List Nat :=
  label ++ (values.map (fun (v : Nat) => 9 :: Itoa (v : Int))).flatten

/-- The content of a file that consists of the given lines, each ended by a line
feed. -/
def fileOfLines (lines : List (List Nat)) : List Nat :=
  (lines.map (fun l => l ++ [10])).flatten

/-- The result of `getProcessInfo` as the specification words it, over the lines of
the status file: uid and gid are the second field of the last "Uid:" and "Gid:" line
with a value, ns_pid is the last field of the last "NStgid:" line with a value, each
as `strconv.Atoi` reads it; a missing Uid or Gid value is an error, and the fallback
value is used when there is no NStgid line with a value. The flag tells whether the
fallback was used. -/
def processInfoOfLines (lines : List (List Nat)) (fallback : Int) : ProcessInfo × Bool :=
  match lastLabelled (str "Uid:") lines, lastLabelled (str "Gid:") lines with
  | some u, some g =>
    match lastLabelled (str "NStgid:") lines with
    | some n =>
      (⟨(Atoi ((Fields u).getD 1 [])).1, (Atoi ((Fields g).getD 1 [])).1,
        (Atoi ((Fields n).getLast?.getD [])).1, none⟩, false)
    | none =>
      (⟨(Atoi ((Fields u).getD 1 [])).1, (Atoi ((Fields g).getD 1 [])).1, fallback, none⟩,
        true)
  | _, _ => (⟨0, 0, 0, some (.msg (str "failed to parse process info"))⟩, false)
/-! ## Sample environments -/

/-- A platform on which every step succeeds: any process is found, owned by the
caller, runs HotSpot, and its engine answers `ok`. -/
def samplePlatform : Platform where
  getProcessInfo := fun pid => .ok (0, 0, pid)
  detectOpenJ9 := fun _ => false
  enterNamespace := fun _ _ => none
  geteuid := 0
  getegid := 0
  setCredentials := fun _ _ => none
  getTempPath := fun _ => .ok (str "/tmp")
  jvmAttach := fun _ _ _ _ _ _ => (str "ok", none)

/-- A HotSpot session in which the attach socket exists, connecting and writing
succeed, and the VM answers with the status 107 and the body boom. -/
def failingStatusHost : HotSpotHost where
  checkSocket := true
  startAttachMechanism := none
  connectToSocket := .ok ⟨[.data (str "107\nboom")]⟩
  write := fun _ => none

/-- A HotSpot trigger step in which the trigger file is created in the target's
current directory with the right owner, and the quit signal cannot be delivered. -/
def undeliveredSignalHost : TriggerHost where
  openCwd := none
  closeCwd := none
  cwdOwner := 1000
  euid := 1000
  openTmp := none
  killQuit := some (.msg (str "no such process"))
  socketAtPoll := fun _ => false
  aliveAtPoll := fun _ => false

/-- An OpenJ9 session in which the replyInfo file is created but writing it fails;
every other step would succeed. -/
def replyWriteFailsHost : J9Host where
  statAttachInfo := none
  acquireLock := none
  createAttachSocket := .ok 40000
  randomKey := 0xdeadbeef
  openReplyInfo := none
  writeReplyInfo := some (.msg (str "no space left on device"))
  notifLocks := 1
  notifyPost := none
  notifyPosted := 1
  accept := .ok ⟨[.data (str "ATTACH_CONNECTED 00000000deadbeef " ++ [0]),
    .data (str "ATTACH_ACK" ++ [0])]⟩
  write := fun _ => none

/-- An OpenJ9 session for a `load` in which every step succeeds and the VM answers
that the agent failed with the code 7. -/
def agentErrorHost : J9Host where
  statAttachInfo := none
  acquireLock := none
  createAttachSocket := .ok 40000
  randomKey := 0xdeadbeef
  openReplyInfo := none
  writeReplyInfo := none
  notifLocks := 1
  notifyPost := none
  notifyPosted := 1
  accept := .ok ⟨[.data (str "ATTACH_CONNECTED 00000000deadbeef " ++ [0]),
    .data (str "ATTACH_ERR AgentInitializationException 7" ++ [0]),
    .data (str "ATTACH_RESULT=0" ++ [0])]⟩
  write := fun _ => none

/-- The same session with the answer `ATTACH_ACK`. -/
def agentLoadedHost : J9Host where
  statAttachInfo := none
  acquireLock := none
  createAttachSocket := .ok 40000
  randomKey := 0xdeadbeef
  openReplyInfo := none
  writeReplyInfo := none
  notifLocks := 1
  notifyPost := none
  notifyPosted := 1
  accept := .ok ⟨[.data (str "ATTACH_CONNECTED 00000000deadbeef " ++ [0]),
    .data (str "ATTACH_ACK" ++ [0]), .data (str "ATTACH_RESULT=0" ++ [0])]⟩
  write := fun _ => none

/-- A platform on which every step succeeds except the engine, which returns the
output "out" and the error "boom". -/
def engineFailsPlatform : Platform where
  getProcessInfo := fun pid => .ok (0, 0, pid)
  detectOpenJ9 := fun _ => false
  enterNamespace := fun _ _ => none
  geteuid := 0
  getegid := 0
  setCredentials := fun _ _ => none
  getTempPath := fun _ => .ok (str "/tmp")
  jvmAttach := fun _ _ _ _ _ _ => (str "out", some (.msg (str "boom")))

/-- A HotSpot trigger step in which the trigger file is created, the quit signal is
delivered, the attach socket never appears and the target stays alive. -/
def silentTargetHost : TriggerHost where
  openCwd := none
  closeCwd := none
  cwdOwner := 1000
  euid := 1000
  openTmp := none
  killQuit := none
  socketAtPoll := fun _ => false
  aliveAtPoll := fun _ => true

/-! # Theorems -/

/-! ## Facade -/

/-- C1: for every pid at most 0, `NewProcess` fails with `ErrInvalidPID` and the
package-level `Attach` returns the empty output with `ErrInvalidPID`, and in both
cases no platform call (process lookup, JVM detection, namespace entry, credential
switch, temp-path lookup, engine attach) has been made. -/
theorem C1_invalid_pid_rejected_first (sys : Platform) (pid : Int) (hpid : pid ≤ 0)
    (command : List Nat) (args : List (List Nat)) (printOutput : Bool) :
    NewProcess sys pid = (.error .ErrInvalidPID, [])
      ∧ Attach sys pid command args printOutput = (([], some .ErrInvalidPID), []) := by
  have h1 : NewProcess sys pid = (.error .ErrInvalidPID, []) := by
    simp [NewProcess, hpid]
  exact ⟨h1, by simp [Attach, h1]⟩

/-- C1 at pid = -1 on a platform where every later step would succeed. -/
theorem C1_invalid_pid_rejected_first_witness :
    ((-1 : Int) ≤ 0)
      ∧ NewProcess samplePlatform (-1) = (.error .ErrInvalidPID, [])
      ∧ Attach samplePlatform (-1) (str "threaddump") [] true
          = (([], some .ErrInvalidPID), []) :=
  ⟨by decide, C1_invalid_pid_rejected_first samplePlatform (-1) (by decide)
    (str "threaddump") [] true⟩

/-- C2: for every string, either `strconv.Atoi` accepts it with a value `n > 0` and
`ParsePID` returns `n` without error, or there is no such value and `ParsePID` returns
0 with `ErrInvalidPID`; so "12345" gives 12345 and "0", "-1", "abc" and the empty
string give the error. -/
theorem C2_ParsePID_positive_decimal_only :
    (∀ s : List Nat,
      (∃ n : Int, 0 < n ∧ Atoi s = (n, none) ∧ ParsePID s = (n, none))
        ∨ ((¬ ∃ n : Int, 0 < n ∧ Atoi s = (n, none))
            ∧ ParsePID s = (0, some .ErrInvalidPID)))
      ∧ ParsePID (str "12345") = (12345, none)
      ∧ ParsePID (str "0") = (0, some .ErrInvalidPID)
      ∧ ParsePID (str "-1") = (0, some .ErrInvalidPID)
      ∧ ParsePID (str "abc") = (0, some .ErrInvalidPID)
      ∧ ParsePID (str "") = (0, some .ErrInvalidPID) := by
  refine ⟨?_, by decide, by decide, by decide, by decide, by decide⟩
  intro s
  unfold ParsePID
  rcases h : Atoi s with ⟨v, e⟩
  cases e with
  | some e =>
    right
    refine ⟨?_, rfl⟩
    rintro ⟨n, _, hn⟩
    simp at hn
  | none =>
    by_cases hv : v ≤ 0
    · right
      refine ⟨?_, by simp [hv]⟩
      rintro ⟨n, hpos, hn⟩
      simp at hn
      omega
    · left
      exact ⟨v, by omega, rfl, by simp [hv]⟩

/-! ## Strings: lemmas -/

/-- `Join` puts the separator between consecutive elements. -/
theorem Join_eq_intercalate (sep : List Nat) :
    ∀ xs : List (List Nat), Join xs sep = List.intercalate sep xs
  | [] => rfl
  | [a] => by simp [Join, List.intercalate]
  | a :: b :: rest => by
    have ih := Join_eq_intercalate sep (b :: rest)
    simp only [Join, ih]
    simp [List.intercalate, List.intersperse]

/-! ## OpenJ9 command translation -/

/-- C8: for every argument list whose first element is `load` and that has at least
two elements, the translation is `ATTACH_LOADAGENTPATH(` when a third element exists
and equals `true` and `ATTACH_LOADAGENT(` otherwise, followed by `args[1]`, a comma,
`args[3]` when it exists (nothing when it does not) and `)`. -/
theorem C8_translateCommand_load (args : List (List Nat))
    (hcmd : args[0]? = some (str "load")) (hlen : 2 ≤ args.length) :
    openJ9.translateCommand args =
      (if args[2]? = some (str "true") then str "ATTACH_LOADAGENTPATH("
        else str "ATTACH_LOADAGENT(")
        ++ (args[1]?).getD [] ++ str "," ++ (args[3]?).getD [] ++ str ")" := by
  match args, hcmd, hlen with
  | [cmd, path], hcmd, _ =>
    simp at hcmd
    subst hcmd
    simp [openJ9.translateCommand]
  | [cmd, path, abs], hcmd, _ =>
    simp at hcmd
    subst hcmd
    by_cases h : abs = str "true" <;> simp [openJ9.translateCommand, h]
  | cmd :: path :: abs :: opts :: rest, hcmd, _ =>
    simp at hcmd
    subst hcmd
    by_cases h : abs = str "true" <;> simp [openJ9.translateCommand, h]

/-- C8 on the argument list load, /a.so, true, k=v. -/
theorem C8_translateCommand_load_witness :
    openJ9.translateCommand [str "load", str "/a.so", str "true", str "k=v"]
      = str "ATTACH_LOADAGENTPATH(/a.so,k=v)" :=
  (C8_translateCommand_load [str "load", str "/a.so", str "true", str "k=v"]
    (by decide) (by decide)).trans (by decide)

/-- C9: for every argument list whose first element is `jcmd`, the translation is
`ATTACH_DIAGNOSTICS:` followed by the remaining elements in order with single commas
between them, and `ATTACH_DIAGNOSTICS:help` when there is no remaining element. -/
theorem C9_translateCommand_jcmd (rest : List (List Nat)) :
    openJ9.translateCommand (str "jcmd" :: rest) =
      (if rest = [] then str "ATTACH_DIAGNOSTICS:help"
        else str "ATTACH_DIAGNOSTICS:" ++ List.intercalate (str ",") rest)
      ∧ openJ9.translateCommand [str "jcmd", str "GC.heap_info", str "arg1", str "arg2"]
          = str "ATTACH_DIAGNOSTICS:GC.heap_info,arg1,arg2" := by
  refine ⟨?_, by decide⟩
  have hne : ¬ (str "jcmd" = str "load") := by decide
  cases rest with
  | nil => simp [openJ9.translateCommand, hne]
  | cons a r => simp [openJ9.translateCommand, hne, Join_eq_intercalate]

/-- C10: for `threaddump`, `dumpheap`, `inspectheap` and `datadump` the translation is
the fixed text ending in a comma followed by `args[1]` when it is present and by
nothing when it is not, whatever follows `args[1]`. -/
theorem C10_translateCommand_diagnostics (rest : List (List Nat)) :
    openJ9.translateCommand (str "threaddump" :: rest)
        = str "ATTACH_DIAGNOSTICS:Thread.print," ++ (rest[0]?).getD []
      ∧ openJ9.translateCommand (str "dumpheap" :: rest)
        = str "ATTACH_DIAGNOSTICS:Dump.heap," ++ (rest[0]?).getD []
      ∧ openJ9.translateCommand (str "inspectheap" :: rest)
        = str "ATTACH_DIAGNOSTICS:GC.class_histogram," ++ (rest[0]?).getD []
      ∧ openJ9.translateCommand (str "datadump" :: rest)
        = str "ATTACH_DIAGNOSTICS:Dump.java," ++ (rest[0]?).getD [] := by
  have h1 : ¬ (str "threaddump" = str "load") := by decide
  have h2 : ¬ (str "threaddump" = str "jcmd") := by decide
  have h3 : ¬ (str "dumpheap" = str "load") := by decide
  have h4 : ¬ (str "dumpheap" = str "jcmd") := by decide
  have h5 : ¬ (str "dumpheap" = str "threaddump") := by decide
  have h6 : ¬ (str "inspectheap" = str "load") := by decide
  have h7 : ¬ (str "inspectheap" = str "jcmd") := by decide
  have h8 : ¬ (str "inspectheap" = str "threaddump") := by decide
  have h9 : ¬ (str "inspectheap" = str "dumpheap") := by decide
  have h10 : ¬ (str "datadump" = str "load") := by decide
  have h11 : ¬ (str "datadump" = str "jcmd") := by decide
  have h12 : ¬ (str "datadump" = str "threaddump") := by decide
  have h13 : ¬ (str "datadump" = str "dumpheap") := by decide
  have h14 : ¬ (str "datadump" = str "inspectheap") := by decide
  cases rest with
  | nil =>
    simp [openJ9.translateCommand, h1, h2, h3, h4, h5, h6, h7, h8, h9, h10, h11, h12,
      h13, h14]
  | cons a r =>
    simp [openJ9.translateCommand, h1, h2, h3, h4, h5, h6, h7, h8, h9, h10, h11, h12,
      h13, h14]

/-! ## HotSpot request frame -/

theorem intercalate_cons (sep x : List Nat) :
    ∀ l : List (List Nat),
      List.intercalate sep (x :: l) = x ++ (l.map (fun a => sep ++ a)).flatten
  | [] => by simp [List.intercalate]
  | y :: l => by
    have ih := intercalate_cons sep y l
    simp only [List.intercalate, List.intersperse, List.flatten_cons, List.map_cons] at ih ⊢
    rw [ih]
    simp

/-- While fewer than `cmdArgs` arguments have been written and the buffer stays
within 8192 bytes, the first loop appends every argument followed by a NUL. -/
theorem writeArgs_plain (cmdArgs : Nat) :
    ∀ (l : List (List Nat)) (i : Nat) (l2 : List (List Nat)) (buf : List Nat),
      i + l.length ≤ cmdArgs →
      (buf ++ (l.map (fun a => a ++ [0])).flatten).length ≤ 8192 →
      writeArgs cmdArgs i (l ++ l2) buf
        = writeArgs cmdArgs (i + l.length) l2 (buf ++ (l.map (fun a => a ++ [0])).flatten)
  | [], i, l2, buf, _, _ => by simp
  | a :: l, i, l2, buf, hi, hlen => by
    simp only [List.length_cons] at hi
    simp only [List.map_cons, List.flatten_cons, List.length_append, List.length_cons,
      List.length_nil] at hlen
    have hguard : buf.length < 8192 := by omega
    have hlt : ¬ cmdArgs ≤ i := by omega
    have ih := writeArgs_plain cmdArgs l (i + 1) l2 (buf ++ a ++ [0]) (by omega)
      (by simp only [List.length_append, List.length_cons, List.length_nil]; omega)
    have hstep : writeArgs cmdArgs i (a :: (l ++ l2)) buf
        = writeArgs cmdArgs (i + 1) (l ++ l2) (buf ++ a ++ [0]) := by
      simp [writeArgs, hguard, hlt]
    have hidx : i + (a :: l).length = i + 1 + l.length := by
      simp only [List.length_cons]; omega
    rw [List.cons_append, hstep, ih, hidx]
    simp

/-- Once `cmdArgs` arguments have been written, the first loop turns the closing NUL
into a space before every further argument, as long as the buffer stays within 8192
bytes. -/
theorem writeArgs_merge (cmdArgs : Nat) :
    ∀ (l : List (List Nat)) (i : Nat) (pre : List Nat),
      cmdArgs ≤ i →
      (pre ++ (l.map (fun a => [32] ++ a)).flatten ++ [0]).length ≤ 8192 →
      writeArgs cmdArgs i l (pre ++ [0]) = pre ++ (l.map (fun a => [32] ++ a)).flatten ++ [0]
  | [], i, pre, _, _ => by simp [writeArgs]
  | a :: l, i, pre, hi, hlen => by
    simp only [List.map_cons, List.flatten_cons, List.length_append, List.length_cons,
      List.length_nil] at hlen
    have hguard : (pre ++ [0]).length < 8192 := by
      simp only [List.length_append, List.length_cons, List.length_nil]; omega
    have hset : (pre ++ [0]).set ((pre ++ [0]).length - 1) 32 = pre ++ [32] := by
      simp
    have ih := writeArgs_merge cmdArgs l (i + 1) (pre ++ [32] ++ a) (by omega)
      (by simp only [List.length_append, List.length_cons, List.length_nil]; omega)
    simp only [writeArgs, hguard, hi, if_true, hset]
    rw [ih]
    simp

/-- The padding loop appends one NUL per iteration while the buffer stays within
8192 bytes. -/
theorem padArgs_within : ∀ (n : Nat) (buf : List Nat),
    buf.length + n ≤ 8192 → padArgs n buf = buf ++ List.replicate n 0
  | 0, buf, _ => by simp [padArgs]
  | n + 1, buf, h => by
    have hguard : buf.length < 8192 := by omega
    have ih := padArgs_within n (buf ++ [0]) (by simp; omega)
    simp only [padArgs, hguard, if_true, ih, List.replicate_succ]
    simp

theorem cmdArgsOf_eq_specSlotCount (args : List (List Nat)) :
    cmdArgsOf args = specSlotCount args := by
  unfold cmdArgsOf specSlotCount
  split_ifs <;> first | rfl | omega | (exfalso; tauto)

theorem specSlotCount_bounds (args : List (List Nat)) (hne : args ≠ []) :
    1 ≤ specSlotCount args ∧ specSlotCount args ≤ args.length ∧ specSlotCount args ≤ 4 := by
  have hlen : 1 ≤ args.length := by
    cases args with
    | nil => exact absurd rfl hne
    | cons a l => simp
  unfold specSlotCount
  split_ifs <;> omega

/-- The frame of the specification with its slots written out. -/
theorem specFrame_unfold (args : List (List Nat)) :
    specFrame args = str "1" ++ [0]
      ++ ((args.take (specSlotCount args - 1)).map (fun a => a ++ [0])).flatten
      ++ List.intercalate (str " ") (args.drop (specSlotCount args - 1)) ++ [0]
      ++ List.replicate (4 - specSlotCount args) 0 := by
  simp [specFrame, specSlots, List.map_replicate]

/-- For a non-empty argument list whose specified frame fits in 8192 bytes,
`sendCommand` builds exactly the specified frame. -/
theorem sendCommand_eq_specFrame (args : List (List Nat)) (hne : args ≠ [])
    (hfit : (specFrame args).length ≤ 8192) :
    hotSpot.sendCommand args = specFrame args := by
  obtain ⟨hk1, hklen, hk4⟩ := specSlotCount_bounds args hne
  rw [specFrame_unfold] at hfit ⊢
  unfold hotSpot.sendCommand
  rw [cmdArgsOf_eq_specSlotCount]
  generalize specSlotCount args = k at *
  obtain ⟨j, rfl⟩ : ∃ j, k = j + 1 := ⟨k - 1, by omega⟩
  simp only [Nat.add_sub_cancel] at hfit ⊢
  have hj : j < args.length := by omega
  have hdrop : args.drop j = args[j] :: args.drop (j + 1) := List.drop_eq_getElem_cons hj
  have hspace : str " " = [32] := by decide
  rw [hdrop, intercalate_cons, hspace] at hfit ⊢
  have hsplit : args = (args.take j ++ [args[j]]) ++ args.drop (j + 1) := by
    rw [List.append_assoc, List.singleton_append, ← hdrop, List.take_append_drop]
  simp only [List.length_append, List.length_replicate, List.length_cons,
    List.length_nil] at hfit
  have htake : (args.take j).length = j := List.length_take_of_le (by omega)
  have hplain := writeArgs_plain (j + 1) (args.take j ++ [args[j]]) 0 (args.drop (j + 1))
    (str "1" ++ [0]) (by simp only [List.length_append, List.length_cons, List.length_nil]; omega)
    (by simp only [List.map_append, List.flatten_append, List.length_append, List.map_cons,
          List.map_nil, List.flatten_cons, List.flatten_nil, List.length_cons,
          List.length_nil]; omega)
  rw [← hsplit] at hplain
  rw [hplain]
  have hbuf : str "1" ++ [0] ++ ((args.take j ++ [args[j]]).map (fun a => a ++ [0])).flatten
      = (str "1" ++ [0] ++ ((args.take j).map (fun a => a ++ [0])).flatten ++ args[j]) ++ [0] := by
    simp only [List.map_append, List.flatten_append, List.map_cons, List.map_nil,
      List.flatten_cons, List.flatten_nil, List.append_nil, List.append_assoc]
  rw [hbuf]
  have hmerge := writeArgs_merge (j + 1) (args.drop (j + 1)) (0 + (args.take j ++ [args[j]]).length)
    (str "1" ++ [0] ++ ((args.take j).map (fun a => a ++ [0])).flatten ++ args[j])
    (by simp; omega)
    (by simp only [List.length_append, List.length_cons, List.length_nil]; omega)
  rw [hmerge]
  rw [padArgs_within _ _ (by
    simp only [List.length_append, List.length_cons, List.length_nil]; omega)]
  simp

/-- C3: for every non-empty argument list whose frame (the byte 1, a NUL and four
NUL-terminated slots, the first k-1 holding one argument each, slot k the remaining
arguments joined by single spaces, the last 4-k empty, with k = 2 for `jcmd` with at
least two elements and k = min(len(args), 4) otherwise) is at most 8192 bytes long,
`sendCommand` builds exactly this frame. -/
theorem C3_sendCommand_frame_layout (args : List (List Nat)) (hne : args ≠ [])
    (hfit : (specFrame args).length ≤ 8192) :
    hotSpot.sendCommand args = specFrame args
      ∧ (specSlots args).length = 4
      ∧ specFrame args
          = [49, 0] ++ ((specSlots args).map (fun slot => slot ++ [0])).flatten :=
  ⟨sendCommand_eq_specFrame args hne hfit,
    by
      obtain ⟨hk1, _, hk4⟩ := specSlotCount_bounds args hne
      have hle : specSlotCount args - 1 ≤ args.length := by
        have := (specSlotCount_bounds args hne).2.1
        omega
      simp [specSlots, List.length_take, Nat.min_eq_left hle]
      omega,
    rfl⟩

/-- C3 on jcmd, GC.heap_info, a, b: two slots are used, the second holds the three
arguments joined by spaces, two empty slots follow. -/
theorem C3_sendCommand_frame_layout_witness :
    hotSpot.sendCommand [str "jcmd", str "GC.heap_info", str "a", str "b"]
      = str "1" ++ [0] ++ str "jcmd" ++ [0] ++ str "GC.heap_info a b" ++ [0] ++ [0] ++ [0] :=
  (C3_sendCommand_frame_layout [str "jcmd", str "GC.heap_info", str "a", str "b"]
    (by decide) (by decide)).1.trans (by decide)

/-! ## HotSpot request frame: the missing cap -/

/-- For `jcmd` with one argument that does not leave room in 8192 bytes, `sendCommand`
writes the whole argument all the same and then skips the padding. -/
theorem sendCommand_jcmd_long (a : List Nat) (hlong : 8184 ≤ a.length) :
    hotSpot.sendCommand [str "jcmd", a] = str "1" ++ [0] ++ str "jcmd" ++ [0] ++ a ++ [0] := by
  have h1 : (str "1" ++ [0]).length < 8192 := by decide
  have h2 : (str "1" ++ [0] ++ str "jcmd" ++ [0]).length < 8192 := by decide
  have h3 : ¬ (str "1" ++ [0] ++ str "jcmd" ++ [0] ++ a ++ [0]).length < 8192 := by
    have h7 : (str "1" ++ [0] ++ str "jcmd" ++ [0]).length = 7 := by decide
    rw [List.length_append, List.length_append, h7]
    simp only [List.length_cons, List.length_nil]
    omega
  have hk : cmdArgsOf [str "jcmd", a] = 2 := by simp [cmdArgsOf]
  unfold hotSpot.sendCommand
  rw [hk]
  simp only [writeArgs, h1, h2, if_true, Nat.reduceLeDiff, if_false, Nat.reduceSub, padArgs, h3]

/-- C4 fails on the code: for `jcmd` followed by one argument of 9000 bytes the frame
handed to the socket write is 9008 bytes long, which is more than 8192. -/
theorem C4_sendCommand_frame_exceeds_cap :
    (hotSpot.sendCommand [str "jcmd", List.replicate 9000 65]).length = 9008
      ∧ ¬ (hotSpot.sendCommand [str "jcmd", List.replicate 9000 65]).length ≤ 8192 := by
  have h := sendCommand_jcmd_long (List.replicate 9000 65)
    (by rw [List.length_replicate]; omega)
  have h7 : (str "1" ++ [0] ++ str "jcmd" ++ [0]).length = 7 := by decide
  have hlen : (hotSpot.sendCommand [str "jcmd", List.replicate 9000 65]).length = 9008 := by
    rw [h, List.length_append, List.length_append, h7, List.length_replicate]
    rfl
  exact ⟨hlen, by rw [hlen]; decide⟩

/-! ## HotSpot response frame -/

/-- The digit loop of `ParseUint` ends with a value only on a run of digits, and the
value is that of the run. -/
theorem parseUintLoop_value : ∀ (l : List Nat) (acc u : Nat),
    parseUintLoop l acc = .value u → digitsValue l acc = some u
  | [], acc, u, h => by
    simp only [parseUintLoop, UintScan.value.injEq] at h
    simp [digitsValue, h]
  | c :: t, acc, u, h => by
    unfold parseUintLoop at h
    unfold digitsValue
    split_ifs at h with hd h1 h2
    rw [if_pos hd]
    exact parseUintLoop_value t _ u h

/-- The value of a run of digits is at least the accumulator it starts from. -/
theorem digitsValue_ge : ∀ (l : List Nat) (acc u : Nat),
    digitsValue l acc = some u → acc ≤ u
  | [], acc, u, h => by
    simp only [digitsValue, Option.some.injEq] at h
    omega
  | c :: t, acc, u, h => by
    unfold digitsValue at h
    split_ifs at h with hd
    have := digitsValue_ge t _ u h
    omega

/-- On a run of digits whose value is below 2^64 the digit loop of `ParseUint` ends
with that value. -/
theorem parseUintLoop_of_digits : ∀ (l : List Nat) (acc u : Nat),
    digitsValue l acc = some u → u < 2 ^ 64 → parseUintLoop l acc = .value u
  | [], acc, u, h, _ => by
    simp only [digitsValue, Option.some.injEq] at h
    simp [parseUintLoop, h]
  | c :: t, acc, u, h, hu => by
    unfold digitsValue at h
    split_ifs at h with hd
    have hge := digitsValue_ge t _ u h
    unfold parseUintLoop
    rw [if_pos hd, if_neg (by omega), if_neg (by omega)]
    exact parseUintLoop_of_digits t _ u h hu

/-- A digit run that `digitsValue` accepts consists of digits only. -/
theorem digitsValue_digits : ∀ (l : List Nat) (acc u : Nat),
    digitsValue l acc = some u → ∀ c ∈ l, 48 ≤ c ∧ c ≤ 57
  | [], _, _, _ => by simp
  | d :: t, acc, u, h => by
    unfold digitsValue at h
    split_ifs at h with hd
    intro c hc
    rcases List.mem_cons.1 hc with rfl | hc
    · exact hd
    · exact digitsValue_digits t _ u h c hc

/-- A string `strconv.Atoi` accepts is not empty and holds no line feed. -/
theorem Atoi_accepts (s : List Nat) (n : Int) (h : Atoi s = (n, none)) :
    s ≠ [] ∧ 10 ∉ s := by
  have key : ∃ u, (if s.head? = some 45 ∨ s.head? = some 43 then s.tail else s) ≠ []
      ∧ digitsValue (if s.head? = some 45 ∨ s.head? = some 43 then s.tail else s) 0
          = some u := by
    unfold Atoi at h
    simp only at h
    generalize (if s.head? = some 45 ∨ s.head? = some 43 then s.tail else s) = body at h ⊢
    by_cases hb : body = []
    · simp [hb] at h
    · cases hd : parseUintLoop body 0 with
      | malformed => simp [hb, hd] at h
      | outOfRange =>
        simp only [hb, hd, if_false] at h
        split_ifs at h <;> simp at h
      | value u => exact ⟨u, hb, parseUintLoop_value _ _ _ hd⟩
  obtain ⟨u, hb, hd⟩ := key
  have hdig := digitsValue_digits _ _ _ hd
  cases s with
  | nil => simp at hb
  | cons c t =>
    refine ⟨by simp, ?_⟩
    intro hmem
    by_cases hc : c = 45 ∨ c = 43
    · have hs : (some c = some 45 ∨ some c = some 43) := by
        rcases hc with rfl | rfl <;> simp
      simp only [List.head?_cons, hs, if_true, List.tail_cons] at hdig
      rcases List.mem_cons.1 hmem with h10 | h10
      · omega
      · have := hdig 10 h10
        omega
    · have hs : ¬ (some c = some 45 ∨ some c = some 43) := by
        simpa using hc
      simp only [List.head?_cons, hs, if_false] at hdig
      have := hdig 10 hmem
      omega

/-- Cutting at the line feed that follows a line without line feed. -/
theorem Cut_line_feed : ∀ (line body : List Nat), 10 ∉ line →
    Cut (str "\n") (line ++ 10 :: body) = some (line, body)
  | [], body, _ => by
    have hs : str "\n" = [10] := by decide
    simp [Cut, hs]
  | c :: t, body, h => by
    have hs : str "\n" = [10] := by decide
    have hc : ¬ (10 = c) := fun e => h (by simp [e])
    have ht : 10 ∉ t := fun e => h (by simp [e])
    have ih := Cut_line_feed t body ht
    rw [hs] at ih
    simp [Cut, hs, hc, ih]

/-- One read of a socket on which at most `cap` bytes have arrived takes them all. -/
theorem Read_whole (bs : List Nat) (rest : List ReadEvent) (cap : Nat)
    (h : bs.length ≤ cap) :
    socketConn.Read ⟨.data bs :: rest⟩ cap = (⟨bs.length, bs, none⟩, ⟨rest⟩) := by
  simp [socketConn.Read, h]

/-- What `readResponse` returns for a command other than `load` when one read
delivers a status line that `Atoi` accepts, a line feed and a body. -/
theorem readResponse_one_read (line body : List Nat) (n : Int) (rest : List ReadEvent)
    (args : List (List Nat)) (hcmd : args.head? ≠ some (str "load"))
    (hn : Atoi line = (n, none)) (hlen : (line ++ 10 :: body).length ≤ 8192) :
    hotSpot.readResponse ⟨.data (line ++ 10 :: body) :: rest⟩ args
      = (body, if n = 0 then none else some (commandFailedWithCode n)) := by
  obtain ⟨hne, hlf⟩ := Atoi_accepts line n hn
  have hpos : 0 < line.length := List.length_pos.2 hne
  have hcut := Cut_line_feed line body hlf
  have hnz : ¬ ((line ++ 10 :: body).length : Int) = 0 := by
    simp only [List.length_append, List.length_cons]
    omega
  unfold hotSpot.readResponse
  rw [Read_whole _ _ _ hlen]
  simp only [hnz, if_false, SplitN2, hcut, List.length_cons, List.length_nil, List.headD_cons,
    hpos, if_true, atoiOr, hn, hcmd, and_false]
  by_cases h0 : n = 0 <;> simp [h0]

/-- C5: for a command other than `load` and a response delivered in one read that
consists of a status line which `strconv.Atoi` reads as the integer n, a line feed and
a body, `readResponse` returns the body unchanged, without error when n = 0 and with
the error "command failed with code n" when n is not 0. -/
theorem C5_readResponse_status_and_body (line body : List Nat) (n : Int)
    (rest : List ReadEvent) (args : List (List Nat))
    (hcmd : args.head? ≠ some (str "load")) (hn : Atoi line = (n, none))
    (hlen : (line ++ 10 :: body).length ≤ 8192) :
    hotSpot.readResponse ⟨.data (line ++ 10 :: body) :: rest⟩ args
      = (body, if n = 0 then none
          else some (.msg (str "command failed with code " ++ Itoa n))) :=
  readResponse_one_read line body n rest args hcmd hn hlen

/-- C5 on the two responses of the specification: 0, LF, hello gives the body hello
and no error; 107, LF, boom gives the body boom and the error with code 107. -/
theorem C5_readResponse_status_and_body_witness :
    hotSpot.readResponse ⟨[.data (str "0\nhello")]⟩ [str "threaddump"] = (str "hello", none)
      ∧ hotSpot.readResponse ⟨[.data (str "107\nboom")]⟩ [str "threaddump"]
          = (str "boom", some (.msg (str "command failed with code 107"))) :=
  ⟨C5_readResponse_status_and_body (str "0") (str "hello") 0 [] [str "threaddump"]
      (by decide) (by decide) (by decide),
    C5_readResponse_status_and_body (str "107") (str "boom") 107 [] [str "threaddump"]
      (by decide) (by decide) (by decide)⟩

/-! ## HotSpot response: what `Attach` and the `load` loop do with it -/

/-- The read loop of the `load` branch starts with `total = len(buf)`, so its condition
`total < len(buf) - 1` is false at once: it reads nothing and leaves the buffer as the
first read filled it. -/
theorem readMore_reads_nothing (fuel : Nat) (conn : socketConn) (buf : List Nat) :
    readMore fuel conn buf buf.length = (buf, buf.length) := by
  cases fuel with
  | zero => rfl
  | succ k =>
    have h : ¬ ((buf.length : Int) < (buf.length : Int) - 1) := by omega
    simp [readMore, h]

/-- When the VM answers a command other than `load` with a non-zero status n in one
read, `hotSpot.Attach` returns the empty output, the error "command failed with code
n" and prints nothing, whatever the body of the response is. -/
theorem Attach_failure_without_body (host : HotSpotHost) (args : List (List Nat))
    (printOutput : Bool) (line body : List Nat) (n : Int) (rest : List ReadEvent)
    (hsock : host.checkSocket = true)
    (hconn : host.connectToSocket = .ok ⟨.data (line ++ 10 :: body) :: rest⟩)
    (hwrite : host.write (hotSpot.sendCommand args) = none)
    (hcmd : args.head? ≠ some (str "load")) (hn : Atoi line = (n, none)) (hnz : n ≠ 0)
    (hlen : (line ++ 10 :: body).length ≤ 8192) :
    hotSpot.Attach host args printOutput = (([], some (commandFailedWithCode n)), []) := by
  have hr := readResponse_one_read line body n rest args hcmd hn hlen
  simp only [hnz, if_false] at hr
  simp [hotSpot.Attach, hsock, hconn, hwrite, hr]

/-- C6 fails on the code: the VM answers `threaddump` with status 107 and the body
boom; `readResponse` returns the body with the error, but `hotSpot.Attach` returns the
empty output and the error "command failed with code 107", prints nothing, and boom
occurs neither in the output nor in the error message. -/
theorem C6_Attach_drops_body_on_failure :
    hotSpot.readResponse ⟨[.data (str "107\nboom")]⟩ [str "threaddump"]
        = (str "boom", some (.msg (str "command failed with code 107")))
      ∧ hotSpot.Attach failingStatusHost [str "threaddump"] true
        = (([], some (.msg (str "command failed with code 107"))), [])
      ∧ Contains (GoError.msg (str "command failed with code 107")).Error (str "boom") = false
      ∧ Contains [] (str "boom") = false := by
  decide

/-- C7 fails on the code: the VM answers a `load` with the status line 0 in a first
chunk and "return code: 0" in a second one; `readResponse` never reads the second
chunk and reports the failure code -1 with an empty output, although the agent
returned 0. The same response delivered in one chunk is read as a success. -/
theorem C7_load_return_code_after_first_chunk_lost :
    hotSpot.readResponse ⟨[.data (str "0\n"), .data (str "return code: 0\n")]⟩
        [str "load", str "/a.so"]
        = ([], some (.msg (str "command failed with code -1")))
      ∧ hotSpot.readResponse ⟨[.data (str "0\nreturn code: 0\n")]⟩ [str "load", str "/a.so"]
        = (str "return code: 0\n", none) := by
  decide

/-! ## HotSpot response of a `load` that arrives in one read -/

/-- A separator found in a string is found in every extension of it to the left. -/
theorem Contains_cons (sep s : List Nat) (x : Nat) (h : Contains s sep = true) :
    Contains (x :: s) sep = true := by
  unfold Contains at h ⊢
  unfold Cut
  split_ifs
  · rfl
  · cases hc : Cut sep s with
    | none => simp [hc] at h
    | some p => rfl

/-- No cut at a line feed in a string without line feed. -/
theorem Cut_no_line_feed : ∀ l : List Nat, 10 ∉ l → Cut (str "\n") l = none
  | [], _ => rfl
  | c :: t, h => by
    have hs : str "\n" = [10] := by decide
    have hc : ¬ (10 = c) := fun e => h (by simp [e])
    have ih := Cut_no_line_feed t (fun e => h (by simp [e]))
    rw [hs] at ih ⊢
    simp [Cut, hc, ih]

/-- The first piece of `strings.Split` at line feeds is the text before the first
line feed, or the whole text when no line feed follows. -/
theorem Split_first_line (lit term : List Nat) (hlit : 10 ∉ lit)
    (hterm : term = [] ∨ ∃ t, term = 10 :: t) :
    (Split (lit ++ term) (str "\n")).headD [] = lit := by
  unfold Split
  rcases hterm with rfl | ⟨t, rfl⟩
  · rw [List.append_nil]
    cases hl : lit.length with
    | zero => simp [splitLoop, List.length_eq_zero.1 hl]
    | succ k => simp [splitLoop, Cut_no_line_feed lit hlit]
  · have hlen : (lit ++ 10 :: t).length = (lit.length + t.length) + 1 := by
      simp only [List.length_append, List.length_cons]; omega
    rw [hlen]
    simp [splitLoop, Cut_line_feed lit t hlit]

/-- Every byte of a string `strconv.Atoi` accepts is a sign or a digit. -/
theorem Atoi_accepts_bytes (s : List Nat) (n : Int) (h : Atoi s = (n, none)) :
    ∀ c ∈ s, c = 43 ∨ c = 45 ∨ (48 ≤ c ∧ c ≤ 57) := by
  have key : ∃ u, digitsValue (if s.head? = some 45 ∨ s.head? = some 43 then s.tail else s) 0
      = some u := by
    unfold Atoi at h
    simp only at h
    generalize (if s.head? = some 45 ∨ s.head? = some 43 then s.tail else s) = body at h ⊢
    by_cases hb : body = []
    · simp [hb] at h
    · cases hd : parseUintLoop body 0 with
      | malformed => simp [hb, hd] at h
      | outOfRange =>
        simp only [hb, hd, if_false] at h
        split_ifs at h <;> simp at h
      | value u => exact ⟨u, parseUintLoop_value _ _ _ hd⟩
  obtain ⟨u, hd⟩ := key
  have hdig := digitsValue_digits _ _ _ hd
  cases s with
  | nil => simp
  | cons c t =>
    intro x hx
    by_cases hc : c = 45 ∨ c = 43
    · have hs : (some c = some 45 ∨ some c = some 43) := by
        rcases hc with rfl | rfl <;> simp
      simp only [List.head?_cons, hs, if_true, List.tail_cons] at hdig
      rcases List.mem_cons.1 hx with rfl | hx
      · omega
      · exact Or.inr (Or.inr (hdig x hx))
    · have hs : ¬ (some c = some 45 ∨ some c = some 43) := by
        simpa using hc
      simp only [List.head?_cons, hs, if_false] at hdig
      exact Or.inr (Or.inr (hdig x hx))

/-- Leading white space is only removed from a string that starts with it. -/
theorem trimLeftSpace_of_plain (c : Nat) (t : List Nat) (hc : 33 ≤ c ∧ c ≤ 127) :
    trimLeftSpace (c :: t) = c :: t := by
  have hsp : isAsciiSpace c = false := by
    simp [isAsciiSpace]; omega
  unfold trimLeftSpace
  simp only [hsp, Bool.false_eq_true, if_false]
  split <;> first | rfl | (exfalso; omega)

/-- Trailing white space is only removed from a string that ends with it. -/
theorem trimRightSpaceRev_of_plain (c : Nat) (t : List Nat) (hc : 33 ≤ c ∧ c ≤ 127) :
    trimRightSpaceRev (c :: t) = c :: t := by
  have hsp : isAsciiSpace c = false := by
    simp [isAsciiSpace]; omega
  unfold trimRightSpaceRev
  simp only [hsp, Bool.false_eq_true, if_false]
  cases t with
  | nil => rfl
  | cons d t2 =>
    have h2 : ¬ (d = 0xC2 ∧ (c = 0x85 ∨ c = 0xA0)) := by omega
    simp only [h2, if_false]
    cases t2 with
    | nil => rfl
    | cons b t3 =>
      have h3 : ¬ ((b = 0xE1 ∧ d = 0x9A ∧ c = 0x80)
          ∨ (b = 0xE2 ∧ d = 0x80 ∧ ((0x80 ≤ c ∧ c ≤ 0x8A) ∨ c = 0xA8 ∨ c = 0xA9 ∨ c = 0xAF))
          ∨ (b = 0xE2 ∧ d = 0x81 ∧ c = 0x9F)
          ∨ (b = 0xE3 ∧ d = 0x80 ∧ c = 0x80)) := by omega
      simp only [h3, if_false]

/-- `strings.TrimSpace` leaves a string that `strconv.Atoi` accepts unchanged. -/
theorem TrimSpace_of_Atoi (s : List Nat) (n : Int) (h : Atoi s = (n, none)) :
    TrimSpace s = s := by
  have hbytes := Atoi_accepts_bytes s n h
  have hplain : ∀ c ∈ s, 33 ≤ c ∧ c ≤ 127 := by
    intro c hc
    have := hbytes c hc
    omega
  unfold TrimSpace
  cases s with
  | nil => rfl
  | cons c t =>
    rw [trimLeftSpace_of_plain c t (hplain c (by simp))]
    cases hr : (c :: t).reverse with
    | nil => simp at hr
    | cons e r =>
      have he : e ∈ c :: t := by
        have : e ∈ (c :: t).reverse := by rw [hr]; simp
        exact List.mem_reverse.1 this
      rw [trimRightSpaceRev_of_plain e r (hplain e he), ← hr, List.reverse_reverse]

/-- When the whole response of a `load` arrives in the first read, has the status
line 0, and its body holds "return code: " for the first time right before a text
that `Atoi` reads as N and that a line feed or the end of the response follows,
`readResponse` returns the body, without error when N = 0 and with the error
"command failed with code N" otherwise. -/
theorem readResponse_load_one_read (body before lit term : List Nat) (N : Int)
    (rest : List ReadEvent) (args : List (List Nat))
    (hcmd : args.head? = some (str "load"))
    (hfirst : Cut (str "return code: ") body = some (before, lit ++ term))
    (hN : Atoi lit = (N, none))
    (hterm : term = [] ∨ ∃ t, term = 10 :: t)
    (hlen : (str "0" ++ 10 :: body).length ≤ 8192) :
    hotSpot.readResponse ⟨.data (str "0" ++ 10 :: body) :: rest⟩ args
      = (body, if N = 0 then none else some (commandFailedWithCode N)) := by
  obtain ⟨_, hlf⟩ := Atoi_accepts lit N hN
  have hcut := Cut_line_feed (str "0") body (by decide)
  have hargs : 0 < args.length := by
    cases args with
    | nil => simp at hcmd
    | cons a l => simp
  have hnz : ¬ ((str "0" ++ 10 :: body).length : Int) = 0 := by
    simp only [List.length_append, List.length_cons]
    omega
  have hzero : atoiOr (str "0") 0 = 0 := by decide
  have hcont : Contains (str "0" ++ 10 :: body) (str "return code: ") = true := by
    have hb : Contains body (str "return code: ") = true := by simp [Contains, hfirst]
    exact Contains_cons _ _ 48 (Contains_cons _ _ 10 hb)
  have hdrop : (str "0" ++ 10 :: body).drop 2 = body := rfl
  have hge : 2 ≤ (str "0" ++ 10 :: body).length := by
    have h1 : (str "0").length = 1 := by decide
    simp only [List.length_append, List.length_cons, h1]
    omega
  have hcode : loadResultCode 0 (str "0" ++ 10 :: body) = N := by
    unfold loadResultCode
    simp only [hge, hcont, hdrop, SplitN2, hfirst, and_self, if_true,
      Split_first_line lit term hlf hterm, TrimSpace_of_Atoi lit N hN, atoiOr, hN]
  unfold hotSpot.readResponse
  rw [Read_whole _ _ _ hlen]
  simp only [hnz, if_false, SplitN2, hcut, List.length_cons, List.length_nil, List.headD_cons,
    hcmd, hargs, and_self, if_true, readMore_reads_nothing, List.take_length]
  have h1 : (0 : Nat) < (str "0").length := by decide
  simp only [h1, if_true, hzero, hcode]
  by_cases h0 : N = 0 <;> simp [h0]

/-- The previous theorem on a response whose agent returned 5. -/
theorem readResponse_load_one_read_example :
    hotSpot.readResponse ⟨[.data (str "0\nreturn code: 5\nfailed")]⟩ [str "load", str "/a.so"]
      = (str "return code: 5\nfailed", some (.msg (str "command failed with code 5"))) :=
  readResponse_load_one_read (str "return code: 5\nfailed") [] (str "5") (str "\nfailed") 5 []
    [str "load", str "/a.so"] (by decide) (by decide) (by decide) (Or.inr ⟨str "failed", by decide⟩)
    (by decide)

/-! ## Coverage of `strconv.Atoi` -/

/-- A non-empty run of decimal digits whose value is below 2^63 is accepted by `Atoi`
with that value, and with the opposite value after a minus sign. -/
theorem Atoi_of_digits (ds : List Nat) (u : Nat) (hne : ds ≠ [])
    (hdig : ∀ c ∈ ds, 48 ≤ c ∧ c ≤ 57) (hval : digitsValue ds 0 = some u)
    (hu : u < 2 ^ 63) :
    Atoi ds = ((u : Int), none) ∧ Atoi (45 :: ds) = (-(u : Int), none) := by
  cases ds with
  | nil => exact absurd rfl hne
  | cons c t =>
    have hc := hdig c (by simp)
    have h45 : ¬ (c = 45) := by omega
    have h43 : ¬ (c = 43) := by omega
    have hu1 : ¬ (2 ^ 63 ≤ u) := by omega
    have hu2 : ¬ (2 ^ 63 < u) := by omega
    have hloop := parseUintLoop_of_digits _ _ _ hval (by omega)
    constructor
    · simp [Atoi, h45, h43, hloop]
      omega
    · simp [Atoi, hloop]
      omega

/-- `strconv.Atoi` at the ends of the `int` range and beyond: a range error gives the
nearest bound, also when a byte that is no digit follows digits that already exceed 64
bits; a byte that is no digit before that point gives 0 and a syntax error. -/
theorem Atoi_range_examples :
    Atoi (str "9223372036854775807") = (9223372036854775807, none)
      ∧ Atoi (str "9223372036854775808") = (9223372036854775807, some .outOfRange)
      ∧ Atoi (str "-9223372036854775808") = (-9223372036854775808, none)
      ∧ Atoi (str "-9223372036854775809") = (-9223372036854775808, some .outOfRange)
      ∧ Atoi (str "18446744073709551616") = (9223372036854775807, some .outOfRange)
      ∧ Atoi (str "99999999999999999999x") = (9223372036854775807, some .outOfRange)
      ∧ Atoi (str "-99999999999999999999x") = (-9223372036854775808, some .outOfRange)
      ∧ Atoi (str "9223372036854775808x") = (0, some .malformed)
      ∧ Atoi (str "+5") = (5, none)
      ∧ Atoi (str "+") = (0, some .malformed)
      ∧ Atoi (str "") = (0, some .malformed) := by
  decide

/-! ## OpenJ9 command translation: the remaining commands -/

/-- C11: for every non-empty argument list whose first element is none of load, jcmd,
threaddump, dumpheap, inspectheap and datadump, the translation is
`ATTACH_GETSYSTEMPROPERTIES` for `properties`, `ATTACH_GETAGENTPROPERTIES` for
`agentProperties` and the first element itself otherwise, whatever follows it. -/
theorem C11_translateCommand_other (cmd : List Nat) (rest : List (List Nat))
    (h1 : cmd ≠ str "load") (h2 : cmd ≠ str "jcmd") (h3 : cmd ≠ str "threaddump")
    (h4 : cmd ≠ str "dumpheap") (h5 : cmd ≠ str "inspectheap")
    (h6 : cmd ≠ str "datadump") :
    openJ9.translateCommand (cmd :: rest) =
      (if cmd = str "properties" then str "ATTACH_GETSYSTEMPROPERTIES"
        else if cmd = str "agentProperties" then str "ATTACH_GETAGENTPROPERTIES"
        else cmd) := by
  simp [openJ9.translateCommand, h1, h2, h3, h4, h5, h6]

/-- C11 on properties, agentProperties and an unknown command followed by further
elements. -/
theorem C11_translateCommand_other_witness :
    openJ9.translateCommand [str "properties"] = str "ATTACH_GETSYSTEMPROPERTIES"
      ∧ openJ9.translateCommand [str "agentProperties", str "x"]
          = str "ATTACH_GETAGENTPROPERTIES"
      ∧ openJ9.translateCommand [str "unknownCommand", str "a", str "b"]
          = str "unknownCommand" :=
  ⟨(C11_translateCommand_other (str "properties") [] (by decide) (by decide) (by decide)
      (by decide) (by decide) (by decide)).trans (by decide),
    (C11_translateCommand_other (str "agentProperties") [str "x"] (by decide) (by decide)
      (by decide) (by decide) (by decide) (by decide)).trans (by decide),
    (C11_translateCommand_other (str "unknownCommand") [str "a", str "b"] (by decide)
      (by decide) (by decide) (by decide) (by decide) (by decide)).trans (by decide)⟩

/-! ## `openJ9.unescapeString` -/

/-- What `Cut` returns are the parts before and after an occurrence of the separator. -/
theorem Cut_eq_append (sep : List Nat) : ∀ (s a b : List Nat),
    Cut sep s = some (a, b) → s = a ++ sep ++ b
  | [], a, b, h => by simp [Cut] at h
  | c :: t, a, b, h => by
    unfold Cut at h
    split_ifs at h with hp
    · simp only [Option.some.injEq, Prod.mk.injEq] at h
      obtain ⟨rfl, rfl⟩ := h
      have hpre := List.isPrefixOf_iff_prefix.1 hp
      obtain ⟨r, hr⟩ := hpre
      rw [← hr]
      simp
    · cases hc : Cut sep t with
      | none => simp [hc] at h
      | some p =>
        obtain ⟨a1, b1⟩ := p
        simp only [hc, Option.some.injEq, Prod.mk.injEq] at h
        obtain ⟨rfl, rfl⟩ := h
        have ih := Cut_eq_append sep t a1 b1 hc
        rw [ih]
        simp

/-- Without a line feed, `strings.Index` finds none. -/
theorem Index_no_line_feed (s : List Nat) (h : 10 ∉ s) : Index s (str "\n") = none := by
  simp [Index, Cut_no_line_feed s h]

/-- The first line feed of a string is found right after its line-feed-free start. -/
theorem Index_line_feed (a b : List Nat) (h : 10 ∉ a) :
    Index (a ++ 10 :: b) (str "\n") = some a.length := by
  simp [Index, Cut_line_feed a b h]

/-- The decoding loop copies a start without backslash unchanged. -/
theorem unescapeLoop_plain : ∀ (a t : List Nat), 92 ∉ a →
    unescapeLoop (a ++ t) = a ++ unescapeLoop t
  | [], t, _ => rfl
  | x :: a, t, h => by
    have hx : ¬ (x = 92) := fun e => h (by simp [e])
    have ha : 92 ∉ a := fun e => h (by simp [e])
    have ih := unescapeLoop_plain a t ha
    cases hr : a ++ t with
    | nil =>
      have hnil := List.append_eq_nil.1 hr
      simp [hnil.1, hnil.2, unescapeLoop]
    | cons e r =>
      rw [List.cons_append, hr, unescapeLoop]
      simp only [hx, if_false]
      rw [← hr, ih]
      simp

/-- C12: for every string a with neither backslash nor line feed, every byte c other
than a line feed and every string b without line feed, `unescapeString` maps a,
backslash, c, b to a, then the byte the escape stands for (LF, TAB, CR, FF for n, t,
r, f, and c itself otherwise), then the decoding of b; and it maps a to a. -/
theorem C12_unescapeString_decodes (a b : List Nat) (c : Nat)
    (ha1 : 92 ∉ a) (ha2 : 10 ∉ a) (hc : c ≠ 10) (hb : 10 ∉ b) :
    openJ9.unescapeString (a ++ 92 :: c :: b)
        = a ++ (if c = 110 then 10 else if c = 116 then 9 else if c = 114 then 13
                else if c = 102 then 12 else c) :: openJ9.unescapeString b
      ∧ openJ9.unescapeString a = a := by
  have hall : 10 ∉ a ++ 92 :: c :: b := by
    simp only [List.mem_append, List.mem_cons, not_or]
    exact ⟨ha2, by decide, fun e => hc e.symm, hb⟩
  have hbyte : unescapeByte c = (if c = 110 then 10 else if c = 116 then 9
      else if c = 114 then 13 else if c = 102 then 12 else c) := by
    unfold unescapeByte
    split_ifs <;> first | rfl | omega
  constructor
  · simp only [openJ9.unescapeString, Index_no_line_feed _ hall, Index_no_line_feed _ hb]
    rw [unescapeLoop_plain a _ ha1, unescapeLoop, if_pos rfl, hbyte]
  · simp only [openJ9.unescapeString, Index_no_line_feed _ ha2]
    have := unescapeLoop_plain a [] ha1
    simpa [unescapeLoop] using this

/-- C12 on Line1, backslash n, Line2, backslash t, X, backslash q. -/
theorem C12_unescapeString_decodes_witness :
    openJ9.unescapeString (str "Line1\\nLine2\\tX\\q") = str "Line1\nLine2\tXq" :=
  (C12_unescapeString_decodes (str "Line1") (str "Line2\\tX\\q") 110
    (by decide) (by decide) (by decide) (by decide)).1.trans (by decide)

/-- C13: for every string a without line feed and every string b, `unescapeString`
gives the same for a, LF, b as for a alone. -/
theorem C13_unescapeString_cuts_at_line_feed (a b : List Nat) (ha : 10 ∉ a) :
    openJ9.unescapeString (a ++ 10 :: b) = openJ9.unescapeString a := by
  simp [openJ9.unescapeString, Index_line_feed a b ha, Index_no_line_feed a ha]

/-- C13 on Hello followed by a line feed, and on a text after the line feed. -/
theorem C13_unescapeString_cuts_at_line_feed_witness :
    openJ9.unescapeString (str "Hello\n") = str "Hello"
      ∧ openJ9.unescapeString (str "A\\nB\nextra") = str "A\nB" :=
  ⟨(C13_unescapeString_cuts_at_line_feed (str "Hello") [] (by decide)).trans (by decide),
    (C13_unescapeString_cuts_at_line_feed (str "A\\nB") (str "extra") (by decide)).trans
      (by decide)⟩

/-! ## OpenJ9 response processing -/

/-- A command that begins with `ATTACH_DIAGNOSTICS:` does not begin with
`ATTACH_LOADAGENT`. -/
theorem diagnostics_not_loadagent (cmd : List Nat)
    (h : (str "ATTACH_DIAGNOSTICS:").isPrefixOf cmd = true) :
    (str "ATTACH_LOADAGENT").isPrefixOf cmd = false := by
  obtain ⟨r, rfl⟩ := List.isPrefixOf_iff_prefix.1 h
  rfl

/-- The position `strings.Index` reports for the diagnostics marker, plus 33, is where
the text after the marker starts. -/
theorem drop_after_marker (response before after : List Nat)
    (h : Cut (str "openj9_diagnostics.string_result=") response = some (before, after)) :
    Index response (str "openj9_diagnostics.string_result=") = some before.length
      ∧ response.drop (before.length + 33) = after := by
  have hs := Cut_eq_append _ _ _ _ h
  have hlen : (str "openj9_diagnostics.string_result=").length = 33 := by decide
  refine ⟨by simp [Index, h], ?_⟩
  rw [hs, List.append_assoc, List.drop_append_eq_append_drop]
  have h1 : before.length + 33 - before.length = 33 := by omega
  have h2 : List.drop (before.length + 33) before = [] :=
    List.drop_eq_nil_of_le (by omega)
  rw [h1, h2, List.nil_append, List.drop_append_eq_append_drop, hlen]
  simp [List.drop_eq_nil_of_le, hlen]

/-- C14: for every translated command beginning with `ATTACH_DIAGNOSTICS:` and every
response text the read loop delivers: with printing enabled and the marker
`openj9_diagnostics.string_result=` in the response, the returned stdout is
`unescapeString` of the text after the first occurrence of the marker, with status 0
and no error; with the marker absent, or with printing disabled, the returned stdout
is the full response, again with status 0 and no error. -/
theorem C14_readResponse_diagnostics (conn conn1 : netConn) (cmd response : List Nat)
    (hcmd : (str "ATTACH_DIAGNOSTICS:").isPrefixOf cmd = true)
    (hread : readUntilNul (conn.budget + 1) conn [] = (.ok response, conn1)) :
    (∀ before after : List Nat,
        Cut (str "openj9_diagnostics.string_result=") response = some (before, after) →
        ((openJ9.readResponse conn cmd true).1.output = openJ9.unescapeString after
          ∧ (openJ9.readResponse conn cmd true).1.exitCode = 0
          ∧ (openJ9.readResponse conn cmd true).1.err = none))
      ∧ (Cut (str "openj9_diagnostics.string_result=") response = none →
          ((openJ9.readResponse conn cmd true).1.output = response
            ∧ (openJ9.readResponse conn cmd true).1.exitCode = 0
            ∧ (openJ9.readResponse conn cmd true).1.err = none))
      ∧ (openJ9.readResponse conn cmd false).1.output = response
      ∧ (openJ9.readResponse conn cmd false).1.exitCode = 0
      ∧ (openJ9.readResponse conn cmd false).1.err = none := by
  have hload := diagnostics_not_loadagent cmd hcmd
  refine ⟨?_, ?_, ?_⟩
  · intro before after hcut
    obtain ⟨hidx, hdrop⟩ := drop_after_marker response before after hcut
    simp [openJ9.readResponse, hread, openJ9.processResponse, hcmd, hload, hidx, hdrop]
  · intro hcut
    have hidx : Index response (str "openj9_diagnostics.string_result=") = none := by
      simp [Index, hcut]
    simp [openJ9.readResponse, hread, openJ9.processResponse, hcmd, hload, hidx]
  · simp [openJ9.readResponse, hread, openJ9.processResponse, hcmd, hload]

/-- C14 on a response that holds the marker followed by A, backslash n, B, LF, extra:
the returned stdout is A, LF, B. -/
theorem C14_readResponse_diagnostics_witness :
    (openJ9.readResponse
        ⟨[.data (str "x=1\nopenj9_diagnostics.string_result=A\\nB\nextra" ++ [0])]⟩
        (str "ATTACH_DIAGNOSTICS:Thread.print,") true).1.output = str "A\nB" :=
  ((C14_readResponse_diagnostics
      ⟨[.data (str "x=1\nopenj9_diagnostics.string_result=A\\nB\nextra" ++ [0])]⟩ ⟨[]⟩
      (str "ATTACH_DIAGNOSTICS:Thread.print,")
      (str "x=1\nopenj9_diagnostics.string_result=A\\nB\nextra")
      (by decide) (by rfl)).1 (str "x=1\n") (str "A\\nB\nextra") (by decide)).1.trans
    (by decide)

/-- C15: for every response text the read loop delivers, the status returned for a
translated command beginning with `ATTACH_LOADAGENT` is 0 when the response begins
with `ATTACH_ACK`; when it begins with `ATTACH_ERR AgentInitializationException` it
is the value `strconv.Atoi` reads from the third white-space separated token, or -1
when there is no third token or `Atoi` rejects it; and -1 for every other response.
For a command that does not begin with `ATTACH_LOADAGENT` the status is 0. -/
theorem C15_readResponse_status (conn conn1 : netConn) (cmd response : List Nat)
    (printOutput : Bool)
    (hread : readUntilNul (conn.budget + 1) conn [] = (.ok response, conn1)) :
    ((str "ATTACH_LOADAGENT").isPrefixOf cmd = true →
        (openJ9.readResponse conn cmd printOutput).1.exitCode =
          (if (str "ATTACH_ACK").isPrefixOf response then 0
            else if (str "ATTACH_ERR AgentInitializationException").isPrefixOf response then
              (match (Fields response)[2]? with
                | some token => if (Atoi token).2 = none then (Atoi token).1 else -1
                | none => -1)
            else -1))
      ∧ ((str "ATTACH_LOADAGENT").isPrefixOf cmd = false →
          (openJ9.readResponse conn cmd printOutput).1.exitCode = 0) := by
  have hexit : (openJ9.readResponse conn cmd printOutput).1.exitCode
      = (if (str "ATTACH_LOADAGENT").isPrefixOf cmd then loadAgentResultCode response
          else 0) := by
    simp only [openJ9.readResponse, hread, openJ9.processResponse]
    split <;> (try split_ifs) <;> rfl
  constructor
  · intro hload
    rw [hexit, if_pos hload]
    unfold loadAgentResultCode
    by_cases hack : (str "ATTACH_ACK").isPrefixOf response = true
    · simp [hack]
    · by_cases herr :
          (str "ATTACH_ERR AgentInitializationException").isPrefixOf response = true
      · simp only [hack, herr, if_true, if_false, Bool.false_eq_true]
        by_cases hlen : 2 < (Fields response).length
        · have hget : (Fields response)[2]? = some ((Fields response).getD 2 []) := by
            rw [List.getD_eq_getElem?_getD, List.getElem?_eq_getElem hlen]
            simp
          rw [hget]
          simp only [hlen, if_true]
          rcases hA : Atoi ((Fields response).getD 2 []) with ⟨v, e⟩
          cases e <;> simp
        · have hget : (Fields response)[2]? = none := by
            rw [List.getElem?_eq_none]; omega
          simp [hlen, hget]
      · simp [hack, herr]
  · intro hload
    rw [hexit]
    simp [hload]

/-- C15 on five responses to a load command and on one to another command. -/
theorem C15_readResponse_status_witness :
    (openJ9.readResponse ⟨[.data (str "ATTACH_ACK" ++ [0])]⟩
        (str "ATTACH_LOADAGENT(a.so,)") true).1.exitCode = 0
      ∧ (openJ9.readResponse
          ⟨[.data (str "ATTACH_ERR AgentInitializationException 7" ++ [0])]⟩
          (str "ATTACH_LOADAGENTPATH(/a.so,)") true).1.exitCode = 7
      ∧ (openJ9.readResponse
          ⟨[.data (str "ATTACH_ERR AgentInitializationException" ++ [0])]⟩
          (str "ATTACH_LOADAGENT(a.so,)") true).1.exitCode = -1
      ∧ (openJ9.readResponse
          ⟨[.data (str "ATTACH_ERR AgentInitializationException x7" ++ [0])]⟩
          (str "ATTACH_LOADAGENT(a.so,)") true).1.exitCode = -1
      ∧ (openJ9.readResponse ⟨[.data (str "ATTACH_ERR other" ++ [0])]⟩
          (str "ATTACH_LOADAGENT(a.so,)") true).1.exitCode = -1
      ∧ (openJ9.readResponse ⟨[.data (str "ATTACH_ERR other" ++ [0])]⟩
          (str "ATTACH_GETSYSTEMPROPERTIES") true).1.exitCode = 0 :=
  ⟨((C15_readResponse_status ⟨[.data (str "ATTACH_ACK" ++ [0])]⟩ ⟨[]⟩
        (str "ATTACH_LOADAGENT(a.so,)") (str "ATTACH_ACK") true (by rfl)).1
      (by decide)).trans (by decide),
    ((C15_readResponse_status
        ⟨[.data (str "ATTACH_ERR AgentInitializationException 7" ++ [0])]⟩ ⟨[]⟩
        (str "ATTACH_LOADAGENTPATH(/a.so,)")
        (str "ATTACH_ERR AgentInitializationException 7") true (by rfl)).1
      (by decide)).trans (by decide),
    ((C15_readResponse_status
        ⟨[.data (str "ATTACH_ERR AgentInitializationException" ++ [0])]⟩ ⟨[]⟩
        (str "ATTACH_LOADAGENT(a.so,)")
        (str "ATTACH_ERR AgentInitializationException") true (by rfl)).1
      (by decide)).trans (by decide),
    ((C15_readResponse_status
        ⟨[.data (str "ATTACH_ERR AgentInitializationException x7" ++ [0])]⟩ ⟨[]⟩
        (str "ATTACH_LOADAGENT(a.so,)")
        (str "ATTACH_ERR AgentInitializationException x7") true (by rfl)).1
      (by decide)).trans (by decide),
    ((C15_readResponse_status ⟨[.data (str "ATTACH_ERR other" ++ [0])]⟩ ⟨[]⟩
        (str "ATTACH_LOADAGENT(a.so,)") (str "ATTACH_ERR other") true (by rfl)).1
      (by decide)).trans (by decide),
    (C15_readResponse_status ⟨[.data (str "ATTACH_ERR other" ++ [0])]⟩ ⟨[]⟩
        (str "ATTACH_GETSYSTEMPROPERTIES") (str "ATTACH_ERR other") true (by rfl)).2
      (by decide)⟩

/-! ## Printing and reading numbers -/

/-- The digits `Nat.toDigitsCore` produces are put in front of the digits given. -/
theorem toDigitsCore_append (b : Nat) : ∀ (f n : Nat) (ds : List Char),
    Nat.toDigitsCore b f n ds = Nat.toDigitsCore b f n [] ++ ds
  | 0, _, _ => rfl
  | f + 1, n, ds => by
    unfold Nat.toDigitsCore
    by_cases h : n / b = 0
    · simp [h]
    · simp only [h, if_false]
      rw [toDigitsCore_append b f (n / b) (Nat.digitChar (n % b) :: ds),
        toDigitsCore_append b f (n / b) [Nat.digitChar (n % b)]]
      simp

/-- With enough fuel the digits of `n` are those of `n / b` followed by the last one. -/
theorem toDigitsCore_step (b f n : Nat) :
    Nat.toDigitsCore b (f + 1) n []
      = if n / b = 0 then [Nat.digitChar (n % b)]
        else Nat.toDigitsCore b f (n / b) [] ++ [Nat.digitChar (n % b)] := by
  rw [Nat.toDigitsCore]
  by_cases h : n / b = 0
  · simp [h]
  · simp only [h, if_false]
    exact toDigitsCore_append b f (n / b) _

theorem digitsValue_append : ∀ (l1 l2 : List Nat) (acc : Nat),
    digitsValue (l1 ++ l2) acc = (digitsValue l1 acc).bind (fun v => digitsValue l2 v)
  | [], _, _ => rfl
  | c :: t, l2, acc => by
    simp only [List.cons_append, digitsValue]
    split_ifs
    · exact digitsValue_append t l2 _
    · rfl

theorem hexValue_append : ∀ (l1 l2 : List Nat) (acc : Nat),
    hexValue (l1 ++ l2) acc = (hexValue l1 acc).bind (fun v => hexValue l2 v)
  | [], _, _ => rfl
  | c :: t, l2, acc => by
    simp only [List.cons_append, hexValue]
    cases hexDigitValue c with
    | none => rfl
    | some d => exact hexValue_append t l2 _

theorem decimal_digit_byte : ∀ k, k < 10 →
    48 ≤ (Nat.digitChar k).toNat ∧ (Nat.digitChar k).toNat ≤ 57
      ∧ (Nat.digitChar k).toNat - 48 = k := by
  decide

theorem hex_digit_byte : ∀ k, k < 16 →
    hexDigitValue (Nat.digitChar k).toNat = some k
      ∧ ((48 ≤ (Nat.digitChar k).toNat ∧ (Nat.digitChar k).toNat ≤ 57)
          ∨ (97 ≤ (Nat.digitChar k).toNat ∧ (Nat.digitChar k).toNat ≤ 102)) := by
  decide

/-- Reading the decimal digits of `n` gives `n`. -/
theorem digitsValue_toDigitsCore : ∀ (f n : Nat), n < f →
    digitsValue ((Nat.toDigitsCore 10 f n []).map Char.toNat) 0 = some n
  | 0, _, h => absurd h (Nat.not_lt_zero _)
  | f + 1, n, h => by
    have hmod := decimal_digit_byte (n % 10) (Nat.mod_lt _ (by decide))
    rw [toDigitsCore_step]
    by_cases hq : n / 10 = 0
    · have hlt : n < 10 := by omega
      simp only [hq, if_true, List.map_cons, List.map_nil, digitsValue, hmod.1, hmod.2.1,
        and_self]
      simp only [hmod.2.2]
      congr 1
      omega
    · have ih := digitsValue_toDigitsCore f (n / 10) (by omega)
      simp only [hq, if_false, List.map_append, List.map_cons, List.map_nil,
        digitsValue_append, ih, Option.bind, digitsValue, hmod.1, hmod.2.1, and_self,
        if_true, hmod.2.2]
      congr 1
      omega

/-- Reading the hexadecimal digits of `n` gives `n`. -/
theorem hexValue_toDigitsCore : ∀ (f n : Nat), n < f →
    hexValue ((Nat.toDigitsCore 16 f n []).map Char.toNat) 0 = some n
  | 0, _, h => absurd h (Nat.not_lt_zero _)
  | f + 1, n, h => by
    have hmod := (hex_digit_byte (n % 16) (Nat.mod_lt _ (by decide))).1
    rw [toDigitsCore_step]
    by_cases hq : n / 16 = 0
    · simp only [hq, if_true, List.map_cons, List.map_nil, hexValue, hmod]
      congr 1
      omega
    · have ih := hexValue_toDigitsCore f (n / 16) (by omega)
      simp only [hq, if_false, List.map_append, List.map_cons, List.map_nil,
        hexValue_append, ih, Option.bind, hexValue, hmod]
      congr 1
      omega

/-- Every digit `Nat.toDigitsCore` adds in base 16 is a lowercase hexadecimal digit. -/
theorem toDigitsCore_hex_bytes : ∀ (f n : Nat) (c : Char),
    c ∈ Nat.toDigitsCore 16 f n [] →
    (48 ≤ c.toNat ∧ c.toNat ≤ 57) ∨ (97 ≤ c.toNat ∧ c.toNat ≤ 102)
  | 0, _, c, h => by simp [Nat.toDigitsCore] at h
  | f + 1, n, c, h => by
    have hmod := (hex_digit_byte (n % 16) (Nat.mod_lt _ (by decide))).2
    rw [toDigitsCore_step] at h
    by_cases hq : n / 16 = 0
    · simp only [hq, if_true, List.mem_singleton] at h
      rw [h]
      exact hmod
    · simp only [hq, if_false, List.mem_append, List.mem_singleton] at h
      rcases h with h | h
      · exact toDigitsCore_hex_bytes f (n / 16) c h
      · rw [h]
        exact hmod

theorem natDigits_ne_nil (n : Nat) : natDigits n ≠ [] := by
  unfold natDigits Nat.toDigits
  rw [toDigitsCore_step]
  split_ifs <;> simp

/-- `strconv.Atoi` reads back what `%d` prints for every value of a 64-bit `int`. -/
theorem Atoi_Itoa (n : Int) (hlo : -(2 ^ 63 : Int) ≤ n) (hhi : n < (2 ^ 63 : Int)) :
    Atoi (Itoa n) = (n, none) := by
  have hval : digitsValue (natDigits n.natAbs) 0 = some n.natAbs :=
    digitsValue_toDigitsCore (n.natAbs + 1) n.natAbs (Nat.lt_succ_self _)
  have hne := natDigits_ne_nil n.natAbs
  have hdig := digitsValue_digits _ _ _ hval
  unfold Itoa
  by_cases hneg : n < 0
  · rw [if_pos hneg]
    generalize hu : n.natAbs = u at hval hne hdig
    have hn : n = -(u : Int) := by omega
    subst hn
    have hu2 : ¬ (9223372036854775808 < u) := by omega
    have hloop := parseUintLoop_of_digits _ _ _ hval (by omega)
    simp [Atoi, hne, hloop, hu2]
  · rw [if_neg hneg]
    generalize hu : n.natAbs = u at hval hne hdig
    have hn : n = (u : Int) := by omega
    subst hn
    have hu2 : u < 9223372036854775808 := by omega
    cases hds : natDigits u with
    | nil => exact absurd hds hne
    | cons c t =>
      have hc := hdig c (by rw [hds]; simp)
      have h45 : ¬ (c = 45) := by omega
      have h43 : ¬ (c = 43) := by omega
      rw [hds] at hval
      have hloop := parseUintLoop_of_digits _ _ _ hval (by omega)
      simp [Atoi, h45, h43, hloop, hu2]

/-- The hexadecimal digits of a 64-bit value are at most 16. -/
theorem hexDigits_length (key : Nat) (hkey : key < 2 ^ 64) : (hexDigits key).length ≤ 16 := by
  unfold hexDigits Nat.toDigits
  rw [List.length_map]
  exact Nat.toDigitsCore_length 16 (by decide) (key + 1) key 16 (by omega) (by decide)

theorem hexValue_zeros : ∀ (k : Nat) (l : List Nat),
    hexValue (List.replicate k 48 ++ l) 0 = hexValue l 0
  | 0, _ => rfl
  | k + 1, l => by
    have h48 : hexDigitValue 48 = some 0 := by decide
    simp only [List.replicate_succ, List.cons_append, hexValue, h48]
    exact hexValue_zeros k l

/-- What `%016x` prints for a 64-bit value: exactly 16 lowercase hexadecimal digits
that read back as the value. -/
theorem Sprintf016x_spec (key : Nat) (hkey : key < 2 ^ 64) :
    (Sprintf016x key).length = 16
      ∧ (∀ c ∈ Sprintf016x key, (48 ≤ c ∧ c ≤ 57) ∨ (97 ≤ c ∧ c ≤ 102))
      ∧ parseHex (Sprintf016x key) = some key := by
  have hlen := hexDigits_length key hkey
  have h16 : (Sprintf016x key).length = 16 := by
    simp only [Sprintf016x, List.length_append, List.length_replicate]
    omega
  refine ⟨h16, ?_, ?_⟩
  · intro c hc
    simp only [Sprintf016x, List.mem_append, List.mem_replicate] at hc
    rcases hc with ⟨_, rfl⟩ | hc
    · exact Or.inl ⟨by decide, by decide⟩
    · simp only [hexDigits, List.mem_map] at hc
      obtain ⟨ch, hch, rfl⟩ := hc
      exact toDigitsCore_hex_bytes _ _ ch hch
  · have hne : Sprintf016x key ≠ [] := by
      intro h
      rw [h] at h16
      simp at h16
    simp only [parseHex, hne, if_false]
    rw [Sprintf016x, hexValue_zeros]
    exact hexValue_toDigitsCore (key + 1) key (Nat.lt_succ_self _)

/-! ## OpenJ9 rendezvous: replyInfo and greeting -/

theorem splitLoop_nil (k : Nat) : splitLoop (str "\n") k [] = [[]] := by
  cases k <;> rfl

theorem splitLoop_line (k : Nat) (l r : List Nat) (h : 10 ∉ l) :
    splitLoop (str "\n") (k + 1) (l ++ 10 :: r) = l :: splitLoop (str "\n") k r := by
  simp [splitLoop, Cut_line_feed l r h]

/-- C16: for every 64-bit key and every port (a 64-bit `int`), the content written to
replyInfo consists of exactly two lines, each ended by a line feed: the key as exactly
16 lowercase hexadecimal digits, which read back as a hexadecimal number give the
key, and the port in decimal, which `strconv.Atoi` reads back as the port. -/
theorem C16_replyInfo_two_lines (key : Nat) (port : Int) (hkey : key < 2 ^ 64)
    (hlo : -(2 ^ 63 : Int) ≤ port) (hhi : port < (2 ^ 63 : Int)) :
    openJ9.replyInfoContent port key = Sprintf016x key ++ [10] ++ Itoa port ++ [10]
      ∧ Split (openJ9.replyInfoContent port key) (str "\n") = [Sprintf016x key, Itoa port, []]
      ∧ (Sprintf016x key).length = 16
      ∧ (∀ c ∈ Sprintf016x key, (48 ≤ c ∧ c ≤ 57) ∨ (97 ≤ c ∧ c ≤ 102))
      ∧ parseHex (Sprintf016x key) = some key
      ∧ Atoi (Itoa port) = (port, none) := by
  obtain ⟨h16, hhex, hparse⟩ := Sprintf016x_spec key hkey
  have hatoi := Atoi_Itoa port hlo hhi
  have hcontent : openJ9.replyInfoContent port key
      = Sprintf016x key ++ 10 :: (Itoa port ++ 10 :: []) := by
    have hs : str "\n" = [10] := by decide
    simp [openJ9.replyInfoContent, hs]
  refine ⟨by rw [hcontent]; simp, ?_, h16, hhex, hparse, hatoi⟩
  have hk : 10 ∉ Sprintf016x key := by
    intro hmem
    have := hhex 10 hmem
    omega
  have hp : 10 ∉ Itoa port := (Atoi_accepts _ _ hatoi).2
  have hlen : (Sprintf016x key ++ 10 :: (Itoa port ++ 10 :: [])).length
      = ((Sprintf016x key).length + (Itoa port).length + 1) + 1 := by
    simp only [List.length_append, List.length_cons, List.length_nil]
    omega
  rw [hcontent, Split, hlen, splitLoop_line _ _ _ hk]
  have hfuel : (Sprintf016x key).length + (Itoa port).length + 1
      = ((Sprintf016x key).length + (Itoa port).length) + 1 := rfl
  rw [hfuel, splitLoop_line _ _ _ hp, splitLoop_nil]

/-- C16 on the key 0xdeadbeef and the port 8080. -/
theorem C16_replyInfo_two_lines_witness :
    openJ9.replyInfoContent 8080 0xdeadbeef = str "00000000deadbeef\n8080\n"
      ∧ parseHex (Sprintf016x 0xdeadbeef) = some 0xdeadbeef
      ∧ Atoi (Itoa 8080) = (8080, none) :=
  ⟨(C16_replyInfo_two_lines 0xdeadbeef 8080 (by decide) (by decide) (by decide)).1.trans
      (by decide),
    (C16_replyInfo_two_lines 0xdeadbeef 8080 (by decide) (by decide) (by decide)).2.2.2.2.1,
    (C16_replyInfo_two_lines 0xdeadbeef 8080 (by decide) (by decide) (by decide)).2.2.2.2.2⟩

/-- A read never stores more bytes than the buffer holds. -/
theorem netConn_Read_length (conn : netConn) (cap : Nat) :
    (conn.Read cap).1.2.1.length ≤ cap := by
  unfold netConn.Read
  split
  · simp
  · simp
  · simp
  · split_ifs with h
    · exact h
    · simp only [List.length_take]
      omega

/-- The greeting loop returns exactly 35 bytes when it returns without error. -/
theorem readGreeting_length : ∀ (fuel : Nat) (conn conn1 : netConn) (got buf : List Nat),
    got.length ≤ 35 → readGreeting fuel conn got = (.ok buf, conn1) → buf.length = 35
  | 0, _, _, _, _, _, h => by simp [readGreeting] at h
  | fuel + 1, conn, conn1, got, buf, hgot, h => by
    unfold readGreeting at h
    split_ifs at h with hlt
    · have hcap := netConn_Read_length conn (35 - got.length)
      rcases hr : conn.Read (35 - got.length) with ⟨⟨n, bs, e⟩, c2⟩
      rw [hr] at h hcap
      simp only at hcap
      cases e with
      | some e => simp at h
      | none =>
        simp only at h
        exact readGreeting_length fuel c2 conn1 (got ++ bs) buf
          (by simp only [List.length_append]; omega) h
    · simp only [Prod.mk.injEq, Except.ok.injEq] at h
      rw [← h.1]
      omega

/-- The expected greeting is 34 bytes long for every 64-bit key. -/
theorem expectedGreeting_length (key : Nat) (hkey : key < 2 ^ 64) :
    (expectedGreeting key).length = 34 := by
  have h16 := (Sprintf016x_spec key hkey).1
  have h17 : (str "ATTACH_CONNECTED ").length = 17 := by decide
  have h1 : (str " ").length = 1 := by decide
  simp only [expectedGreeting, List.length_append, h16, h17, h1]

/-- C17: for every 64-bit key and the 35 bytes the greeting loop has read from the
VM, `acceptClient` accepts exactly when these bytes, without their last byte when it
is NUL, equal `ATTACH_CONNECTED `, the key as 16 lowercase zero-padded hexadecimal
digits and one space, that is, exactly when they are this text followed by a NUL;
the expected text is 34 bytes long. -/
theorem C17_acceptClient_greeting (key : Nat) (hkey : key < 2 ^ 64) (conn conn1 : netConn)
    (buf : List Nat)
    (hread : readGreeting (conn.budget + 36) conn [] = (.ok buf, conn1)) :
    buf.length = 35
      ∧ (expectedGreeting key).length = 34
      ∧ expectedGreeting key = str "ATTACH_CONNECTED " ++ Sprintf016x key ++ str " "
      ∧ ((∃ c, openJ9.acceptClient conn key = .ok c)
          ↔ (if buf.getLast? = some 0 then buf.dropLast else buf) = expectedGreeting key)
      ∧ ((∃ c, openJ9.acceptClient conn key = .ok c) ↔ buf = expectedGreeting key ++ [0]) := by
  have hlen := readGreeting_length _ conn conn1 [] buf (by simp) hread
  have hexp := expectedGreeting_length key hkey
  have hpos : 0 < buf.length := by omega
  have hacc : (∃ c, openJ9.acceptClient conn key = .ok c)
      ↔ (if buf.getLast? = some 0 then buf.dropLast else buf) = expectedGreeting key := by
    simp only [openJ9.acceptClient, hread, greetingAccepted, hpos, true_and]
    by_cases hg : (if buf.getLast? = some 0 then buf.dropLast else buf) = expectedGreeting key
    · simp [hg]
    · simp [hg]
  refine ⟨hlen, hexp, rfl, hacc, ?_⟩
  rw [hacc]
  by_cases hlast : buf.getLast? = some 0
  · simp only [hlast, if_true]
    have hne : buf ≠ [] := by
      intro h
      rw [h] at hlen
      simp at hlen
    have hsplit : buf = buf.dropLast ++ [0] := by
      have h1 := List.dropLast_append_getLast? 0 (by rw [hlast]; rfl) 
      exact h1.symm
    constructor
    · intro h
      rw [← h]
      exact hsplit
    · intro h
      rw [h]
      simp
  · simp only [hlast, if_false]
    constructor
    · intro h
      rw [h] at hlen
      omega
    · intro h
      rw [h] at hlast
      simp at hlast

/-- C17 on the key 0xdeadbeef: the greeting with the key is accepted, also when it
arrives in two pieces. -/
theorem C17_acceptClient_greeting_witness :
    (∃ c, openJ9.acceptClient
        ⟨[.data (str "ATTACH_CONN"), .data (str "ECTED 00000000deadbeef " ++ [0])]⟩
        0xdeadbeef = .ok c) :=
  (C17_acceptClient_greeting 0xdeadbeef (by decide)
    ⟨[.data (str "ATTACH_CONN"), .data (str "ECTED 00000000deadbeef " ++ [0])]⟩ ⟨[]⟩
    (str "ATTACH_CONNECTED 00000000deadbeef " ++ [0]) (by rfl)).2.2.2.2.2 (by decide)

/-! ## The HotSpot trigger file -/

/-- The polling loop ends with the trigger file in use unlinked. -/
theorem pollSocket_files (host : TriggerHost) (path : TriggerFile) :
    ∀ (fuel delay k : Nat) (files : List TriggerFile) (sleeps : List Nat),
      (pollSocket host path fuel delay k files sleeps).files = files.erase path
  | 0, _, _, _, _ => rfl
  | fuel + 1, delay, k, files, sleeps => by
    unfold pollSocket
    split_ifs
    · rfl
    · exact pollSocket_files host path fuel _ _ files _
    · rfl
    · rfl

/-- When the quit signal is delivered, no trigger file is left on any exit path of
`startAttachMechanism`; the same holds when the second creation fails. -/
theorem startAttachMechanism_unlinks (host : TriggerHost)
    (h : host.killQuit = none ∨ (host.openCwd.isSome ∧ host.openTmp.isSome)) :
    (hotSpot.startAttachMechanism host).files = [] := by
  unfold hotSpot.startAttachMechanism
  rcases hopen : host.openCwd with _ | e1
  · by_cases hown : host.closeCwd = none ∧ host.cwdOwner ≠ host.euid
    · rcases htmp : host.openTmp with _ | e2
      · rcases h with h | h
        · simp [hown, htmp, signalAndPoll, h, pollSocket_files]
        · simp [hopen] at h
      · simp [hown, htmp]
    · rcases h with h | h
      · simp [hown, signalAndPoll, h, pollSocket_files]
      · simp [hopen] at h
  · rcases htmp : host.openTmp with _ | e2
    · rcases h with h | h
      · simp [htmp, signalAndPoll, h, pollSocket_files]
      · simp [htmp] at h
    · simp [htmp]

/-- C18 fails on the code: the trigger file is created in the current directory of
the target and the quit signal is not delivered; `startAttachMechanism` returns the
error of the signal and the trigger file still exists. -/
theorem C18_trigger_left_when_signal_fails :
    hotSpot.startAttachMechanism undeliveredSignalHost
      = ⟨some (.msg (str "no such process")), [TriggerFile.cwd], []⟩ := by
  decide

/-! ## The OpenJ9 session: what is left afterwards -/

/-- Every path of the command exchange ends with the deferred calls. -/
theorem exchange_defers (host : J9Host) (conn : netConn) (args : List (List Nat))
    (printOutput : Bool) (count : Nat) (s : J9State) :
    ∃ s1, (openJ9.exchange host conn args printOutput count s).2 = deferConnClose count s1 := by
  unfold openJ9.exchange
  simp only
  repeat' split
  all_goals exact ⟨_, rfl⟩

theorem exchange_released (host : J9Host) (conn : netConn) (args : List (List Nat))
    (printOutput : Bool) (count : Nat) (s : J9State) :
    (openJ9.exchange host conn args printOutput count s).2.attachLockHeld = false
      ∧ (openJ9.exchange host conn args printOutput count s).2.replyInfo = none := by
  obtain ⟨s1, h⟩ := exchange_defers host conn args printOutput count s
  rw [h]
  exact ⟨rfl, rfl⟩

/-- After every OpenJ9 session the `_attachlock` lock is not held. -/
theorem Attach_lock_released (host : J9Host) (nspid : Int) (args : List (List Nat))
    (printOutput : Bool) (tmpPath : List Nat) :
    (openJ9.Attach host nspid args printOutput tmpPath).2.attachLockHeld = false := by
  unfold openJ9.Attach
  simp only
  repeat' split
  all_goals first
    | rfl
    | exact (exchange_released _ _ _ _ _ _).1

/-- After every OpenJ9 session in which writing replyInfo did not fail, the replyInfo
file does not exist. -/
theorem Attach_replyInfo_removed (host : J9Host) (nspid : Int) (args : List (List Nat))
    (printOutput : Bool) (tmpPath : List Nat) (hwrite : host.writeReplyInfo = none) :
    (openJ9.Attach host nspid args printOutput tmpPath).2.replyInfo = none := by
  unfold openJ9.Attach
  simp only [hwrite]
  repeat' split
  all_goals first
    | rfl
    | exact (exchange_released _ _ _ _ _ _).2

/-- C19 fails on the code: replyInfo is created and the write to it fails; the session
ends with the error, the `_attachlock` lock is released, and the replyInfo file still
exists, because its removal is deferred only after `writeReplyInfo` has succeeded. -/
theorem C19_replyInfo_left_when_write_fails :
    (openJ9.Attach replyWriteFailsHost 4242 [str "load", str "/a.so"] true (str "/tmp")).1
        = ([], some (.msg (str "could not write replyInfo: no space left on device")))
      ∧ (openJ9.Attach replyWriteFailsHost 4242 [str "load", str "/a.so"] true
          (str "/tmp")).2.replyInfo = some []
      ∧ (openJ9.Attach replyWriteFailsHost 4242 [str "load", str "/a.so"] true
          (str "/tmp")).2.attachLockHeld = false := by
  decide

/-! ## The argument slots of the Windows data block -/

/-- Copying an argument and its NUL into a slot that is not longer than the argument
fills the slot with the start of the argument: the NUL is cut off. -/
theorem goCopy_long (dst a : List Nat) (h : dst.length ≤ a.length) :
    goCopy dst (a ++ [0]) = a.take dst.length := by
  unfold goCopy
  have hdrop : List.drop (a ++ [0]).length dst = [] :=
    List.drop_eq_nil_of_le (by simp only [List.length_append, List.length_cons, List.length_nil]; omega)
  rw [List.take_append_of_le_length h, hdrop, List.append_nil]

/-- Copying an argument and its NUL into a longer slot leaves the argument, the NUL
and the rest of the slot. -/
theorem goCopy_short (dst a : List Nat) (h : a.length < dst.length) :
    goCopy dst (a ++ [0]) = a ++ 0 :: dst.drop (a.length + 1) := by
  unfold goCopy
  have htake : List.take dst.length (a ++ [0]) = a ++ [0] :=
    List.take_of_length_le (by simp only [List.length_append, List.length_cons, List.length_nil]; omega)
  rw [htake]
  simp

/-- The second argument slot for `load` with one argument is the zeroed slot with the
argument and a NUL copied over it. -/
theorem allocateData_load_slot (p1 p2 : Nat) (pipe a : List Nat) :
    (Windows.allocateData p1 p2 pipe [str "load", a]).Args.getD 1 []
      = goCopy (List.replicate 1024 0) (a ++ [0]) := by
  have hk : cmdArgsOf [str "load", a] = 2 := by simp [cmdArgsOf]
  simp only [Windows.allocateData, hk]
  generalize List.replicate 1024 0 = z
  have h4 : List.replicate 4 z = [z, z, z, z] := rfl
  rw [h4]
  simp [setArgs]

/-- For `load` with an argument shorter than 1024 bytes the second slot holds the whole
argument, a NUL and zeros up to 1024 bytes. -/
theorem allocateData_load_slot_short (p1 p2 : Nat) (pipe a : List Nat)
    (h : a.length < 1024) :
    (Windows.allocateData p1 p2 pipe [str "load", a]).Args.getD 1 []
      = a ++ 0 :: List.replicate (1024 - (a.length + 1)) 0 := by
  rw [allocateData_load_slot, goCopy_short _ _ (by rw [List.length_replicate]; exact h),
    List.drop_replicate]

/-- C20 fails on the code: for `load` with an argument of 1024 bytes, the second
argument slot of the data block holds these 1024 bytes and no NUL byte. -/
theorem C20_argument_slot_without_NUL :
    (Windows.allocateData 0 0 (str "pipe") [str "load", List.replicate 1024 65]).Args.getD 1 []
        = List.replicate 1024 65
      ∧ 0 ∉ (Windows.allocateData 0 0 (str "pipe")
          [str "load", List.replicate 1024 65]).Args.getD 1 [] := by
  have hslot : (Windows.allocateData 0 0 (str "pipe")
      [str "load", List.replicate 1024 65]).Args.getD 1 [] = List.replicate 1024 65 := by
    rw [allocateData_load_slot,
      goCopy_long _ _ (by rw [List.length_replicate, List.length_replicate]),
      List.length_replicate]
    exact List.take_of_length_le (by rw [List.length_replicate])
  refine ⟨hslot, ?_⟩
  rw [hslot]
  intro hmem
  have := List.eq_of_mem_replicate hmem
  omega

/-- What the argument loop of `allocateData` leaves in slot `j`: the slot with
`args[j]` and a NUL copied over it when `j` is below 4, below `cmdArgs` and an index
of the argument list, the slot as it was otherwise. -/
theorem setArgs_getD (cmdArgs : Nat) :
    ∀ (rest : List (List Nat)) (i : Nat) (slots : List (List Nat)) (j : Nat),
      j < slots.length →
      (setArgs cmdArgs i rest slots).getD j [] =
        if i ≤ j ∧ j < 4 ∧ j < cmdArgs ∧ j < i + rest.length then
          goCopy (slots.getD j []) (rest.getD (j - i) [] ++ [0])
        else slots.getD j []
  | [], i, slots, j, _ => by
    have h : ¬ (i ≤ j ∧ j < 4 ∧ j < cmdArgs ∧ j < i + ([] : List (List Nat)).length) := by
      simp only [List.length_nil]; omega
    simp only [setArgs, h, if_false]
  | a :: rest, i, slots, j, hj => by
    unfold setArgs
    by_cases h4 : i < 4
    · by_cases hk : i < cmdArgs
      · simp only [h4, hk, if_true]
        rw [setArgs_getD cmdArgs rest (i + 1) _ j (by rw [List.length_set]; exact hj)]
        by_cases hij : j = i
        · subst hij
          have h1 : ¬ (j + 1 ≤ j ∧ j < 4 ∧ j < cmdArgs ∧ j < j + 1 + rest.length) := by omega
          have h2 : (j ≤ j ∧ j < 4 ∧ j < cmdArgs ∧ j < j + (a :: rest).length) := by
            simp only [List.length_cons]; omega
          simp only [h1, h2, if_false, if_true, Nat.sub_self, List.getD_cons_zero]
          simp [List.getD_eq_getElem?_getD, List.getElem?_set, hj]
        · have hset : (slots.set i (goCopy (slots.getD i []) (a ++ [0]))).getD j []
              = slots.getD j [] := by
            simp [List.getD_eq_getElem?_getD, List.getElem?_set, Ne.symm hij]
          rw [hset]
          by_cases hlt : i < j
          · have hidx : (a :: rest).getD (j - i) [] = rest.getD (j - (i + 1)) [] := by
              obtain ⟨d, hd⟩ : ∃ d, j - i = d + 1 := ⟨j - i - 1, by omega⟩
              have hd2 : j - (i + 1) = d := by omega
              rw [hd, hd2, List.getD_cons_succ]
            rw [hidx]
            simp only [List.length_cons]
            by_cases hc : i + 1 ≤ j ∧ j < 4 ∧ j < cmdArgs ∧ j < i + 1 + rest.length
            · have hc2 : i ≤ j ∧ j < 4 ∧ j < cmdArgs ∧ j < i + (rest.length + 1) := by omega
              simp only [hc, hc2, and_self, if_true]
            · have hc2 : ¬ (i ≤ j ∧ j < 4 ∧ j < cmdArgs ∧ j < i + (rest.length + 1)) := by
                omega
              simp only [hc, hc2, if_false]
          · have hc : ¬ (i + 1 ≤ j ∧ j < 4 ∧ j < cmdArgs ∧ j < i + 1 + rest.length) := by
              omega
            have hc2 : ¬ (i ≤ j ∧ j < 4 ∧ j < cmdArgs ∧ j < i + (a :: rest).length) := by
              omega
            simp only [hc, hc2, if_false]
      · simp only [h4, hk, if_true, if_false]
        rw [setArgs_getD cmdArgs rest (i + 1) slots j hj]
        have hc : ¬ (i + 1 ≤ j ∧ j < 4 ∧ j < cmdArgs ∧ j < i + 1 + rest.length) := by omega
        have hc2 : ¬ (i ≤ j ∧ j < 4 ∧ j < cmdArgs ∧ j < i + (a :: rest).length) := by omega
        simp only [hc, hc2, if_false]
    · have hc2 : ¬ (i ≤ j ∧ j < 4 ∧ j < cmdArgs ∧ j < i + (a :: rest).length) := by omega
      simp only [h4, hc2, if_false]

/-- When every argument that gets a slot is shorter than 1024 bytes, every one of the
four argument slots of the data block is 1024 bytes long and holds a NUL, and a slot
that is used holds its argument, a NUL and zeros. -/
theorem allocateData_slots_terminated (p1 p2 : Nat) (pipe : List Nat)
    (args : List (List Nat)) (j : Nat) (hj : j < 4)
    (hshort : ∀ i, i < cmdArgsOf args → i < args.length → (args.getD i []).length < 1024) :
    ((Windows.allocateData p1 p2 pipe args).Args.getD j []).length = 1024
      ∧ 0 ∈ (Windows.allocateData p1 p2 pipe args).Args.getD j []
      ∧ (j < cmdArgsOf args → j < args.length →
          (Windows.allocateData p1 p2 pipe args).Args.getD j []
            = args.getD j [] ++ 0 :: List.replicate (1024 - ((args.getD j []).length + 1)) 0) := by
  have hslots : (List.replicate 4 (List.replicate 1024 0)).getD j [] = List.replicate 1024 0 := by
    rw [List.getD_eq_getElem?_getD, List.getElem?_replicate, if_pos hj]
    rfl
  have hget := setArgs_getD (cmdArgsOf args) args 0 (List.replicate 4 (List.replicate 1024 0)) j
    (by rw [List.length_replicate]; exact hj)
  simp only [Windows.allocateData]
  rw [hget, hslots]
  by_cases hused : j < cmdArgsOf args ∧ j < args.length
  · have hc : 0 ≤ j ∧ j < 4 ∧ j < cmdArgsOf args ∧ j < 0 + args.length := by omega
    have hlen := hshort j hused.1 hused.2
    rw [if_pos hc, Nat.sub_zero,
      goCopy_short _ _ (by rw [List.length_replicate]; exact hlen), List.drop_replicate]
    refine ⟨?_, by simp, fun _ _ => rfl⟩
    simp only [List.length_append, List.length_cons, List.length_replicate]
    omega
  · have hc : ¬ (0 ≤ j ∧ j < 4 ∧ j < cmdArgsOf args ∧ j < 0 + args.length) := by omega
    rw [if_neg hc]
    refine ⟨List.length_replicate _ _, ?_, fun h1 h2 => absurd ⟨h1, h2⟩ hused⟩
    exact List.mem_replicate.2 ⟨by decide, rfl⟩

/-! ## The Windows and the Linux response parser -/

/-- The claim C21 fails at the response 107, CR, LF, boom for `threaddump`: the Linux
parser, which does not trim the status line, takes the status as 0 and returns boom
without error; the Windows parser trims the line, derives the status 107 and returns
an error. It fails as well at the response 0, LF, "return code: 5", LF to a `load`,
where only the Linux parser replaces the status by the return code of the agent. -/
theorem C21_parsers_differ :
    hotSpot.readResponse ⟨[.data (str "107\r\nboom")]⟩ [str "threaddump"] = (str "boom", none)
      ∧ Windows.readResponse ⟨none, [⟨str "107\r\nboom", some .brokenPipe⟩]⟩
        = (str "boom", some (.msg (str "command failed with code 107: boom")))
      ∧ hotSpot.readResponse ⟨[.data (str "0\nreturn code: 5\n")]⟩ [str "load", str "/a.so"]
        = (str "return code: 5\n", some (.msg (str "command failed with code 5")))
      ∧ Windows.readResponse ⟨none, [⟨str "0\nreturn code: 5\n", some .brokenPipe⟩]⟩
        = (str "return code: 5\n", none) := by
  decide

/-- C21 as amended: for every non-empty response of at most 8192 bytes that the Linux
parser gets in one read, and every command other than `load`, if trimming white space
from the status line does not change the integer read from it, the Windows and the
Linux parser derive the same status and the same body: both return the text after
the first line feed, without error when the status is 0 and with an error that
reports the same code otherwise. -/
theorem C21_parsers_agree (data : List Nat) (rest : List ReadEvent) (args : List (List Nat))
    (hcmd : args.head? ≠ some (str "load")) (hne : data ≠ []) (hlen : data.length ≤ 8192)
    (htrim : atoiOr (TrimSpace ((SplitN2 data (str "\n")).headD [])) 0
      = atoiOr ((SplitN2 data (str "\n")).headD []) 0) :
    ∃ (code : Int) (body : List Nat),
      hotSpot.readResponse ⟨.data data :: rest⟩ args
          = (body, if code = 0 then none else some (.msg (str "command failed with code "
              ++ Itoa code)))
        ∧ Windows.parseResponse data
          = (body, if code = 0 then none else some (.msg (str "command failed with code "
              ++ Itoa code ++ (if body = [] then [] else str ": " ++ body))))
        ∧ Windows.readResponse ⟨none, [⟨data, some .brokenPipe⟩]⟩ = Windows.parseResponse data := by
  have hpos : 0 < data.length := List.length_pos.2 hne
  have hnz : ¬ ((data.length : Int) = 0) := by omega
  have hnz2 : ¬ (data.length = 0) := by omega
  have hwin : Windows.readResponse ⟨none, [⟨data, some .brokenPipe⟩]⟩
      = Windows.parseResponse data := by
    simp [Windows.readResponse, readPipe]
  have hempty : atoiOr [] 0 = 0 := by decide
  refine ⟨atoiOr ((SplitN2 data (str "\n")).headD []) 0, (SplitN2 data (str "\n")).getD 1 [],
    ?_, ?_, hwin⟩
  · unfold hotSpot.readResponse
    rw [Read_whole _ _ _ hlen]
    simp only [hnz, if_false, hcmd, and_false]
    unfold SplitN2
    cases hcut : Cut (str "\n") data with
    | none =>
      simp only [List.length_cons, List.length_nil, List.headD_cons, hpos, if_true]
      by_cases h0 : atoiOr data 0 = 0
      · simp [h0]
      · simp [h0, commandFailedWithCode]
    | some p =>
      obtain ⟨a, b⟩ := p
      simp only [List.length_cons, List.length_nil, List.headD_cons]
      by_cases ha : 0 < a.length
      · by_cases h0 : atoiOr a 0 = 0
        · simp [ha, h0]
        · simp [ha, h0, commandFailedWithCode]
      · have hanil : a = [] := List.length_eq_zero.1 (by omega)
        subst hanil
        simp [hempty]
  · unfold Windows.parseResponse
    simp only [hnz2, if_false]
    rw [htrim]
    unfold SplitN2
    cases hcut : Cut (str "\n") data with
    | none =>
      by_cases h0 : atoiOr data 0 = 0
      · simp [h0]
      · simp [h0]
    | some p =>
      obtain ⟨a, b⟩ := p
      by_cases h0 : atoiOr a 0 = 0
      · simp [h0]
      · by_cases hb : b = []
        · simp [h0, hb]
        · simp [h0, hb]

/-- C21 as amended, on the response 107, LF, boom. -/
theorem C21_parsers_agree_witness :
    ∃ (code : Int) (body : List Nat),
      hotSpot.readResponse ⟨[.data (str "107\nboom")]⟩ [str "threaddump"]
          = (body, if code = 0 then none else some (.msg (str "command failed with code "
              ++ Itoa code)))
        ∧ Windows.parseResponse (str "107\nboom")
          = (body, if code = 0 then none else some (.msg (str "command failed with code "
              ++ Itoa code ++ (if body = [] then [] else str ": " ++ body))))
        ∧ Windows.readResponse ⟨none, [⟨str "107\nboom", some .brokenPipe⟩]⟩
          = Windows.parseResponse (str "107\nboom") :=
  C21_parsers_agree (str "107\nboom") [] [str "threaddump"] (by decide) (by decide)
    (by decide) (by decide)

/-! ## The facade: engine errors -/

/-- C22: once the namespaces are entered, the credentials set and the temp path found,
`Process.Attach` returns the output of the engine; when the engine returns an error
e, it returns an error that wraps `ErrCommandFailed` (`errors.Is` holds) and whose
message is "command execution failed: " followed by the message of e; when the engine
returns no error, it returns no error. -/
theorem C22_Process_Attach_wraps_engine_error (sys : Platform) (p : Process)
    (command : List Nat) (args : List (List Nat)) (options : Option Options)
    (jvm : JVMType) (tmpPath output : List Nat) (engineErr : Option GoError)
    (hns : (p.enterNamespaces sys).1 = none) (hcred : (p.setCredentials sys).1 = none)
    (htmp : (p.getTempPath sys).1 = .ok tmpPath) (hjvm : p.jvm = some jvm)
    (hengine : sys.jvmAttach jvm p.pid p.nsPid ([command] ++ args)
      (match options with
        | none => true
        | some o => o.PrintOutput) tmpPath = (output, engineErr)) :
    (p.Attach sys command args options).1.1 = output
      ∧ (∀ e, engineErr = some e →
          ∃ err, (p.Attach sys command args options).1.2 = some err
            ∧ errorsIs err .ErrCommandFailed = true
            ∧ err.Error = str "command execution failed: " ++ e.Error)
      ∧ (engineErr = none → (p.Attach sys command args options).1.2 = none) := by
  rcases h1 : p.enterNamespaces sys with ⟨e1, t1⟩
  rcases h2 : p.setCredentials sys with ⟨e2, t2⟩
  rcases h3 : p.getTempPath sys with ⟨e3, t3⟩
  rw [h1] at hns
  rw [h2] at hcred
  rw [h3] at htmp
  simp only at hns hcred htmp
  subst hns hcred htmp
  have hres : (p.Attach sys command args options).1
      = (output, engineErr.map (fun e => wrapError .ErrCommandFailed e)) := by
    unfold Process.Attach
    cases options with
    | none =>
      simp only at hengine
      simp only [h1, h2, h3, hjvm, hengine]
      cases engineErr <;> rfl
    | some o =>
      simp only at hengine
      simp only [h1, h2, h3, hjvm, hengine]
      cases engineErr <;> rfl
  rw [hres]
  refine ⟨rfl, ?_, ?_⟩
  · intro e he
    subst he
    refine ⟨wrapError .ErrCommandFailed e, rfl, ?_, ?_⟩
    · simp [wrapError, errorsIs]
    · have hs : GoError.ErrCommandFailed.Error ++ str ": "
          = str "command execution failed: " := by decide
      simp only [wrapError, GoError.Error]
      rw [← hs]
      rfl
  · intro he
    subst he
    rfl

/-- C22 on a process whose engine fails with "boom" and returns the output "out". -/
theorem C22_Process_Attach_wraps_engine_error_witness :
    (Process.Attach engineFailsPlatform ⟨4242, 0, 0, 4242, some .HotSpot⟩
        (str "threaddump") [] none).1.1 = str "out"
      ∧ ∃ err, (Process.Attach engineFailsPlatform ⟨4242, 0, 0, 4242, some .HotSpot⟩
            (str "threaddump") [] none).1.2 = some err
          ∧ errorsIs err .ErrCommandFailed = true
          ∧ err.Error = str "command execution failed: " ++ (GoError.msg (str "boom")).Error :=
  ⟨(C22_Process_Attach_wraps_engine_error engineFailsPlatform
      ⟨4242, 0, 0, 4242, some .HotSpot⟩ (str "threaddump") [] none .HotSpot (str "/tmp")
      (str "out") (some (.msg (str "boom"))) (by decide) (by decide) (by rfl) (by decide)
      (by decide)).1,
    (C22_Process_Attach_wraps_engine_error engineFailsPlatform
      ⟨4242, 0, 0, 4242, some .HotSpot⟩ (str "threaddump") [] none .HotSpot (str "/tmp")
      (str "out") (some (.msg (str "boom"))) (by decide) (by decide) (by rfl) (by decide)
      (by decide)).2.1 (.msg (str "boom")) rfl⟩

/-! ## HotSpot response: the unread rest and the unparseable status line -/

/-- What `readResponse` returns never depends on what follows the first read: for every
first chunk, every continuation of the stream and every command, the result is the one
for the first chunk alone. -/
theorem readResponse_first_read_only (bs : List Nat) (rest : List ReadEvent)
    (args : List (List Nat)) :
    hotSpot.readResponse ⟨.data bs :: rest⟩ args = hotSpot.readResponse ⟨[.data bs]⟩ args := by
  unfold hotSpot.readResponse socketConn.Read
  by_cases h : bs.length ≤ 8192
  · simp only [h, if_true, readMore_reads_nothing]
  · simp only [h, if_false, readMore_reads_nothing]

/-- C24 fails on the code: for a `load` whose response arrives as the chunk 0, LF and
then the chunk "return code: 0", LF, the loop that should read on reads nothing: the
buffer and the count stay those of the first chunk, the result is the one for the
first chunk alone, the failure code -1, and the second chunk is the same as absent. -/
theorem C24_load_reads_first_chunk_only :
    readMore 2 ⟨[.data (str "return code: 0\n")]⟩ (str "0\n") 2 = (str "0\n", 2)
      ∧ hotSpot.readResponse ⟨[.data (str "0\n"), .data (str "return code: 0\n")]⟩
          [str "load", str "/a.so"]
        = hotSpot.readResponse ⟨[.data (str "0\n")]⟩ [str "load", str "/a.so"]
      ∧ hotSpot.readResponse ⟨[.data (str "0\n"), .data (str "return code: 0\n")]⟩
          [str "load", str "/a.so"]
        = ([], some (.msg (str "command failed with code -1")))
      ∧ ∀ (bs : List Nat) (rest : List ReadEvent) (args : List (List Nat)),
          hotSpot.readResponse ⟨.data bs :: rest⟩ args
            = hotSpot.readResponse ⟨[.data bs]⟩ args :=
  ⟨by decide, by decide, by decide, readResponse_first_read_only⟩

/-- C23 fails on the code: for a `load` whose response arrives as the chunk 0, LF and
then the chunk 0, LF (the return code of the agent alone on the second line),
`readResponse` reports the failure code -1 although the line parses to 0, and so it
does for the second chunk 100, LF; delivered in one chunk, the same responses are
read as the status 0 and 100, and a second line that does not start a number gives
-1. -/
theorem C23_load_second_line_after_first_chunk_lost :
    hotSpot.readResponse ⟨[.data (str "0\n"), .data (str "0\n")]⟩ [str "load", str "/a.so"]
        = ([], some (.msg (str "command failed with code -1")))
      ∧ hotSpot.readResponse ⟨[.data (str "0\n"), .data (str "100\n")]⟩
          [str "load", str "/a.so"]
        = ([], some (.msg (str "command failed with code -1")))
      ∧ hotSpot.readResponse ⟨[.data (str "0\n0\n")]⟩ [str "load", str "/a.so"]
        = (str "0\n", none)
      ∧ hotSpot.readResponse ⟨[.data (str "0\n100\n")]⟩ [str "load", str "/a.so"]
        = (str "100\n", some (.msg (str "command failed with code 100")))
      ∧ hotSpot.readResponse ⟨[.data (str "0\n-3\n")]⟩ [str "load", str "/a.so"]
        = (str "-3\n", some (.msg (str "command failed with code -3")))
      ∧ hotSpot.readResponse ⟨[.data (str "0\nAgent failed\n")]⟩ [str "load", str "/a.so"]
        = (str "Agent failed\n", some (.msg (str "command failed with code -1"))) := by
  decide

/-- C25 fails on the code: for `threaddump` the response 107, CR, LF, boom, whose
status line `strconv.Atoi` rejects, is returned by the Linux `readResponse` as the
body boom without error, and so are the responses with the status line abc and with
an empty status line. The same bytes make the Windows parser, which trims the status
line, report the failure code 107; and the `load` branch of the Linux function itself
trims the line it parses: it reads the return code 5 from 5, CR. -/
theorem C25_unparseable_status_reported_as_success :
    (Atoi (str "107\r")).2 ≠ none
      ∧ hotSpot.readResponse ⟨[.data (str "107\r\nboom")]⟩ [str "threaddump"]
        = (str "boom", none)
      ∧ Windows.readResponse ⟨none, [⟨str "107\r\nboom", some .brokenPipe⟩]⟩
        = (str "boom", some (.msg (str "command failed with code 107: boom")))
      ∧ hotSpot.readResponse ⟨[.data (str "0\n5\r\n")]⟩ [str "load", str "/a.so"]
        = (str "5\r\n", some (.msg (str "command failed with code 5")))
      ∧ (Atoi (str "abc")).2 ≠ none
      ∧ hotSpot.readResponse ⟨[.data (str "abc\nhello")]⟩ [str "threaddump"]
        = (str "hello", none)
      ∧ hotSpot.readResponse ⟨[.data (str "\nhello")]⟩ [str "threaddump"]
        = (str "hello", none) := by
  decide

/-- What the code does with a status line it cannot parse: for a command other than
`load` and a non-empty response of at most 8192 bytes delivered in one read whose
first line `strconv.Atoi` rejects, the Linux `readResponse` returns the text after the
first line feed (nothing when there is no line feed) and no error. -/
theorem readResponse_rejected_status_line (data : List Nat) (rest : List ReadEvent)
    (args : List (List Nat)) (hcmd : args.head? ≠ some (str "load"))
    (hne : data ≠ []) (hlen : data.length ≤ 8192)
    (hbad : (Atoi ((SplitN2 data (str "\n")).headD [])).2 ≠ none) :
    hotSpot.readResponse ⟨.data data :: rest⟩ args
      = ((SplitN2 data (str "\n")).getD 1 [], none) := by
  have hpos : 0 < data.length := List.length_pos.2 hne
  have hnz : ¬ ((data.length : Int) = 0) := by omega
  have hcode : atoiOr ((SplitN2 data (str "\n")).headD []) 0 = 0 := by
    unfold atoiOr
    rcases hA : Atoi ((SplitN2 data (str "\n")).headD []) with ⟨v, e⟩
    cases e with
    | none => rw [hA] at hbad; exact absurd rfl hbad
    | some e => rfl
  unfold hotSpot.readResponse
  rw [Read_whole _ _ _ hlen]
  simp only [hnz, if_false, hcmd, and_false]
  unfold SplitN2 at hcode ⊢
  cases hcut : Cut (str "\n") data with
  | none =>
    rw [hcut] at hcode
    simp only [List.headD_cons] at hcode
    simp [hcode]
  | some p =>
    obtain ⟨a, b⟩ := p
    rw [hcut] at hcode
    simp only [List.headD_cons] at hcode
    simp [hcode]

/-- The status line abc, which `strconv.Atoi` rejects. -/
theorem readResponse_rejected_status_line_example :
    hotSpot.readResponse ⟨[.data (str "abc\nhello")]⟩ [str "threaddump"]
      = (str "hello", none) :=
  (readResponse_rejected_status_line (str "abc\nhello") [] [str "threaddump"] (by decide)
    (by decide) (by decide) (by decide)).trans (by decide)

/-! ## The OpenJ9 session: detach -/

/-- C26 fails on the code: in a `load` session in which the VM answers that the agent
failed with the code 7, the response is read and the status is 7, yet the only
message sent to the VM is the command: `ATTACH_DETACHED` is not sent, because
`Attach` returns on the error of `readResponse` before it. With the answer
`ATTACH_ACK` (status 0) the detach message is sent. -/
theorem C26_no_detach_after_nonzero_status :
    (openJ9.readResponse ⟨[.data (str "ATTACH_ERR AgentInitializationException 7" ++ [0])]⟩
        (str "ATTACH_LOADAGENT(/a.so,)") true).1.exitCode = 7
      ∧ (openJ9.Attach agentErrorHost 4242 [str "load", str "/a.so"] true (str "/tmp")).1
        = (str "ATTACH_ERR AgentInitializationException 7",
            some (.msg (str "command failed with code 7")))
      ∧ (openJ9.Attach agentErrorHost 4242 [str "load", str "/a.so"] true (str "/tmp")).2.sent
        = [str "ATTACH_LOADAGENT(/a.so,)" ++ [0]]
      ∧ (openJ9.Attach agentLoadedHost 4242 [str "load", str "/a.so"] true (str "/tmp")).2.sent
        = [str "ATTACH_LOADAGENT(/a.so,)" ++ [0], str "ATTACH_DETACHED" ++ [0]] := by
  decide

/-! ## The HotSpot trigger: polling -/

/-- C28: when the trigger file has been created, the quit signal delivered, the attach
socket never appears and the target stays alive, `startAttachMechanism` sleeps 20,
40, ..., 480 ms, 24 times, each sleep 20 ms longer than the one before and none longer
than 500 ms, 6000 ms in all, then returns the timeout error with the trigger file
unlinked. -/
theorem C28_polling_backoff (host : TriggerHost) (htmp : host.openTmp = none)
    (hkill : host.killQuit = none) (hsock : ∀ k, host.socketAtPoll k = false)
    (halive : ∀ k, host.aliveAtPoll k = true) :
    (hotSpot.startAttachMechanism host).sleeps = (List.range 24).map (fun i => 20 * (i + 1))
      ∧ (hotSpot.startAttachMechanism host).sleeps.length = 24
      ∧ (hotSpot.startAttachMechanism host).sleeps.sum = 6000
      ∧ (∀ d ∈ (hotSpot.startAttachMechanism host).sleeps, d ≤ 500)
      ∧ (hotSpot.startAttachMechanism host).err
          = some (.msg (str "timeout waiting for attach socket"))
      ∧ (hotSpot.startAttachMechanism host).files = [] := by
  have hpoll : ∀ (path : TriggerFile) (files : List TriggerFile),
      pollSocket host path 25 20 0 files []
        = ⟨some (.msg (str "timeout waiting for attach socket")), files.erase path,
            (List.range 24).map (fun i => 20 * (i + 1))⟩ := by
    intro path files
    simp [pollSocket, hsock, halive]
    decide
  have hfiles := startAttachMechanism_unlinks host (Or.inl hkill)
  have hrest : (hotSpot.startAttachMechanism host).sleeps
        = (List.range 24).map (fun i => 20 * (i + 1))
      ∧ (hotSpot.startAttachMechanism host).err
        = some (.msg (str "timeout waiting for attach socket")) := by
    unfold hotSpot.startAttachMechanism
    simp only [htmp, signalAndPoll, hkill, hpoll]
    split_ifs <;> exact ⟨rfl, rfl⟩
  rw [hrest.1]
  exact ⟨rfl, by decide, by decide, by decide, hrest.2, hfiles⟩

/-- C28 on a session in which the trigger file is created in the current directory of
the target. -/
theorem C28_polling_backoff_witness :
    (hotSpot.startAttachMechanism silentTargetHost).sleeps
        = [20, 40, 60, 80, 100, 120, 140, 160, 180, 200, 220, 240, 260, 280, 300, 320, 340,
            360, 380, 400, 420, 440, 460, 480]
      ∧ (hotSpot.startAttachMechanism silentTargetHost).sleeps.sum = 6000 :=
  ⟨(C28_polling_backoff silentTargetHost rfl rfl (fun _ => rfl) (fun _ => rfl)).1.trans
      (by decide),
    (C28_polling_backoff silentTargetHost rfl rfl (fun _ => rfl) (fun _ => rfl)).2.2.1⟩

/-! ## `openJ9.unescapeString` undoes escaping -/

theorem unescapeLoop_cons_plain (c : Nat) (r : List Nat) (hc : c ≠ 92) :
    unescapeLoop (c :: r) = c :: unescapeLoop r := by
  cases r with
  | nil => rfl
  | cons e t => simp [unescapeLoop, hc]

theorem escape_no_line_feed : ∀ s : List Nat, 10 ∉ escape s
  | [] => by simp [escape]
  | c :: t => by
    have ih := escape_no_line_feed t
    unfold escape
    split_ifs with h1 h2 h3 h4 h5 <;> first | (simp [ih]; done) | (simp [ih]; omega)

theorem unescapeLoop_escape : ∀ s : List Nat, unescapeLoop (escape s) = s
  | [] => rfl
  | c :: t => by
    have ih := unescapeLoop_escape t
    unfold escape
    split_ifs with h1 h2 h3 h4 h5
    · rw [unescapeLoop, if_pos rfl, ih, h1]; rfl
    · rw [unescapeLoop, if_pos rfl, ih, h2]; rfl
    · rw [unescapeLoop, if_pos rfl, ih, h3]; rfl
    · rw [unescapeLoop, if_pos rfl, ih, h4]; rfl
    · rw [unescapeLoop, if_pos rfl, ih, h5]; rfl
    · rw [unescapeLoop_cons_plain c _ h1, ih]

/-- C30: for every string s, `unescapeString` maps the escaped form of s (each
backslash doubled, LF, TAB, CR, FF written as backslash-n, -t, -r, -f) back to s;
this holds for the string a, backslash, b, LF, c, TAB, d, backslash, n as well. -/
theorem C30_unescapeString_undoes_escape :
    (∀ s : List Nat, openJ9.unescapeString (escape s) = s)
      ∧ escape (str "a\\b\nc\td\\n") = str "a\\\\b\\nc\\td\\\\n"
      ∧ openJ9.unescapeString (str "a\\\\b\\nc\\td\\\\n") = str "a\\b\nc\td\\n" := by
  refine ⟨?_, by decide, by decide⟩
  intro s
  simp only [openJ9.unescapeString, Index_no_line_feed _ (escape_no_line_feed s)]
  exact unescapeLoop_escape s

/-! ## The OpenJ9 response: where it ends -/

/-- The claim C27 fails at the bytes a, b, NUL, c, d, NUL: delivered in one read, or as
a, b, NUL, c and then d, NUL, the response taken is a, b, NUL, c, d, not the bytes a, b
that precede the first NUL; only when the first NUL ends a read is the response
a, b. -/
theorem C27_response_depends_on_split :
    (openJ9.readResponse ⟨[.data (str "ab" ++ [0] ++ str "cd" ++ [0])]⟩
        (str "ATTACH_GETSYSTEMPROPERTIES") false).1.output = str "ab" ++ [0] ++ str "cd"
      ∧ (openJ9.readResponse ⟨[.data (str "ab" ++ [0] ++ str "c"), .data (str "d" ++ [0])]⟩
          (str "ATTACH_GETSYSTEMPROPERTIES") false).1.output = str "ab" ++ [0] ++ str "cd"
      ∧ (openJ9.readResponse ⟨[.data (str "ab" ++ [0]), .data (str "cd" ++ [0])]⟩
          (str "ATTACH_GETSYSTEMPROPERTIES") false).1.output = str "ab"
      ∧ str "ab" ++ [0] ++ str "cd" ≠ str "ab" := by
  decide

/-- The last byte of a buffer to which bytes without NUL were added is not NUL. -/
theorem last_not_nul (buf bs : List Nat) (hbs : bs ≠ []) (h0 : 0 ∉ bs) :
    (buf ++ bs).getLast? ≠ some 0 := by
  rw [List.getLast?_append_of_ne_nil buf hbs]
  intro h
  exact h0 (List.mem_of_getLast?_eq_some h)

/-- When bytes are followed by a non-empty rest and both together are a text and its
NUL, the rest ends with the NUL and the bytes start the text. -/
theorem split_before_nul (bs F t : List Nat) (hF : F ≠ []) (h : bs ++ F = t ++ [0]) :
    ∃ t1, F = t1 ++ [0] ∧ t = bs ++ t1 := by
  rcases List.eq_nil_or_concat F with hnil | ⟨L, b, hL⟩
  · exact absurd hnil hF
  · rw [List.concat_eq_append] at hL
    subst hL
    rw [← List.append_assoc] at h
    have hinj := List.append_inj' h rfl
    have hb : b = 0 := by simpa using hinj.2
    subst hb
    exact ⟨L, rfl, hinj.1.symm⟩

/-- One read of at most 1024 bytes from a stream of non-empty chunks: it stores a
non-empty start of the stream and leaves the rest as non-empty chunks, with a smaller
budget. -/
theorem read_chunk (c : List Nat) (cs : List (List Nat)) (rest : List ReadEvent)
    (hc : c ≠ []) (hcs : ∀ x ∈ cs, x ≠ []) :
    ∃ (bs : List Nat) (chunks1 : List (List Nat)),
      netConn.Read ⟨(c :: cs).map ReadEvent.data ++ rest⟩ 1024
          = ((bs.length, bs, none), ⟨chunks1.map ReadEvent.data ++ rest⟩)
        ∧ bs ≠ []
        ∧ bs ++ chunks1.flatten = (c :: cs).flatten
        ∧ (∀ x ∈ chunks1, x ≠ [])
        ∧ (chunks1.map (fun x => x.length + 1)).sum
            < ((c :: cs).map (fun x => x.length + 1)).sum := by
  have hpos : 0 < c.length := List.length_pos.2 hc
  by_cases hle : c.length ≤ 1024
  · refine ⟨c, cs, ?_, hc, rfl, hcs, ?_⟩
    · simp [netConn.Read, hle]
    · simp only [List.map_cons, List.sum_cons]
      omega
  · refine ⟨c.take 1024, c.drop 1024 :: cs, ?_, ?_, ?_, ?_, ?_⟩
    · have hlen : (c.take 1024).length = 1024 := by
        rw [List.length_take]; omega
      simp [netConn.Read, hle, hlen]
    · intro h
      have : (c.take 1024).length = 0 := by rw [h]; rfl
      rw [List.length_take] at this
      omega
    · simp only [List.flatten_cons, ← List.append_assoc, List.take_append_drop]
    · intro x hx
      rcases List.mem_cons.1 hx with rfl | hx
      · intro h
        have : (c.drop 1024).length = 0 := by rw [h]; rfl
        rw [List.length_drop] at this
        omega
      · exact hcs x hx
    · simp only [List.map_cons, List.sum_cons, List.length_drop]
      omega

/-- The read loop on a stream of non-empty chunks that make up a text without NUL of
at most 10 MiB and a final NUL: it returns the text and leaves what comes after. -/
theorem readUntilNul_terminated : ∀ (fuel : Nat) (chunks : List (List Nat))
    (buf t : List Nat) (rest : List ReadEvent),
    (∀ c ∈ chunks, c ≠ []) → chunks.flatten = t ++ [0] → 0 ∉ t →
    (buf ++ t).length ≤ 10 * 1024 * 1024 →
    (chunks.map (fun x => x.length + 1)).sum < fuel →
    readUntilNul fuel ⟨chunks.map ReadEvent.data ++ rest⟩ buf = (.ok (buf ++ t), ⟨rest⟩)
  | 0, _, _, _, _, _, _, _, _, hfuel => absurd hfuel (Nat.not_lt_zero _)
  | fuel + 1, [], _, t, _, _, hflat, _, _, _ => by
    simp at hflat
  | fuel + 1, c :: cs, buf, t, rest, hne, hflat, ht, hsize, hfuel => by
    obtain ⟨bs, chunks1, hread, hbs, hcat, hne1, hbudget⟩ :=
      read_chunk c cs rest (hne c (by simp)) (fun x hx => hne x (by simp [hx]))
    have hn : ¬ (bs.length = 0) := fun h => hbs (List.length_eq_zero.1 h)
    rw [hflat] at hcat
    unfold readUntilNul
    rw [hread]
    simp only [hn, if_false]
    by_cases hlast : chunks1 = []
    · subst hlast
      simp only [List.flatten_nil, List.append_nil] at hcat
      subst hcat
      have hl : (buf ++ (t ++ [0])).getLast? = some 0 := by
        rw [← List.append_assoc]
        exact List.getLast?_concat _
      simp only [hl, if_true, List.map_nil, List.nil_append]
      rw [← List.append_assoc, List.dropLast_concat]
    · have hF : chunks1.flatten ≠ [] := by
        intro h
        rcases chunks1 with _ | ⟨x, xs⟩
        · exact hlast rfl
        · have := List.flatten_eq_nil_iff.1 h x (by simp)
          exact hne1 x (by simp) this
      obtain ⟨t1, hF1, ht1⟩ := split_before_nul bs chunks1.flatten t hF hcat
      have h0bs : 0 ∉ bs := fun h => ht (by rw [ht1]; exact List.mem_append_left _ h)
      have h0t1 : 0 ∉ t1 := fun h => ht (by rw [ht1]; exact List.mem_append_right _ h)
      have hnl := last_not_nul buf bs hbs h0bs
      have hsz : ¬ (10 * 1024 * 1024 < (buf ++ bs).length) := by
        rw [ht1] at hsize
        simp only [List.length_append] at hsize ⊢
        omega
      simp only [hnl, hsz, if_false]
      have ih := readUntilNul_terminated fuel chunks1 (buf ++ bs) t1 rest hne1 hF1 h0t1
        (by rw [List.append_assoc, ← ht1]; exact hsize) (by omega)
      rw [ih, List.append_assoc, ← ht1]

/-- The read loop on a stream of non-empty chunks without NUL that hold more than
10 MiB together with the buffer: it fails with "response too large". -/
theorem readUntilNul_too_large : ∀ (fuel : Nat) (chunks : List (List Nat))
    (buf : List Nat) (rest : List ReadEvent),
    (∀ c ∈ chunks, c ≠ []) → 0 ∉ chunks.flatten →
    buf.length ≤ 10 * 1024 * 1024 →
    10 * 1024 * 1024 < buf.length + chunks.flatten.length →
    (chunks.map (fun x => x.length + 1)).sum < fuel →
    (readUntilNul fuel ⟨chunks.map ReadEvent.data ++ rest⟩ buf).1
      = .error (.msg (str "response too large"))
  | 0, _, _, _, _, _, _, _, hfuel => absurd hfuel (Nat.not_lt_zero _)
  | fuel + 1, [], _, _, _, _, hbuf, hbig, _ => by
    simp only [List.flatten_nil, List.length_nil] at hbig
    omega
  | fuel + 1, c :: cs, buf, rest, hne, h0, hbuf, hbig, hfuel => by
    obtain ⟨bs, chunks1, hread, hbs, hcat, hne1, hbudget⟩ :=
      read_chunk c cs rest (hne c (by simp)) (fun x hx => hne x (by simp [hx]))
    have hn : ¬ (bs.length = 0) := fun h => hbs (List.length_eq_zero.1 h)
    rw [← hcat] at h0 hbig
    have h0bs : 0 ∉ bs := fun h => h0 (List.mem_append_left _ h)
    have h01 : 0 ∉ chunks1.flatten := fun h => h0 (List.mem_append_right _ h)
    have hnl := last_not_nul buf bs hbs h0bs
    unfold readUntilNul
    rw [hread]
    simp only [hn, hnl, if_false]
    by_cases hsz : 10 * 1024 * 1024 < (buf ++ bs).length
    · simp only [hsz, if_true]
    · simp only [hsz, if_false]
      exact readUntilNul_too_large fuel chunks1 (buf ++ bs) rest hne1 h01 (by omega)
        (by simp only [List.length_append] at hbig ⊢; omega) (by omega)

/-- The budget of a connection covers that of the chunks it starts with. -/
theorem budget_chunks (chunks : List (List Nat)) (rest : List ReadEvent) :
    (chunks.map (fun x => x.length + 1)).sum
      < (netConn.mk (chunks.map ReadEvent.data ++ rest)).budget + 1 := by
  have h : (netConn.mk (chunks.map ReadEvent.data ++ rest)).budget
      = (chunks.map (fun x => x.length + 1)).sum + (netConn.mk rest).budget := by
    simp only [netConn.budget, List.map_append, List.sum_append, List.map_map]
    rfl
  omega

/-- C27 as amended: for every way the bytes of the VM are split into non-empty pieces
across reads, when these bytes are a text without NUL of at most 10 MiB followed by
one NUL, `readResponse` takes exactly that text as the response and leaves what
arrives later unread; and when they hold no NUL and more than 10 MiB, it fails with
the error "response too large" and the status 1. -/
theorem C27_readResponse_terminator (chunks : List (List Nat)) (rest : List ReadEvent)
    (cmd : List Nat) (printOutput : Bool) (hne : ∀ c ∈ chunks, c ≠ []) :
    (∀ r : List Nat, 0 ∉ r → r.length ≤ 10 * 1024 * 1024 → chunks.flatten = r ++ [0] →
        openJ9.readResponse ⟨chunks.map ReadEvent.data ++ rest⟩ cmd printOutput
          = (openJ9.processResponse r cmd printOutput, ⟨rest⟩))
      ∧ (0 ∉ chunks.flatten → 10 * 1024 * 1024 < chunks.flatten.length →
          (openJ9.readResponse ⟨chunks.map ReadEvent.data ++ rest⟩ cmd printOutput).1
            = ⟨[], 1, some (.msg (str "response too large")), []⟩) := by
  constructor
  · intro r h0 hsize hflat
    have h := readUntilNul_terminated _ chunks [] r rest hne hflat h0
      (by simpa using hsize) (budget_chunks chunks rest)
    simp only [List.nil_append] at h
    simp only [openJ9.readResponse, h]
  · intro h0 hbig
    have h := readUntilNul_too_large _ chunks [] rest hne h0 (by simp)
      (by simpa using hbig) (budget_chunks chunks rest)
    rcases hr : readUntilNul ((netConn.mk (chunks.map ReadEvent.data ++ rest)).budget + 1)
      ⟨chunks.map ReadEvent.data ++ rest⟩ [] with ⟨res, c1⟩
    rw [hr] at h
    simp only at h
    subst h
    simp only [openJ9.readResponse, hr]

/-- C27 as amended, on the response ATTACH_ACK split into three pieces and followed by
a later message. -/
theorem C27_readResponse_terminator_witness :
    openJ9.readResponse
        ⟨[.data (str "ATT"), .data (str "ACH_A"), .data (str "CK" ++ [0]),
          .data (str "later" ++ [0])]⟩ (str "ATTACH_GETSYSTEMPROPERTIES") false
      = (⟨str "ATTACH_ACK", 0, none, []⟩, ⟨[.data (str "later" ++ [0])]⟩) :=
  ((C27_readResponse_terminator [str "ATT", str "ACH_A", str "CK" ++ [0]]
      [.data (str "later" ++ [0])] (str "ATTACH_GETSYSTEMPROPERTIES") false (by decide)).1
    (str "ATTACH_ACK") (by decide) (by decide) (by decide)).trans (by decide)

/-! ## Process information on Linux -/

/-- Every field `strings.Fields` yields is non-empty. -/
theorem fieldsLoop_ne_nil : ∀ (s : List Nat) (skip : Nat) (cur : List Nat),
    ∀ x ∈ fieldsLoop s skip cur, x ≠ []
  | [], _, cur => by
    intro x hx
    unfold fieldsLoop at hx
    split_ifs at hx with h
    · simp at hx
    · simp only [List.mem_singleton] at hx
      subst hx
      exact h
  | _ :: t, skip + 1, cur => by
    intro x hx
    unfold fieldsLoop at hx
    exact fieldsLoop_ne_nil t skip cur x hx
  | c :: t, 0, cur => by
    intro x hx
    unfold fieldsLoop at hx
    split_ifs at hx with h1 h2
    · exact fieldsLoop_ne_nil t 0 (cur ++ [c]) x hx
    · exact fieldsLoop_ne_nil t _ [] x hx
    · rcases List.mem_cons.1 hx with rfl | hx
      · exact h2
      · exact fieldsLoop_ne_nil t _ [] x hx

/-- The second field of a line with at least two fields is non-empty. -/
theorem Fields_second_ne_nil (l : List Nat) (h : 2 ≤ (Fields l).length) :
    (Fields l).getD 1 [] ≠ [] := by
  have hlt : 1 < (Fields l).length := h
  rw [List.getD_eq_getElem _ _ hlt]
  exact fieldsLoop_ne_nil l 0 [] _ (List.getElem_mem hlt)

/-- The last labelled line of a list of lines with one more line at its end. -/
theorem lastLabelled_concat (label : List Nat) (ls : List (List Nat)) (l : List Nat) :
    lastLabelled label (ls ++ [l])
      = if label.isPrefixOf l = true ∧ 2 ≤ (Fields l).length then some l
        else lastLabelled label ls := by
  unfold lastLabelled
  rw [List.filter_append]
  by_cases h : label.isPrefixOf l = true ∧ 2 ≤ (Fields l).length
  · rw [if_pos h]
    simp [List.filter_cons, h.1, h.2]
  · rw [if_neg h]
    have hp : (label.isPrefixOf l && decide (2 ≤ (Fields l).length)) = false := by
      rw [Bool.eq_false_iff]
      intro hp
      simp only [Bool.and_eq_true, decide_eq_true_eq] at hp
      exact h hp
    simp [List.filter_cons, hp]

/-- A labelled line that was found begins with the label and has two fields. -/
theorem lastLabelled_some (label : List Nat) (lines : List (List Nat)) (l : List Nat)
    (h : lastLabelled label lines = some l) :
    label.isPrefixOf l = true ∧ 2 ≤ (Fields l).length := by
  have hmem := List.mem_of_getLast?_eq_some h
  have hp := (List.mem_filter.1 hmem).2
  simpa using hp

/-- A line begins with at most one of the three labels. -/
theorem labels_disjoint (l : List Nat) :
    ((str "Uid:").isPrefixOf l = true → (str "Gid:").isPrefixOf l = false
        ∧ (str "NStgid:").isPrefixOf l = false)
      ∧ ((str "Gid:").isPrefixOf l = true → (str "NStgid:").isPrefixOf l = false) := by
  have hu : str "Uid:" = [85, 105, 100, 58] := by decide
  have hg : str "Gid:" = [71, 105, 100, 58] := by decide
  have hn : str "NStgid:" = [78, 83, 116, 103, 105, 100, 58] := by decide
  rw [hu, hg, hn]
  cases l with
  | nil => simp [List.isPrefixOf]
  | cons b bs =>
    simp only [List.isPrefixOf, Bool.and_eq_true, beq_iff_eq, Bool.and_eq_false_imp]
    refine ⟨fun h => ⟨fun h2 => ?_, fun h2 => ?_⟩, fun h h2 => ?_⟩ <;> omega

/-- The variables of the scan loop of `getProcessInfo` after the loop, by the last
labelled lines. -/
theorem scan_by_last_labelled (s : StatusScan) (lines : List (List Nat)) :
    lines.foldl scanStatusLine s
      = ⟨(lastLabelled (str "Uid:") lines).elim s.uidStr (fun u => (Fields u).getD 1 []),
         (lastLabelled (str "Gid:") lines).elim s.gidStr (fun g => (Fields g).getD 1 []),
         (lastLabelled (str "NStgid:") lines).elim s.nspid
           (fun n => (Atoi ((Fields n).getLast?.getD [])).1),
         (lastLabelled (str "NStgid:") lines).isSome || s.nspidFound⟩ := by
  induction lines using List.reverseRecOn with
  | nil => simp [lastLabelled]
  | append_singleton ls l ih =>
    rw [List.foldl_append, List.foldl_cons, List.foldl_nil, ih]
    simp only [lastLabelled_concat]
    obtain ⟨hug, hgn⟩ := labels_disjoint l
    unfold scanStatusLine
    by_cases hu : (str "Uid:").isPrefixOf l = true
    · obtain ⟨hg, hn⟩ := hug hu
      by_cases h2 : 2 ≤ (Fields l).length <;> simp [hu, hg, hn, h2]
    · by_cases hg : (str "Gid:").isPrefixOf l = true
      · have hn := hgn hg
        by_cases h2 : 2 ≤ (Fields l).length <;> simp [hu, hg, hn, h2]
      · by_cases hn : (str "NStgid:").isPrefixOf l = true
        · by_cases h2 : 2 ≤ (Fields l).length <;> simp [hu, hg, hn, h2, List.getLast?_eq_getElem?]
        · simp [hu, hg, hn]

/-- The scan of `strings.Fields` at a byte that starts no white-space rune. -/
theorem fieldsLoop_plain (c : Nat) (t cur : List Nat) (h : spaceWidth (c :: t) = 0) :
    fieldsLoop (c :: t) 0 cur = fieldsLoop t 0 (cur ++ [c]) := by
  rw [fieldsLoop, if_pos h]

/-- The scan of `strings.Fields` at an ASCII white-space byte that ends a field. -/
theorem fieldsLoop_space (w : Nat) (rest cur : List Nat) (hw : isAsciiSpace w = true)
    (hcur : cur ≠ []) : fieldsLoop (w :: rest) 0 cur = cur :: fieldsLoop rest 0 [] := by
  have hs : spaceWidth (w :: rest) = 1 := by simp [spaceWidth, hw]
  rw [fieldsLoop, hs, if_neg (by decide), if_neg hcur]

/-- The fields of a line that starts with a label of letters and a colon followed by
an ASCII white-space byte: the label, then the fields of the rest. -/
theorem Fields_after_label (w : Nat) (rest : List Nat) (hw : isAsciiSpace w = true) :
    Fields (str "Uid:" ++ w :: rest) = str "Uid:" :: Fields rest
      ∧ Fields (str "Gid:" ++ w :: rest) = str "Gid:" :: Fields rest
      ∧ Fields (str "NStgid:" ++ w :: rest) = str "NStgid:" :: Fields rest := by
  have hu : str "Uid:" = [85, 105, 100, 58] := by decide
  have hg : str "Gid:" = [71, 105, 100, 58] := by decide
  have hn : str "NStgid:" = [78, 83, 116, 103, 105, 100, 58] := by decide
  rw [hu, hg, hn]
  simp only [Fields, List.cons_append, List.nil_append]
  refine ⟨?_, ?_, ?_⟩
  · rw [fieldsLoop_plain 85 _ _ (by simp [spaceWidth, isAsciiSpace]),
      fieldsLoop_plain 105 _ _ (by simp [spaceWidth, isAsciiSpace]),
      fieldsLoop_plain 100 _ _ (by simp [spaceWidth, isAsciiSpace]),
      fieldsLoop_plain 58 _ _ (by simp [spaceWidth, isAsciiSpace]),
      fieldsLoop_space w rest _ hw (by simp)]
    rfl
  · rw [fieldsLoop_plain 71 _ _ (by simp [spaceWidth, isAsciiSpace]),
      fieldsLoop_plain 105 _ _ (by simp [spaceWidth, isAsciiSpace]),
      fieldsLoop_plain 100 _ _ (by simp [spaceWidth, isAsciiSpace]),
      fieldsLoop_plain 58 _ _ (by simp [spaceWidth, isAsciiSpace]),
      fieldsLoop_space w rest _ hw (by simp)]
    rfl
  · rw [fieldsLoop_plain 78 _ _ (by simp [spaceWidth, isAsciiSpace]),
      fieldsLoop_plain 83 _ _ (by simp [spaceWidth, isAsciiSpace]),
      fieldsLoop_plain 116 _ _ (by simp [spaceWidth, isAsciiSpace]),
      fieldsLoop_plain 103 _ _ (by simp [spaceWidth, isAsciiSpace]),
      fieldsLoop_plain 105 _ _ (by simp [spaceWidth, isAsciiSpace]),
      fieldsLoop_plain 100 _ _ (by simp [spaceWidth, isAsciiSpace]),
      fieldsLoop_plain 58 _ _ (by simp [spaceWidth, isAsciiSpace]),
      fieldsLoop_space w rest _ hw (by simp)]
    rfl

/-- What `getProcessInfo` returns, by the last labelled lines among the lines the
scanner yields. -/
theorem getProcessInfo_by_lines (content : List Nat) (fallback : Int) :
    getProcessInfo (.ok content) fallback
      = processInfoOfLines (scanLines content) fallback := by
  unfold getProcessInfo processInfoOfLines
  simp only [scan_by_last_labelled]
  rcases hu : lastLabelled (str "Uid:") (scanLines content) with _ | u
  · simp
  · rcases hg : lastLabelled (str "Gid:") (scanLines content) with _ | g
    · simp
    · have hu2 := Fields_second_ne_nil u (lastLabelled_some _ _ _ hu).2
      have hg2 := Fields_second_ne_nil g (lastLabelled_some _ _ _ hg).2
      rw [List.getD_eq_getElem?_getD] at hu2 hg2
      rcases hn : lastLabelled (str "NStgid:") (scanLines content) with _ | n <;>
        simp [hu2, hg2]

/-- The field after a label that is followed by white space. -/
theorem Fields_value_after_label (w : Nat) (rest : List Nat) (hw : isAsciiSpace w = true) :
    (Fields (str "Uid:" ++ w :: rest)).getD 1 [] = (Fields rest).headD []
      ∧ (Fields (str "Gid:" ++ w :: rest)).getD 1 [] = (Fields rest).headD []
      ∧ ((Fields rest ≠ []) →
          (Fields (str "NStgid:" ++ w :: rest)).getLast? = (Fields rest).getLast?) := by
  obtain ⟨h1, h2, h3⟩ := Fields_after_label w rest hw
  rw [h1, h2, h3]
  refine ⟨?_, ?_, ?_⟩
  · cases Fields rest <;> rfl
  · cases Fields rest <;> rfl
  · intro hne
    cases hf : Fields rest with
    | nil => exact absurd hf hne
    | cons a as => simp [List.getLast?_cons_cons]

/-! ### The status file as the kernel writes it -/

/-- A file of lines has at least as many bytes as lines. -/
theorem fileOfLines_length : ∀ (lines : List (List Nat)),
    lines.length ≤ (fileOfLines lines).length
  | [] => by simp
  | l :: ls => by
    have ih := fileOfLines_length ls
    simp only [fileOfLines, List.map_cons, List.flatten_cons, List.length_append,
      List.length_cons, List.length_nil] at ih ⊢
    omega

/-- The pieces of a file of lines without line feed: the lines and an empty piece. -/
theorem splitLoop_fileOfLines : ∀ (lines : List (List Nat)) (k : Nat),
    (∀ l ∈ lines, 10 ∉ l) → lines.length ≤ k →
    splitLoop (str "\n") k (fileOfLines lines) = lines ++ [[]]
  | [], k, _, _ => by
    have h : fileOfLines [] = [] := rfl
    rw [h, splitLoop_nil]
    rfl
  | l :: ls, 0, _, hk => by simp at hk
  | l :: ls, k + 1, h, hk => by
    have hl : fileOfLines (l :: ls) = l ++ 10 :: fileOfLines ls := by
      simp [fileOfLines]
    rw [hl, splitLoop_line k l _ (h l (by simp)),
      splitLoop_fileOfLines ls k (fun x hx => h x (by simp [hx])) (by simpa using hk)]
    rfl

/-- The scanner yields the lines of a file of lines that each fit its buffer, without
a final carriage return. -/
theorem scanLines_fileOfLines (lines : List (List Nat))
    (h : ∀ l ∈ lines, 10 ∉ l ∧ l.length ≤ 65535) :
    scanLines (fileOfLines lines) = lines.map dropCR := by
  have hs : Split (fileOfLines lines) (str "\n") = lines ++ [[]] :=
    splitLoop_fileOfLines lines _ (fun l hl => (h l hl).1) (fileOfLines_length lines)
  unfold scanLines rawLines
  rw [hs, List.getLast?_concat, if_pos rfl, List.dropLast_concat]
  congr 1
  rw [List.takeWhile_eq_self_iff]
  intro l hl
  simpa using (h l hl).2

/-- A label that starts a line without its final carriage return starts the line. -/
theorem isPrefixOf_dropCR (label l : List Nat) (h : label.isPrefixOf (dropCR l) = true) :
    label.isPrefixOf l = true := by
  rw [List.isPrefixOf_iff_prefix] at h ⊢
  unfold dropCR at h
  split_ifs at h
  · exact h.trans (List.dropLast_prefix l)
  · exact h

/-- The decimal text of a natural number is a non-empty run of digits. -/
theorem Itoa_digits (v : Nat) :
    Itoa (v : Int) ≠ [] ∧ ∀ c ∈ Itoa (v : Int), 48 ≤ c ∧ c ≤ 57 := by
  have hval : digitsValue (natDigits v) 0 = some v :=
    digitsValue_toDigitsCore (v + 1) v (Nat.lt_succ_self _)
  have hi : Itoa (v : Int) = natDigits v := by
    unfold Itoa
    have hneg : ¬ ((v : Int) < 0) := by omega
    rw [if_neg hneg, Int.natAbs_ofNat]
  rw [hi]
  exact ⟨natDigits_ne_nil v, digitsValue_digits _ _ _ hval⟩

/-- A printable ASCII byte starts no white-space rune. -/
theorem spaceWidth_plain (c : Nat) (t : List Nat) (hc : 33 ≤ c ∧ c ≤ 127) :
    spaceWidth (c :: t) = 0 := by
  have hsp : isAsciiSpace c = false := by
    simp [isAsciiSpace]; omega
  unfold spaceWidth
  simp only [hsp, Bool.false_eq_true, if_false]
  split <;> first | rfl | (exfalso; omega)

/-- The scan of `strings.Fields` over a run of printable ASCII bytes adds them to the
field it collects. -/
theorem fieldsLoop_plain_run : ∀ (ds rest cur : List Nat),
    (∀ c ∈ ds, 33 ≤ c ∧ c ≤ 127) →
    fieldsLoop (ds ++ rest) 0 cur = fieldsLoop rest 0 (cur ++ ds)
  | [], rest, cur, _ => by simp
  | c :: ds, rest, cur, h => by
    rw [List.cons_append, fieldsLoop_plain c _ cur (spaceWidth_plain c _ (h c (by simp))),
      fieldsLoop_plain_run ds rest _ (fun x hx => h x (by simp [hx]))]
    simp

/-- The scan of `strings.Fields` over values that each follow a tab, after a field that
has begun: that field, then the values. -/
theorem fieldsLoop_values : ∀ (values : List Nat) (cur : List Nat), cur ≠ [] →
    fieldsLoop ((values.map (fun (v : Nat) => 9 :: Itoa (v : Int))).flatten) 0 cur
      = cur :: values.map (fun (v : Nat) => Itoa (v : Int))
  | [], cur, hcur => by
    simp only [List.map_nil, List.flatten_nil]
    rw [fieldsLoop, if_neg hcur]
  | v :: vs, cur, hcur => by
    have hd := Itoa_digits v
    simp only [List.map_cons, List.flatten_cons, List.cons_append]
    rw [fieldsLoop_space 9 _ cur (by decide) hcur,
      fieldsLoop_plain_run (Itoa (v : Int)) _ []
        (fun c hc => by have := hd.2 c hc; omega),
      List.nil_append, fieldsLoop_values vs _ hd.1]

/-- The fields of a status line: the label, then the values in decimal. -/
theorem Fields_statusLine (label : List Nat) (values : List Nat) (hl : label ≠ [])
    (hp : ∀ c ∈ label, 33 ≤ c ∧ c ≤ 127) :
    Fields (statusLine label values)
      = label :: values.map (fun (v : Nat) => Itoa (v : Int)) := by
  unfold Fields statusLine
  rw [fieldsLoop_plain_run label _ [] hp, List.nil_append, fieldsLoop_values values label hl]

/-- A status line does not end with a carriage return. -/
theorem dropCR_statusLine (label : List Nat) (values : List Nat)
    (hp : ∀ c ∈ label, 33 ≤ c ∧ c ≤ 127) :
    dropCR (statusLine label values) = statusLine label values := by
  unfold dropCR
  rw [if_neg]
  intro h
  have hmem := List.mem_of_getLast?_eq_some h
  unfold statusLine at hmem
  rcases List.mem_append.1 hmem with hm | hm
  · have := hp 13 hm
    omega
  · obtain ⟨piece, hpiece, h13⟩ := List.mem_flatten.1 hm
    obtain ⟨v, _, rfl⟩ := List.mem_map.1 hpiece
    rcases List.mem_cons.1 h13 with h9 | hd
    · omega
    · have := (Itoa_digits v).2 13 hd
      omega

/-- A label starts its status line. -/
theorem isPrefixOf_statusLine (label : List Nat) (values : List Nat) :
    label.isPrefixOf (statusLine label values) = true := by
  rw [List.isPrefixOf_iff_prefix]
  exact List.prefix_append _ _

/-- A label that starts no line of the file labels no line the scanner yields. -/
theorem lastLabelled_absent (label : List Nat) (lines : List (List Nat))
    (h : ∀ l ∈ lines, label.isPrefixOf l = false) :
    lastLabelled label (lines.map dropCR) = none := by
  unfold lastLabelled
  have hnil : (lines.map dropCR).filter
      (fun l => label.isPrefixOf l && decide (2 ≤ (Fields l).length)) = [] := by
    rw [List.filter_eq_nil_iff]
    intro x hx hpx
    obtain ⟨l, hl, rfl⟩ := List.mem_map.1 hx
    simp only [Bool.and_eq_true, decide_eq_true_eq] at hpx
    have := isPrefixOf_dropCR label l hpx.1
    rw [h l hl] at this
    exact Bool.false_ne_true this
  rw [hnil]
  rfl

/-- The one status line of the file with a label is the last labelled line among the
lines the scanner yields. -/
theorem lastLabelled_present (label : List Nat) (lines : List (List Nat))
    (values : List Nat) (hl : label ≠ []) (hp : ∀ c ∈ label, 33 ≤ c ∧ c ≤ 127)
    (hv : values ≠ []) (hm : statusLine label values ∈ lines)
    (hu : ∀ l ∈ lines, label.isPrefixOf l = true → l = statusLine label values) :
    lastLabelled label (lines.map dropCR) = some (statusLine label values) := by
  unfold lastLabelled
  have hlen : 2 ≤ (Fields (statusLine label values)).length := by
    rw [Fields_statusLine label values hl hp]
    have := List.length_pos.2 hv
    simp only [List.length_cons, List.length_map]
    omega
  have hin : statusLine label values ∈ (lines.map dropCR).filter
      (fun l => label.isPrefixOf l && decide (2 ≤ (Fields l).length)) := by
    rw [List.mem_filter]
    refine ⟨List.mem_map.2 ⟨_, hm, dropCR_statusLine label values hp⟩, ?_⟩
    simp [isPrefixOf_statusLine, hlen]
  have hall : ∀ x ∈ (lines.map dropCR).filter
      (fun l => label.isPrefixOf l && decide (2 ≤ (Fields l).length)),
      x = statusLine label values := by
    intro x hx
    obtain ⟨hx1, hx2⟩ := List.mem_filter.1 hx
    obtain ⟨l, hlm, rfl⟩ := List.mem_map.1 hx1
    simp only [Bool.and_eq_true, decide_eq_true_eq] at hx2
    rw [hu l hlm (isPrefixOf_dropCR label l hx2.1)]
    exact dropCR_statusLine label values hp
  have hne := List.ne_nil_of_mem hin
  rw [List.getLast?_eq_getLast _ hne]
  exact congrArg some (hall _ (List.getLast_mem hne))

/-- C29: for every status file made of lines without line feed that fit the buffer of
the scanner, in which the lines labelled "Uid:", "Gid:" and "NStgid:" are as the
kernel writes them (the label, then the values in decimal, each after a tab), and
every value fits an `int`: `getProcessInfo` returns as uid and gid the first value of
the Uid and of the Gid line and as ns_pid the last value of the NStgid line, which is
greater than 0 as the kernel's process ids are; it fails when there is no Uid or no Gid
line; and it takes the fallback value exactly when there is no NStgid line. -/
theorem C29_getProcessInfo_kernel_format (lines : List (List Nat)) (fallback : Int)
    (hlines : ∀ l ∈ lines, 10 ∉ l ∧ l.length ≤ 65535) :
    (((∀ l ∈ lines, (str "Uid:").isPrefixOf l = false)
          ∨ (∀ l ∈ lines, (str "Gid:").isPrefixOf l = false)) →
        getProcessInfo (.ok (fileOfLines lines)) fallback
          = (⟨0, 0, 0, some (.msg (str "failed to parse process info"))⟩, false))
      ∧ ∀ (uid gid : Nat) (uids gids : List Nat), uid < 2 ^ 63 → gid < 2 ^ 63 →
          statusLine (str "Uid:") (uid :: uids) ∈ lines →
          (∀ l ∈ lines, (str "Uid:").isPrefixOf l = true →
            l = statusLine (str "Uid:") (uid :: uids)) →
          statusLine (str "Gid:") (gid :: gids) ∈ lines →
          (∀ l ∈ lines, (str "Gid:").isPrefixOf l = true →
            l = statusLine (str "Gid:") (gid :: gids)) →
          (∀ (pids : List Nat) (nspid : Nat), 0 < nspid → nspid < 2 ^ 63 →
              statusLine (str "NStgid:") (pids ++ [nspid]) ∈ lines →
              (∀ l ∈ lines, (str "NStgid:").isPrefixOf l = true →
                l = statusLine (str "NStgid:") (pids ++ [nspid])) →
              getProcessInfo (.ok (fileOfLines lines)) fallback
                  = (⟨(uid : Int), (gid : Int), (nspid : Int), none⟩, false)
                ∧ 0 < (getProcessInfo (.ok (fileOfLines lines)) fallback).1.nspid)
            ∧ ((∀ l ∈ lines, (str "NStgid:").isPrefixOf l = false) →
                getProcessInfo (.ok (fileOfLines lines)) fallback
                  = (⟨(uid : Int), (gid : Int), fallback, none⟩, true)) := by
  have hscan := scanLines_fileOfLines lines hlines
  have hpU : ∀ c ∈ str "Uid:", 33 ≤ c ∧ c ≤ 127 := by decide
  have hpG : ∀ c ∈ str "Gid:", 33 ≤ c ∧ c ≤ 127 := by decide
  have hpN : ∀ c ∈ str "NStgid:", 33 ≤ c ∧ c ≤ 127 := by decide
  have hnU : str "Uid:" ≠ [] := by decide
  have hnG : str "Gid:" ≠ [] := by decide
  have hnN : str "NStgid:" ≠ [] := by decide
  constructor
  · intro hmiss
    rw [getProcessInfo_by_lines, hscan]
    unfold processInfoOfLines
    rcases hmiss with hu | hg
    · rw [lastLabelled_absent (str "Uid:") lines hu]
    · rw [lastLabelled_absent (str "Gid:") lines hg]
      cases lastLabelled (str "Uid:") (lines.map dropCR) <;> rfl
  · intro uid gid uids gids huid hgid hum huu hgm hgu
    have hU := lastLabelled_present (str "Uid:") lines (uid :: uids) hnU hpU (by simp) hum huu
    have hG := lastLabelled_present (str "Gid:") lines (gid :: gids) hnG hpG (by simp) hgm hgu
    have hAu : Atoi (Itoa (uid : Int)) = ((uid : Int), none) :=
      Atoi_Itoa _ (by omega) (by omega)
    have hAg : Atoi (Itoa (gid : Int)) = ((gid : Int), none) :=
      Atoi_Itoa _ (by omega) (by omega)
    have hFu : (Fields (statusLine (str "Uid:") (uid :: uids))).getD 1 []
        = Itoa (uid : Int) := by
      rw [Fields_statusLine _ _ hnU hpU]; rfl
    have hFg : (Fields (statusLine (str "Gid:") (gid :: gids))).getD 1 []
        = Itoa (gid : Int) := by
      rw [Fields_statusLine _ _ hnG hpG]; rfl
    constructor
    · intro pids nspid hpos hns hnm hnu
      have hN := lastLabelled_present (str "NStgid:") lines (pids ++ [nspid]) hnN hpN
        (by simp) hnm hnu
      have hAn : Atoi (Itoa (nspid : Int)) = ((nspid : Int), none) :=
        Atoi_Itoa _ (by omega) (by omega)
      have hFn : (Fields (statusLine (str "NStgid:") (pids ++ [nspid]))).getLast?.getD []
          = Itoa (nspid : Int) := by
        rw [Fields_statusLine _ _ hnN hpN, List.map_append, List.map_cons, List.map_nil,
          ← List.cons_append, List.getLast?_concat]
        rfl
      have hres : getProcessInfo (.ok (fileOfLines lines)) fallback
          = (⟨(uid : Int), (gid : Int), (nspid : Int), none⟩, false) := by
        rw [getProcessInfo_by_lines, hscan]
        unfold processInfoOfLines
        rw [hU, hG, hN]
        simp only [hFu, hFg, hFn, hAu, hAg, hAn]
      refine ⟨hres, ?_⟩
      rw [hres]
      show (0 : Int) < (nspid : Int)
      omega
    · intro hno
      rw [getProcessInfo_by_lines, hscan]
      unfold processInfoOfLines
      rw [hU, hG, lastLabelled_absent (str "NStgid:") lines hno]
      simp only [hFu, hFg, hAu, hAg]

/-- C29 on a status file with the lines Name, Uid, Gid and NStgid: the uid 1000, the gid
100 and the ns_pid 17, the last value of the NStgid line. -/
theorem C29_getProcessInfo_kernel_format_witness :
    fileOfLines [str "Name:\tjava", str "Uid:\t1000\t1000\t1000\t1000",
          str "Gid:\t100\t100\t100\t100", str "NStgid:\t4242\t17"]
        = str "Name:\tjava\nUid:\t1000\t1000\t1000\t1000\nGid:\t100\t100\t100\t100\nNStgid:\t4242\t17\n"
      ∧ getProcessInfo (.ok (fileOfLines [str "Name:\tjava",
          str "Uid:\t1000\t1000\t1000\t1000", str "Gid:\t100\t100\t100\t100",
          str "NStgid:\t4242\t17"])) 9 = (⟨1000, 100, 17, none⟩, false) :=
  ⟨by decide,
    (((C29_getProcessInfo_kernel_format [str "Name:\tjava",
        str "Uid:\t1000\t1000\t1000\t1000", str "Gid:\t100\t100\t100\t100",
        str "NStgid:\t4242\t17"] 9 (by decide)).2 1000 100 [1000, 1000, 1000]
        [100, 100, 100] (by decide) (by decide) (by decide) (by decide) (by decide)
        (by decide)).1 [4242] 17 (by decide) (by decide) (by decide) (by decide)).1⟩

end Jambo
